import Mathlib

/-!
# GreensV4BC: blood-gas model, root finders and the boundary-condition balance loop

A shallow embedding of `blood.cpp` and of the balance loop of `main.cpp`.

The C code computes in `float`.  The embedding is generic over a linearly
ordered field `α` (so every definition is executable, for instance over `ℚ`)
and takes the C library function `pow` as a parameter.  The theorems are
stated over `ℝ` with `pow := Real.rpow`, i.e. they describe the program
with exact real arithmetic in place of rounding.  Division by zero follows the
field convention `x / 0 = 0`, where the C program gets an infinity or a NaN; a
statement about a quotient is to be read for a nonzero denominator.
-/

namespace GreensV4BC

/-- The `extern float` blood-gas parameters shared by `blood`, `bloodconc`
and `bloodconcp` (`fn, alphab, p50, cs, plow, phigh, clowfac, chighfac,
pphighfac` in `main.cpp`, lines 54-55). -/
structure BloodParams (α : Type) where
  fn : α
  alphab : α
  p50 : α
  cs : α
  plow : α
  phigh : α
  clowfac : α
  chighfac : α
  pphighfac : α

/-- Console messages: the warnings printed by the root finders (`printf` in
`rtflsp` and `rtbis`) and the "boundary node not classified" error of the
balance loop.  The "maximum number of iterations" message of `rtflsp` is
commented out in the source, so it has no constructor. -/
inductive Msg where
  | rtflspNotBracketed
  | rtbisNotBracketed
  | rtbisMaxIter
  | bcNodeNotClassified (inodbc : Nat)
  deriving DecidableEq, Repr

/-- What a root finder hands back: the returned `float` and what it printed. -/
structure RootResult (α : Type) where
  val : α
  msgs : List Msg

/-- What `blood` writes through `*p` and `*pp`, and what was printed meanwhile. -/
structure BloodResult (α : Type) where
  p : α
  pp : α
  msgs : List Msg

/-- One boundary node as the balance loop reads it after a solver pass: the
type code `bctyp[inodbc]`, and the flow `qq[iseg]` and solute value
`segc[iseg]` of its segment `iseg = nodseg[1][bcnod[inodbc]]`. -/
structure BNode (α : Type) where
  bctyp : Int
  qq : α
  segc : α

/-- The boundary-condition globals of `main.cpp` (lines 63-68) and the console. -/
structure BCState (α : Type) where
  (outVenFlow outVenFlux outArtFlow outArtFlux outCapFlow outCapFlux : α)
  (inVenFlow inVenFlux inArtFlow inArtFlux inCapFlow inCapFlux : α)
  (outVenConc outArtConc outCapConc inVenConc inArtConc inCapConc : α)
  (inVenPO2 inArtPO2 inCapPO2 outVenPO2 outArtPO2 outCapPO2 : α)
  (inVendcdp inArtdcdp inCapdcdp outVendcdp outArtdcdp outCapdcdp : α)
  (inFlux outFlux diffFlux Vsim extraction qeff consumption perfusion outConcErr : α)
  console : List Msg

/-- The configuration read once by `input()`: blood-gas parameters, inflow
hematocrit, tolerance, tissue-point volume and count, `flowfac`, and the
iteration and run counts. -/
structure BCConfig (α : Type) where
  P : BloodParams α
  (HDin0 outConcErrMax vol flowfac : α)
  (nnt nmaxbc nruns : Int)

/-- How a boundary-condition case ends: `Converged` is the `return 0` inside
the loop (main.cpp 341-344), `Exhausted` is the loop running out of iterations. -/
inductive Outcome where
  | Converged
  | Exhausted
  deriving DecidableEq, Repr

/-- The result of the balance loop of one case: the outcome, the number of
iterations made (equal to the number of calls of `greens`), and the state of
the solver and of the globals at the end. -/
structure LoopResult (σ α : Type) where
  outcome : Outcome
  iters : Nat
  final : σ × BCState α

section Model

variable {α : Type} [LinearOrderedField α]

/-- Modelled from the spec: the macro `SQR` of `nrutil.h`, which is not among
the sources; the derivative formula of the specification squares the
denominator `1 + (p/p50)^fn` where the code writes `SQR`. -/
def SQR (a : α) : α := a * a

/-- Modelled from the spec: the macro `FMAX` of `nrutil.h`, which is not among
the sources; the convergence metric of the specification is the maximum of
the two absolute differences where the code writes `FMAX`. -/
def FMAX (a b : α) : α := if a > b then a else b

/-- The function `bloodconc` (blood.cpp 143-153): oxygen concentration at pressure `p` and
hematocrit `h`. -/
def bloodconc (pow : α → α → α) (P : BloodParams α) (p h : α) : α :=
  if p < 0 then P.alphab * p
  else if p < P.plow then P.clowfac * h * p / P.plow + P.alphab * p
  else if p < P.phigh then
    P.cs * h * (1 - 1 / (1 + pow (p / P.p50) P.fn)) + P.alphab * p
  else (P.chighfac + (p - P.phigh) * P.pphighfac) * h + P.alphab * p

/-- The function `bloodconcp` (blood.cpp 154-164): the derivative map. -/
def bloodconcp (pow : α → α → α) (P : BloodParams α) (p h : α) : α :=
  if p < 0 then P.alphab
  else if p < P.plow then P.clowfac * h / P.plow + P.alphab
  else if p < P.phigh then
    P.cs * h * P.fn / P.p50 * pow (p / P.p50) (P.fn - 1)
      / SQR (1 + pow (p / P.p50) P.fn) + P.alphab
  else P.pphighfac * h + P.alphab

/-- The function `func` (blood.cpp 135-141); the globals `cext`, `hext` are arguments. -/
def func (pow : α → α → α) (P : BloodParams α) (cext hext : α) (p : α) : α :=
  bloodconc pow P p hext - cext

/-- The `for` loop of `rtflsp` (blood.cpp 92-107) with `n` iterations left;
`none` when the iterations run out. -/
def rtflspLoop (f : α → α) (xacc : α) : Nat → α → α → α → α → α → Option α
  | 0, _, _, _, _, _ => none
  | n + 1, xl, xh, fl, fh, dx =>
    let rtf := xl + dx * fl / (fl - fh)
    let fv := f rtf
    if fv < 0 then
      let del := xl - rtf
      if |del| < xacc ∨ fv = 0 then some rtf
      else rtflspLoop f xacc n rtf xh fv fh (xh - rtf)
    else
      let del := xh - rtf
      if |del| < xacc ∨ fv = 0 then some rtf
      else rtflspLoop f xacc n xl rtf fl fv (rtf - xl)

/-- The function `rtflsp` (blood.cpp 69-110): false position, `maxit = 30`. -/
def rtflsp (f : α → α) (x1 x2 xacc : α) : RootResult α :=
  let fl := f x1
  let fh := f x2
  if fl * fh > 0 then ⟨-1, [Msg.rtflspNotBracketed]⟩
  else
    let r :=
      if fl < 0 then rtflspLoop f xacc 30 x1 x2 fl fh (x2 - x1)
      else rtflspLoop f xacc 30 x2 x1 fh fl (x1 - x2)
    match r with
    | some rtf => ⟨rtf, []⟩
    | none => ⟨-1, []⟩

/-- The `for` loop of `rtbis` (blood.cpp 126-130) with `n` iterations left. -/
def rtbisLoop (f : α → α) (xacc : α) : Nat → α → α → Option α
  | 0, _, _ => none
  | n + 1, rtb, dx =>
    let dx1 := dx * (1 / 2)
    let xmid := rtb + dx1
    let fmid := f xmid
    let rtb1 := if fmid ≤ 0 then xmid else rtb
    if |dx1| < xacc ∨ fmid = 0 then some rtb1
    else rtbisLoop f xacc n rtb1 dx1

/-- The function `rtbis` (blood.cpp 114-133): bisection, `maxit = 30`. -/
def rtbis (f : α → α) (x1 x2 xacc : α) : RootResult α :=
  let fv := f x1
  let fmid := f x2
  if fv * fmid ≥ 0 then ⟨0, [Msg.rtbisNotBracketed]⟩
  else
    let r :=
      if fv < 0 then rtbisLoop f xacc 30 x1 (x2 - x1)
      else rtbisLoop f xacc 30 x2 (x1 - x2)
    match r with
    | some rtb => ⟨rtb, []⟩
    | none => ⟨0, [Msg.rtbisMaxIter]⟩

/-- The bracket `(pl, ph)` chosen by `blood` (blood.cpp 46-53). -/
def bloodBracket (pow : α → α → α) (P : BloodParams α) (c h : α) : α × α :=
  if c / h / P.cs < 1 then
    (0, pow ((c / h / P.cs) / (1 - c / h / P.cs)) (1 / P.fn) * P.p50)
  else (P.plow, P.phigh)

/-- The body of `blood` (blood.cpp 21-65) with the two root finders it calls as
arguments `rf` (called first) and `rb` (called when `rf` returns a negative
value). -/
def bloodWith (rf rb : (α → α) → α → α → α → RootResult α)
    (pow : α → α → α) (P : BloodParams α) (c h : α) : BloodResult α :=
  if h < 1 / 1000000 then ⟨c / P.alphab, P.alphab, []⟩
  else if c < 0 then ⟨c / P.alphab, P.alphab, []⟩
  else
    let clow := P.clowfac * h + P.alphab * P.plow
    if c < clow then ⟨c * P.plow / clow, clow / P.plow, []⟩
    else
      let chigh := P.chighfac * h + P.alphab * P.phigh
      if c < chigh then
        let br := bloodBracket pow P c h
        let r1 := rf (func pow P c h) br.1 br.2 (1 / 1000)
        let r2 := if r1.val < 0 then rb (func pow P c h) br.1 br.2 (1 / 1000)
                  else ⟨r1.val, []⟩
        let p := r2.val
        ⟨p, P.cs * h * P.fn / P.p50 * pow (p / P.p50) (P.fn - 1)
              / SQR (1 + pow (p / P.p50) P.fn) + P.alphab, r1.msgs ++ r2.msgs⟩
      else
        let pphigh := P.pphighfac * h + P.alphab
        ⟨P.phigh + (c - chigh) / pphigh, pphigh, []⟩

/-- The function `blood` (blood.cpp 21-65): it calls `rtflsp`, then `rtbis` on failure. -/
def blood (pow : α → α → α) (P : BloodParams α) (c h : α) : BloodResult α :=
  bloodWith rtflsp rtbis pow P c h

/-! ### The balance loop of `main.cpp`

The transport solver `greens()` is external.  It is a parameter
`greens : σ → α → α → α → σ × List (BNode α)`: from its own state and the
current inflow concentrations `inArtConc`, `inVenConc`, `inCapConc` it gives
its next state and the boundary nodes with their segment flows and solute
values.  Report writing and the picture, contour and histogram output
(main.cpp 282-301, 309-339) are not part of the model. -/

/-- The reset of the twelve accumulators (main.cpp 222-223). -/
def initFlows (s : BCState α) : BCState α :=
  { s with
    outVenFlow := 0, outVenFlux := 0, outArtFlow := 0, outArtFlux := 0,
    outCapFlow := 0, outCapFlux := 0,
    inCapFlow := 0, inVenFlow := 0, inArtFlow := 0,
    inCapFlux := 0, inVenFlux := 0, inArtFlux := 0 }

/-- The `switch` on `bctyp[inodbc]` for one boundary node (main.cpp 228-256). -/
def aggregateNode (flowfac : α) (s : BCState α) (inodbc : Nat) (nd : BNode α) :
    BCState α :=
  if nd.bctyp = 4 then
    { s with inVenFlow := s.inVenFlow + nd.qq, inVenFlux := s.inVenFlux + nd.segc / flowfac }
  else if nd.bctyp = 5 then
    { s with inArtFlow := s.inArtFlow + nd.qq, inArtFlux := s.inArtFlux + nd.segc / flowfac }
  else if nd.bctyp = 6 then
    { s with inCapFlow := s.inCapFlow + nd.qq, inCapFlux := s.inCapFlux + nd.segc / flowfac }
  else if nd.bctyp = 7 then
    { s with outVenFlow := s.outVenFlow + nd.qq,
             outVenFlux := s.outVenFlux + nd.segc / flowfac }
  else if nd.bctyp = 8 then
    { s with outArtFlow := s.outArtFlow + nd.qq,
             outArtFlux := s.outArtFlux + nd.segc / flowfac }
  else if nd.bctyp = 9 then
    { s with outCapFlow := s.outCapFlow + nd.qq,
             outCapFlux := s.outCapFlux + nd.segc / flowfac }
  else { s with console := s.console ++ [Msg.bcNodeNotClassified inodbc] }

/-- The loop over the boundary nodes (main.cpp 225-257); `inodbc` is the index
of the first node of the list. -/
def aggregate (flowfac : α) : List (BNode α) → Nat → BCState α → BCState α
  | [], _, s => s
  | nd :: rest, inodbc, s => aggregate flowfac rest (inodbc + 1) (aggregateNode flowfac s inodbc nd)

/-- Concentrations in the outflowing vessels (main.cpp 260-262). -/
def outflowConcs (s : BCState α) : BCState α :=
  { s with
    outVenConc := s.outVenFlux / s.outVenFlow,
    outArtConc := s.outArtFlux / s.outArtFlow,
    outCapConc := s.outCapFlux / s.outCapFlow }

/-- The six calls of `blood` (main.cpp 264-269). -/
def invertAll (pow : α → α → α) (cfg : BCConfig α) (s : BCState α) : BCState α :=
  let r1 := blood pow cfg.P s.inVenConc cfg.HDin0
  let r2 := blood pow cfg.P s.inArtConc cfg.HDin0
  let r3 := blood pow cfg.P s.inCapConc cfg.HDin0
  let r4 := blood pow cfg.P s.outVenConc cfg.HDin0
  let r5 := blood pow cfg.P s.outArtConc cfg.HDin0
  let r6 := blood pow cfg.P s.outCapConc cfg.HDin0
  { s with
    inVenPO2 := r1.p, inVendcdp := r1.pp,
    inArtPO2 := r2.p, inArtdcdp := r2.pp,
    inCapPO2 := r3.p, inCapdcdp := r3.pp,
    outVenPO2 := r4.p, outVendcdp := r4.pp,
    outArtPO2 := r5.p, outArtdcdp := r5.pp,
    outCapPO2 := r6.p, outCapdcdp := r6.pp,
    console := s.console ++ r1.msgs ++ r2.msgs ++ r3.msgs ++ r4.msgs ++ r5.msgs ++ r6.msgs }

/-- Consumption, extraction and perfusion (main.cpp 272-280). -/
def globalScalars (cfg : BCConfig α) (s : BCState α) : BCState α :=
  let outFlux := s.outVenFlux + s.outArtFlux + s.outCapFlux
  let inFlux := s.inVenFlux + s.inArtFlux + s.inCapFlux
  let diffFlux := inFlux - outFlux
  let qeff := diffFlux / (s.inArtConc - s.outVenConc)
  let Vsim := cfg.vol * (cfg.nnt : α) / 1000000
  { s with
    outFlux := outFlux, inFlux := inFlux, diffFlux := diffFlux, qeff := qeff, Vsim := Vsim,
    consumption := diffFlux / Vsim,
    perfusion := qeff / Vsim,
    extraction := diffFlux / (Vsim * s.inArtConc) }

/-- The convergence metric and the feedback of the outflow concentrations
(main.cpp 303-307). -/
def feedback (s : BCState α) : BCState α :=
  { s with
    outConcErr := FMAX |s.inCapConc - s.outCapConc| |s.inVenConc - s.outVenConc|,
    inCapConc := s.outCapConc,
    inVenConc := s.outVenConc }

/-- One pass of the body of the `k` loop up to the convergence test
(main.cpp 219-307). -/
def bcStep {σ : Type} (pow : α → α → α) (cfg : BCConfig α)
    (greens : σ → α → α → α → σ × List (BNode α)) (st : σ × BCState α) : σ × BCState α :=
  let g := greens st.1 st.2.inArtConc st.2.inVenConc st.2.inCapConc
  let s1 := aggregate cfg.flowfac g.2 1 (initFlows st.2)
  (g.1, feedback (globalScalars cfg (invertAll pow cfg (outflowConcs s1))))

/-- The `k` loop (main.cpp 216-346) with `n` iterations left: each iteration
is one `bcStep` followed by the test `fabs(outConcErr) < outConcErrMax`. -/
def bcLoop {σ : Type} (pow : α → α → α) (cfg : BCConfig α)
    (greens : σ → α → α → α → σ × List (BNode α)) :
    Nat → σ × BCState α → LoopResult σ α
  | 0, st => ⟨Outcome.Exhausted, 0, st⟩
  | n + 1, st =>
    let st1 := bcStep pow cfg greens st
    if |st1.2.outConcErr| < cfg.outConcErrMax then ⟨Outcome.Converged, 1, st1⟩
    else
      let r := bcLoop pow cfg greens n st1
      ⟨r.outcome, r.iters + 1, r.final⟩

/-- The initial concentrations of a case (main.cpp 212-214). -/
def initialConcs (pow : α → α → α) (cfg : BCConfig α) (s : BCState α) : BCState α :=
  { s with
    inArtConc := bloodconc pow cfg.P s.inArtPO2 cfg.HDin0,
    inVenConc := bloodconc pow cfg.P s.inVenPO2 cfg.HDin0,
    inCapConc := bloodconc pow cfg.P s.inCapPO2 cfg.HDin0 }

/-- The balance loop of one case as `for (k = 1; k < nmaxbc; k++)` runs it: the
body is entered for `k = 1, ..., nmaxbc - 1`. -/
def balanceLoop {σ : Type} (pow : α → α → α) (cfg : BCConfig α)
    (greens : σ → α → α → α → σ × List (BNode α)) (st : σ × BCState α) :
    LoopResult σ α :=
  bcLoop pow cfg greens (cfg.nmaxbc - 1).toNat st

/-- One case of the `imain` loop (main.cpp 211-346): initial concentrations,
then the balance loop. -/
def runCase {σ : Type} (pow : α → α → α) (cfg : BCConfig α)
    (greens : σ → α → α → α → σ × List (BNode α)) (st : σ × BCState α) :
    LoopResult σ α :=
  balanceLoop pow cfg greens (st.1, initialConcs pow cfg st.2)

/-- The state with every global equal to zero and an empty console. -/
def zeroState : BCState α where
  outVenFlow := 0
  outVenFlux := 0
  outArtFlow := 0
  outArtFlux := 0
  outCapFlow := 0
  outCapFlux := 0
  inVenFlow := 0
  inVenFlux := 0
  inArtFlow := 0
  inArtFlux := 0
  inCapFlow := 0
  inCapFlux := 0
  outVenConc := 0
  outArtConc := 0
  outCapConc := 0
  inVenConc := 0
  inArtConc := 0
  inCapConc := 0
  inVenPO2 := 0
  inArtPO2 := 0
  inCapPO2 := 0
  outVenPO2 := 0
  outArtPO2 := 0
  outCapPO2 := 0
  inVendcdp := 0
  inArtdcdp := 0
  inCapdcdp := 0
  outVendcdp := 0
  outArtdcdp := 0
  outCapdcdp := 0
  inFlux := 0
  outFlux := 0
  diffFlux := 0
  Vsim := 0
  extraction := 0
  qeff := 0
  consumption := 0
  perfusion := 0
  outConcErr := 0
  console := []

/-- A stateless stand-in for the transport solver whose three outflow nodes
carry, at unit flow, exactly the inflow concentrations it was given (so the
outflow concentrations of a pass equal the inflow ones when `flowfac = 1`). -/
def echoSolver : Unit → α → α → α → Unit × List (BNode α) :=
  fun _ inArt inVen inCap => ((), [⟨7, 1, inVen⟩, ⟨8, 1, inArt⟩, ⟨9, 1, inCap⟩])

/-- The four-branch reference definition of the forward map, written from the
specification's words: each branch with its own guard (`p < 0`, `0 ≤ p < plow`,
`plow ≤ p < phigh`, `p ≥ phigh`), in the order the specification lists them;
the value `0` stands where no guard holds. -/
def bloodconc_ref (pow : α → α → α) (P : BloodParams α) (p h : α) : α :=
  if p < 0 then P.alphab * p
  else if 0 ≤ p ∧ p < P.plow then P.clowfac * h * p / P.plow + P.alphab * p
  else if P.plow ≤ p ∧ p < P.phigh then
    P.cs * h * (1 - 1 / (1 + pow (p / P.p50) P.fn)) + P.alphab * p
  else if P.phigh ≤ p then (P.chighfac + (p - P.phigh) * P.pphighfac) * h + P.alphab * p
  else 0

/-- The saturation term of the mid branch per unit hematocrit,
`cs*(1 - 1/(1 + (q/p50)^fn))` (blood.cpp 150). -/
def hillSat (pow : α → α → α) (P : BloodParams α) (q : α) : α :=
  P.cs * (1 - 1 / (1 + pow (q / P.p50) P.fn))

/-- Well-formed blood-gas parameters: positive constants, ordered breakpoints,
and blend coefficients derived from the mid-branch formula at the breakpoints
(the continuity invariant of the data model). -/
structure WellFormed (pow : α → α → α) (P : BloodParams α) : Prop where
  alphab_pos : 0 < P.alphab
  cs_pos : 0 < P.cs
  p50_pos : 0 < P.p50
  fn_pos : 0 < P.fn
  plow_pos : 0 < P.plow
  plow_lt_phigh : P.plow < P.phigh
  clowfac_eq : P.clowfac = P.cs * (1 - 1 / (1 + pow (P.plow / P.p50) P.fn))
  chighfac_eq : P.chighfac = P.cs * (1 - 1 / (1 + pow (P.phigh / P.p50) P.fn))
  pphighfac_nonneg : 0 ≤ P.pphighfac

/-- The example profile of the testable properties: `fn = 2.7`, `p50 = 26`,
`alphab = 3.1e-5`, `cs = 0.2`, `plow = 0.1`, `phigh = 100`, `clowfac` and
`chighfac` from the mid-branch formula at the breakpoints, `pphighfac` the
mid-branch derivative (per unit hematocrit) at `phigh`. -/
def exampleParams (pow : α → α → α) : BloodParams α where
  fn := 27 / 10
  alphab := 31 / 1000000
  p50 := 26
  cs := 2 / 10
  plow := 1 / 10
  phigh := 100
  clowfac := 2 / 10 * (1 - 1 / (1 + pow (1 / 10 / 26) (27 / 10)))
  chighfac := 2 / 10 * (1 - 1 / (1 + pow (100 / 26) (27 / 10)))
  pphighfac := 2 / 10 * (27 / 10) / 26 * pow (100 / 26) (27 / 10 - 1)
    / SQR (1 + pow (100 / 26) (27 / 10))

/-- A configuration on the example profile with `HDin0 = 0.4`, `flowfac = 1`,
and the given tolerance and maximum iteration count. -/
def exampleConfig (pow : α → α → α) (tol : α) (nmaxbc : Int) : BCConfig α where
  P := exampleParams pow
  HDin0 := 4 / 10
  outConcErrMax := tol
  vol := 1
  flowfac := 1
  nnt := 1
  nmaxbc := nmaxbc
  nruns := 1

/-- A one-site variant of the example profile: Hill exponent `fn = 1` and
`phigh = 300`, everything else as in `exampleParams` (`clowfac`, `chighfac`
from the mid-branch formula at the breakpoints, `pphighfac` the mid-branch
derivative per unit hematocrit at `phigh`). -/
def oneSiteParams (pow : α → α → α) : BloodParams α where
  fn := 1
  alphab := 31 / 1000000
  p50 := 26
  cs := 2 / 10
  plow := 1 / 10
  phigh := 300
  clowfac := 2 / 10 * (1 - 1 / (1 + pow (1 / 10 / 26) 1))
  chighfac := 2 / 10 * (1 - 1 / (1 + pow (300 / 26) 1))
  pphighfac := 2 / 10 * 1 / 26 * pow (300 / 26) (1 - 1) / SQR (1 + pow (300 / 26) 1)

/-- The function handed to the root finders by `blood` on the one-site profile
for the concentration `c = 0.4 * 0.2 * 65536/65537 = 131072/1638425` at
hematocrit `h = 0.4`. -/
def oneSiteFunc (pow : α → α → α) : α → α :=
  func pow (oneSiteParams pow) (131072 / 1638425) (2 / 5)

/-! ### Stand-ins for the solver, the case loop and the aggregation reference -/

/-- A stateless stand-in for the transport solver that returns the same
boundary nodes on every call, whatever the inflow concentrations. -/
def fixedSolver (nodes : List (BNode α)) : Unit → α → α → α → Unit × List (BNode α) :=
  fun _ _ _ _ => ((), nodes)

/-- A stateless stand-in for the transport solver whose three outflow nodes
carry, at unit flow, the inflow concentrations it was given raised by `d` (so
with `flowfac = 1` every pass computes outflow concentrations `d` above the
inflow ones). -/
def driftSolver (d : α) : Unit → α → α → α → Unit × List (BNode α) :=
  fun _ inArt inVen inCap =>
    ((), [⟨7, 1, inVen + d⟩, ⟨8, 1, inArt + d⟩, ⟨9, 1, inCap + d⟩])

/-- The `imain` loop of `main` (main.cpp 170-347) with `n` cases left: each case
is `runCase`; the `return 0` of a converged balance loop ends the program, so
no further case is run after it.  The assignments of the varied parameters
(main.cpp 172-205) touch only inputs of the external solver and are not part
of the model.  The result lists the cases that were run. -/
def mainRuns {σ : Type} (pow : α → α → α) (cfg : BCConfig α)
    (greens : σ → α → α → α → σ × List (BNode α)) :
    Nat → σ × BCState α → List (LoopResult σ α)
  | 0, _ => []
  | n + 1, st =>
    let r := runCase pow cfg greens st
    if r.outcome = Outcome.Converged then [r]
    else r :: mainRuns pow cfg greens n r.final

/-- The accumulated flow of a boundary class as the specification words it:
the sum of the flows of exactly the nodes whose type code is `code`. -/
def classFlow (code : Int) (nodes : List (BNode α)) : α :=
  ((nodes.filter (fun nd => decide (nd.bctyp = code))).map (fun nd => nd.qq)).sum

/-- The accumulated flux of a boundary class as the specification words it:
the sum of the fluxes `segc/flowfac` of exactly the nodes whose type code is
`code`. -/
def classFlux (flowfac : α) (code : Int) (nodes : List (BNode α)) : α :=
  ((nodes.filter (fun nd => decide (nd.bctyp = code))).map (fun nd => nd.segc / flowfac)).sum

/-- The synthetic network of the aggregation test: two inflow-venule nodes
(flows 10, 20; fluxes 1, 2) and one outflow-venule node (flow 30, flux 2.5),
with `flowfac = 1`. -/
def testNetwork : List (BNode α) :=
  [⟨4, 10, 1⟩, ⟨4, 20, 2⟩, ⟨7, 30, 5 / 2⟩]

/-- A configuration on the one-site profile with `HDin0 = 0.4`, `flowfac = 1`,
and the given tolerance, maximum iteration count and number of cases. -/
def oneSiteConfig (pow : α → α → α) (tol : α) (nmaxbc nruns : Int) : BCConfig α where
  P := oneSiteParams pow
  HDin0 := 2 / 5
  outConcErrMax := tol
  vol := 1
  flowfac := 1
  nnt := 1
  nmaxbc := nmaxbc
  nruns := nruns

/-- The globals as the configuration loader leaves them when the three initial
inflow pressures are configured as `400`: everything else zero. -/
def inputState400 : BCState α :=
  { (zeroState : BCState α) with inArtPO2 := 400, inVenPO2 := 400, inCapPO2 := 400 }

/-! ### The loop of `rtflsp` iteration by iteration -/

/-- The loop variables `xl`, `xh`, `fl`, `fh`, `dx` of `rtflsp` between two
iterations. -/
structure FlspState (α : Type) where
  xl : α
  xh : α
  fl : α
  fh : α
  dx : α

/-- The loop variables of `rtflsp` on entry to its loop (blood.cpp 80-91): the
end with the negative value becomes `xl`; otherwise the ends and their values
are swapped. -/
def flspInit (f : α → α) (x1 x2 : α) : FlspState α :=
  if f x1 < 0 then ⟨x1, x2, f x1, f x2, x2 - x1⟩
  else ⟨x2, x1, f x2, f x1, x1 - x2⟩

/-- The iterate `rtf` an iteration of `rtflsp` computes from the loop variables
(blood.cpp 93). -/
def flspRtf (s : FlspState α) : α := s.xl + s.dx * s.fl / (s.fl - s.fh)

/-- The step `del` of an iteration of `rtflsp` (blood.cpp 95-104). -/
def flspDel (f : α → α) (s : FlspState α) : α :=
  if f (flspRtf s) < 0 then s.xl - flspRtf s else s.xh - flspRtf s

/-- The loop variables after an iteration of `rtflsp` (blood.cpp 94-105). -/
def flspNext (f : α → α) (s : FlspState α) : FlspState α :=
  if f (flspRtf s) < 0 then ⟨flspRtf s, s.xh, f (flspRtf s), s.fh, s.xh - flspRtf s⟩
  else ⟨s.xl, flspRtf s, s.fl, f (flspRtf s), flspRtf s - s.xl⟩

/-- The test that ends the loop of `rtflsp` (blood.cpp 106):
`fabs(del) < xacc || f == 0.0`. -/
def flspStop (f : α → α) (xacc : α) (s : FlspState α) : Prop :=
  |flspDel f s| < xacc ∨ f (flspRtf s) = 0

/-- The loop variables of `rtflsp` after `k` iterations. -/
def flspIter (f : α → α) (k : Nat) (s : FlspState α) : FlspState α :=
  (flspNext f)^[k] s

/-- A test function for the root finders with small values on `[0, 2]`:
`(x*x - 2)/10000`, with its root at the square root of two. -/
def flatParabola (x : α) : α := (x * x - 2) / 10000

end Model

/-! ## Stepping lemmas for the root finders -/

section Stepping

variable {α : Type} [LinearOrderedField α]

theorem rtflsp_of_pos_prod (f : α → α) (x1 x2 xacc : α) (h : 0 < f x1 * f x2) :
    rtflsp f x1 x2 xacc = ⟨-1, [Msg.rtflspNotBracketed]⟩ := by
  unfold rtflsp
  simp only [gt_iff_lt, if_pos h]

theorem rtflsp_of_neg (f : α → α) (x1 x2 xacc : α) (h : ¬ 0 < f x1 * f x2)
    (hneg : f x1 < 0) :
    rtflsp f x1 x2 xacc =
      match rtflspLoop f xacc 30 x1 x2 (f x1) (f x2) (x2 - x1) with
      | some rtf => ⟨rtf, []⟩
      | none => ⟨-1, []⟩ := by
  unfold rtflsp
  simp only [gt_iff_lt, if_neg h, if_pos hneg]

theorem rtflsp_of_nonneg (f : α → α) (x1 x2 xacc : α) (h : ¬ 0 < f x1 * f x2)
    (hneg : ¬ f x1 < 0) :
    rtflsp f x1 x2 xacc =
      match rtflspLoop f xacc 30 x2 x1 (f x2) (f x1) (x1 - x2) with
      | some rtf => ⟨rtf, []⟩
      | none => ⟨-1, []⟩ := by
  unfold rtflsp
  simp only [gt_iff_lt, if_neg h, if_neg hneg]

/-- An iteration of `rtflsp` that moves the upper end and stops. -/
theorem rtflspLoop_stop_high (f : α → α) (xacc : α) (n : Nat) (xl xh fl fh dx : α)
    (hf : ¬ f (xl + dx * fl / (fl - fh)) < 0)
    (hstop : |xh - (xl + dx * fl / (fl - fh))| < xacc ∨ f (xl + dx * fl / (fl - fh)) = 0) :
    rtflspLoop f xacc (n + 1) xl xh fl fh dx = some (xl + dx * fl / (fl - fh)) := by
  rw [rtflspLoop]
  simp only [if_neg hf, if_pos hstop]

/-- An iteration of `rtflsp` that moves the upper end and goes on. -/
theorem rtflspLoop_step_high (f : α → α) (xacc : α) (n : Nat) (xl xh fl fh dx : α)
    (hf : ¬ f (xl + dx * fl / (fl - fh)) < 0)
    (hgo : ¬ (|xh - (xl + dx * fl / (fl - fh))| < xacc ∨ f (xl + dx * fl / (fl - fh)) = 0)) :
    rtflspLoop f xacc (n + 1) xl xh fl fh dx =
      rtflspLoop f xacc n xl (xl + dx * fl / (fl - fh)) fl (f (xl + dx * fl / (fl - fh)))
        (xl + dx * fl / (fl - fh) - xl) := by
  rw [rtflspLoop]
  simp only [if_neg hf, if_neg hgo]

/-- An iteration of `rtflsp` that moves the lower end and stops. -/
theorem rtflspLoop_stop_low (f : α → α) (xacc : α) (n : Nat) (xl xh fl fh dx : α)
    (hf : f (xl + dx * fl / (fl - fh)) < 0)
    (hstop : |xl - (xl + dx * fl / (fl - fh))| < xacc ∨ f (xl + dx * fl / (fl - fh)) = 0) :
    rtflspLoop f xacc (n + 1) xl xh fl fh dx = some (xl + dx * fl / (fl - fh)) := by
  rw [rtflspLoop]
  simp only [if_pos hf, if_pos hstop]

/-- An iteration of `rtflsp` that moves the lower end and goes on. -/
theorem rtflspLoop_step_low (f : α → α) (xacc : α) (n : Nat) (xl xh fl fh dx : α)
    (hf : f (xl + dx * fl / (fl - fh)) < 0)
    (hgo : ¬ (|xl - (xl + dx * fl / (fl - fh))| < xacc ∨ f (xl + dx * fl / (fl - fh)) = 0)) :
    rtflspLoop f xacc (n + 1) xl xh fl fh dx =
      rtflspLoop f xacc n (xl + dx * fl / (fl - fh)) xh (f (xl + dx * fl / (fl - fh))) fh
        (xh - (xl + dx * fl / (fl - fh))) := by
  rw [rtflspLoop]
  simp only [if_pos hf, if_neg hgo]

theorem rtbis_of_nonneg_prod (f : α → α) (x1 x2 xacc : α) (h : 0 ≤ f x1 * f x2) :
    rtbis f x1 x2 xacc = ⟨0, [Msg.rtbisNotBracketed]⟩ := by
  unfold rtbis
  simp only [ge_iff_le, if_pos h]

theorem rtbis_of_neg (f : α → α) (x1 x2 xacc : α) (h : ¬ 0 ≤ f x1 * f x2)
    (hneg : f x1 < 0) :
    rtbis f x1 x2 xacc =
      match rtbisLoop f xacc 30 x1 (x2 - x1) with
      | some rtb => ⟨rtb, []⟩
      | none => ⟨0, [Msg.rtbisMaxIter]⟩ := by
  unfold rtbis
  simp only [ge_iff_le, if_neg h, if_pos hneg]

/-- An iteration of `rtbis` that stops. -/
theorem rtbisLoop_stop (f : α → α) (xacc : α) (n : Nat) (rtb dx : α)
    (hstop : |dx * (1 / 2)| < xacc ∨ f (rtb + dx * (1 / 2)) = 0) :
    rtbisLoop f xacc (n + 1) rtb dx
      = some (if f (rtb + dx * (1 / 2)) ≤ 0 then rtb + dx * (1 / 2) else rtb) := by
  rw [rtbisLoop]
  simp only [if_pos hstop]

/-- An iteration of `rtbis` that goes on. -/
theorem rtbisLoop_step (f : α → α) (xacc : α) (n : Nat) (rtb dx : α)
    (hgo : ¬ (|dx * (1 / 2)| < xacc ∨ f (rtb + dx * (1 / 2)) = 0)) :
    rtbisLoop f xacc (n + 1) rtb dx
      = rtbisLoop f xacc n (if f (rtb + dx * (1 / 2)) ≤ 0 then rtb + dx * (1 / 2) else rtb)
          (dx * (1 / 2)) := by
  rw [rtbisLoop]
  simp only [if_neg hgo]

/-- An iteration of `rtbis` with a negative midpoint value that goes on: the
midpoint becomes the new `rtb`. -/
theorem rtbisLoop_step_neg (f : α → α) (xacc : α) (n : Nat) (rtb dx xm dx1 : α)
    (hdx : dx * (1 / 2) = dx1) (hxm : rtb + dx1 = xm) (hf : f xm < 0) (hacc : xacc ≤ dx1) :
    rtbisLoop f xacc (n + 1) rtb dx = rtbisLoop f xacc n xm dx1 := by
  subst hdx
  subst hxm
  rw [rtbisLoop_step _ _ _ _ _ (by
    rintro (h | h)
    · exact absurd (lt_of_le_of_lt (le_abs_self _) h) (not_lt.mpr hacc)
    · exact absurd h (ne_of_lt hf)), if_pos hf.le]

/-- An iteration of `rtbis` with a positive midpoint value that goes on: `rtb`
stays. -/
theorem rtbisLoop_step_pos (f : α → α) (xacc : α) (n : Nat) (rtb dx xm dx1 : α)
    (hdx : dx * (1 / 2) = dx1) (hxm : rtb + dx1 = xm) (hf : 0 < f xm) (hacc : xacc ≤ dx1) :
    rtbisLoop f xacc (n + 1) rtb dx = rtbisLoop f xacc n rtb dx1 := by
  subst hdx
  subst hxm
  rw [rtbisLoop_step _ _ _ _ _ (by
    rintro (h | h)
    · exact absurd (lt_of_le_of_lt (le_abs_self _) h) (not_lt.mpr hacc)
    · exact absurd h (ne_of_gt hf)), if_neg (not_le.mpr hf)]

/-- When `rtbis` prints a message the value it returns is `0`. -/
theorem rtbis_val_of_msgs (f : α → α) (x1 x2 xacc : α)
    (h : (rtbis f x1 x2 xacc).msgs ≠ []) : (rtbis f x1 x2 xacc).val = 0 := by
  unfold rtbis at h ⊢
  by_cases hb : f x1 * f x2 ≥ 0
  · simp only [if_pos hb]
  · simp only [if_neg hb] at h ⊢
    by_cases hn : f x1 < 0
    · simp only [if_pos hn] at h ⊢
      cases hl : rtbisLoop f xacc 30 x1 (x2 - x1) with
      | none => rfl
      | some r =>
        rw [hl] at h
        exact absurd rfl h
    · simp only [if_neg hn] at h ⊢
      cases hl : rtbisLoop f xacc 30 x2 (x1 - x2) with
      | none => rfl
      | some r =>
        rw [hl] at h
        exact absurd rfl h

end Stepping

/-! ## Auxiliary facts about the parameters over the reals -/

theorem exampleParams_wellFormed : WellFormed Real.rpow (exampleParams Real.rpow) where
  alphab_pos := by norm_num [exampleParams]
  cs_pos := by norm_num [exampleParams]
  p50_pos := by norm_num [exampleParams]
  fn_pos := by norm_num [exampleParams]
  plow_pos := by norm_num [exampleParams]
  plow_lt_phigh := by norm_num [exampleParams]
  clowfac_eq := rfl
  chighfac_eq := rfl
  pphighfac_nonneg := by
    simp only [exampleParams, SQR, Real.rpow_eq_pow]
    positivity

/-- The Hill saturation term is positive at a positive argument. -/
theorem hill_pos {x fn : ℝ} (hx : 0 < x) : 0 < 1 - 1 / (1 + x ^ fn) := by
  have h1 : 0 < x ^ fn := Real.rpow_pos_of_pos hx fn
  have h2 : 1 / (1 + x ^ fn) < 1 := by
    rw [div_lt_one (by linarith)]; linarith
  linarith

/-- The Hill saturation term is below one. -/
theorem hill_lt_one {x fn : ℝ} (hx : 0 < x) : 1 - 1 / (1 + x ^ fn) < 1 := by
  have h1 : 0 < x ^ fn := Real.rpow_pos_of_pos hx fn
  have h2 : 0 < 1 / (1 + x ^ fn) := by positivity
  linarith

/-- The Hill saturation term is monotone for a nonnegative exponent. -/
theorem hill_mono {x y fn : ℝ} (hx : 0 < x) (hxy : x ≤ y) (hfn : 0 ≤ fn) :
    1 - 1 / (1 + x ^ fn) ≤ 1 - 1 / (1 + y ^ fn) := by
  have h1 : 0 < x ^ fn := Real.rpow_pos_of_pos hx fn
  have h2 : x ^ fn ≤ y ^ fn := Real.rpow_le_rpow hx.le hxy hfn
  have h3 : 1 / (1 + y ^ fn) ≤ 1 / (1 + x ^ fn) :=
    one_div_le_one_div_of_le (by linarith) (by linarith)
  linarith

theorem WellFormed.clowfac_pos {P : BloodParams ℝ} (hP : WellFormed Real.rpow P) :
    0 < P.clowfac := by
  rw [hP.clowfac_eq]
  exact mul_pos hP.cs_pos (hill_pos (div_pos hP.plow_pos hP.p50_pos))

theorem WellFormed.clowfac_le_chighfac {P : BloodParams ℝ} (hP : WellFormed Real.rpow P) :
    P.clowfac ≤ P.chighfac := by
  rw [hP.clowfac_eq, hP.chighfac_eq]
  refine mul_le_mul_of_nonneg_left ?_ hP.cs_pos.le
  exact hill_mono (div_pos hP.plow_pos hP.p50_pos)
    (div_le_div_of_nonneg_right hP.plow_lt_phigh.le hP.p50_pos.le) hP.fn_pos.le

theorem WellFormed.phigh_pos {P : BloodParams ℝ} (hP : WellFormed Real.rpow P) :
    0 < P.phigh := lt_trans hP.plow_pos hP.plow_lt_phigh

/-! ## The forward map written with clamps -/

/-- With ordered breakpoints and continuity-derived blend coefficients the four
branches of `bloodconc` glue to one expression in `min` and `max`. -/
theorem bloodconc_eq_clamp (P : BloodParams ℝ) (hplow : 0 < P.plow)
    (hlh : P.plow ≤ P.phigh) (hcl : P.clowfac = hillSat Real.rpow P P.plow)
    (hch : P.chighfac = hillSat Real.rpow P P.phigh) (p h : ℝ) :
    bloodconc Real.rpow P p h = P.alphab * p
      + h * (P.clowfac * max 0 (min p P.plow) / P.plow
        + (hillSat Real.rpow P (max P.plow (min p P.phigh)) - hillSat Real.rpow P P.plow)
        + P.pphighfac * max (p - P.phigh) 0) := by
  unfold bloodconc
  by_cases h0 : p < 0
  · rw [if_pos h0, min_eq_left (by linarith), max_eq_left h0.le,
      min_eq_left (by linarith), max_eq_left (by linarith), max_eq_right (by linarith)]
    ring
  · have h0' : 0 ≤ p := not_lt.mp h0
    rw [if_neg h0]
    by_cases h1 : p < P.plow
    · rw [if_pos h1, min_eq_left h1.le, max_eq_right h0', min_eq_left (by linarith),
        max_eq_left h1.le, max_eq_right (by linarith)]
      field_simp
      ring
    · have h1' : P.plow ≤ p := not_lt.mp h1
      rw [if_neg h1]
      by_cases h2 : p < P.phigh
      · rw [if_pos h2, min_eq_right h1', max_eq_right hplow.le, min_eq_left h2.le,
          max_eq_right h1', max_eq_right (by linarith), hcl]
        unfold hillSat
        field_simp
        ring
      · have h2' : P.phigh ≤ p := not_lt.mp h2
        rw [if_neg h2, min_eq_right h1', max_eq_right hplow.le, min_eq_right h2',
          max_eq_right hlh, max_eq_left (by linarith), hcl, hch]
        field_simp
        ring

/-- The saturation term is monotone on positive pressures. -/
theorem hillSat_mono (P : BloodParams ℝ) (hcs : 0 ≤ P.cs) (hp50 : 0 < P.p50)
    (hfn : 0 ≤ P.fn) {x y : ℝ} (hx : 0 < x) (hxy : x ≤ y) :
    hillSat Real.rpow P x ≤ hillSat Real.rpow P y := by
  unfold hillSat
  refine mul_le_mul_of_nonneg_left ?_ hcs
  exact hill_mono (div_pos hx hp50) (div_le_div_of_nonneg_right hxy hp50.le) hfn

theorem WellFormed.clowfac_eq_hillSat {P : BloodParams ℝ} (hP : WellFormed Real.rpow P) :
    P.clowfac = hillSat Real.rpow P P.plow := hP.clowfac_eq

theorem WellFormed.chighfac_eq_hillSat {P : BloodParams ℝ} (hP : WellFormed Real.rpow P) :
    P.chighfac = hillSat Real.rpow P P.phigh := hP.chighfac_eq

/-- The forward map is strictly increasing in the pressure for every `h ≥ 0`;
the common core of the monotonicity and bracketing statements. -/
theorem bloodconc_lt_of_lt (P : BloodParams ℝ) (hP : WellFormed Real.rpow P)
    {h : ℝ} (hh : 0 ≤ h) {p1 p2 : ℝ} (h12 : p1 < p2) :
    bloodconc Real.rpow P p1 h < bloodconc Real.rpow P p2 h := by
  rw [bloodconc_eq_clamp P hP.plow_pos hP.plow_lt_phigh.le hP.clowfac_eq_hillSat
      hP.chighfac_eq_hillSat p1 h,
    bloodconc_eq_clamp P hP.plow_pos hP.plow_lt_phigh.le hP.clowfac_eq_hillSat
      hP.chighfac_eq_hillSat p2 h]
  have ha : P.alphab * p1 < P.alphab * p2 := mul_lt_mul_of_pos_left h12 hP.alphab_pos
  have hA : P.clowfac * max 0 (min p1 P.plow) / P.plow
      ≤ P.clowfac * max 0 (min p2 P.plow) / P.plow := by
    refine div_le_div_of_nonneg_right ?_ hP.plow_pos.le
    refine mul_le_mul_of_nonneg_left ?_ hP.clowfac_pos.le
    exact max_le_max (le_refl 0) (min_le_min h12.le (le_refl _))
  have hB : hillSat Real.rpow P (max P.plow (min p1 P.phigh))
      ≤ hillSat Real.rpow P (max P.plow (min p2 P.phigh)) := by
    refine hillSat_mono P hP.cs_pos.le hP.p50_pos hP.fn_pos.le
      (lt_of_lt_of_le hP.plow_pos (le_max_left _ _)) ?_
    exact max_le_max (le_refl _) (min_le_min h12.le (le_refl _))
  have hC : P.pphighfac * max (p1 - P.phigh) 0 ≤ P.pphighfac * max (p2 - P.phigh) 0 := by
    refine mul_le_mul_of_nonneg_left ?_ hP.pphighfac_nonneg
    exact max_le_max (by linarith) (le_refl 0)
  have hsum : h * (P.clowfac * max 0 (min p1 P.plow) / P.plow
        + (hillSat Real.rpow P (max P.plow (min p1 P.phigh)) - hillSat Real.rpow P P.plow)
        + P.pphighfac * max (p1 - P.phigh) 0)
      ≤ h * (P.clowfac * max 0 (min p2 P.plow) / P.plow
        + (hillSat Real.rpow P (max P.plow (min p2 P.phigh)) - hillSat Real.rpow P P.plow)
        + P.pphighfac * max (p2 - P.phigh) 0) :=
    mul_le_mul_of_nonneg_left (by linarith) hh
  linarith

/-! ## Branch values and the root-finding branch of `blood` -/

theorem bloodconc_of_mid {α : Type} [LinearOrderedField α] (pow : α → α → α)
    (P : BloodParams α) (p h : α) (h0 : 0 ≤ p) (h1 : P.plow ≤ p) (h2 : p < P.phigh) :
    bloodconc pow P p h
      = P.cs * h * (1 - 1 / (1 + pow (p / P.p50) P.fn)) + P.alphab * p := by
  unfold bloodconc
  rw [if_neg (not_lt.mpr h0), if_neg (not_lt.mpr h1), if_pos h2]

theorem bloodconc_of_high {α : Type} [LinearOrderedField α] (pow : α → α → α)
    (P : BloodParams α) (p h : α) (h0 : 0 ≤ p) (h1 : P.plow ≤ p) (h2 : P.phigh ≤ p) :
    bloodconc pow P p h
      = (P.chighfac + (p - P.phigh) * P.pphighfac) * h + P.alphab * p := by
  unfold bloodconc
  rw [if_neg (not_lt.mpr h0), if_neg (not_lt.mpr h1), if_neg (not_lt.mpr h2)]

/-- The low threshold `clow` of `blood` is the forward map at `plow`. -/
theorem WellFormed.bloodconc_plow {P : BloodParams ℝ} (hP : WellFormed Real.rpow P)
    (h : ℝ) : bloodconc Real.rpow P P.plow h = P.clowfac * h + P.alphab * P.plow := by
  rw [bloodconc_of_mid _ _ _ _ hP.plow_pos.le (le_refl _) hP.plow_lt_phigh, hP.clowfac_eq]
  ring

/-- The high threshold `chigh` of `blood` is the forward map at `phigh`. -/
theorem WellFormed.bloodconc_phigh {P : BloodParams ℝ} (hP : WellFormed Real.rpow P)
    (h : ℝ) : bloodconc Real.rpow P P.phigh h = P.chighfac * h + P.alphab * P.phigh := by
  rw [bloodconc_of_high _ _ _ _ hP.phigh_pos.le hP.plow_lt_phigh.le (le_refl _)]
  ring

/-- The pressure `blood` returns from its root-finding branch: the value of
`rtflsp` on the chosen bracket, or the value of `rtbis` when that is negative. -/
theorem blood_rootBranch_p {α : Type} [LinearOrderedField α] (pow : α → α → α)
    (P : BloodParams α) (c h : α) (hh : ¬ h < 1 / 1000000) (hc0 : ¬ c < 0)
    (hc1 : ¬ c < P.clowfac * h + P.alphab * P.plow)
    (hc2 : c < P.chighfac * h + P.alphab * P.phigh) :
    (blood pow P c h).p
      = if (rtflsp (func pow P c h) (bloodBracket pow P c h).1 (bloodBracket pow P c h).2
            (1 / 1000)).val < 0
        then (rtbis (func pow P c h) (bloodBracket pow P c h).1 (bloodBracket pow P c h).2
            (1 / 1000)).val
        else (rtflsp (func pow P c h) (bloodBracket pow P c h).1 (bloodBracket pow P c h).2
            (1 / 1000)).val := by
  unfold blood bloodWith
  simp only [if_neg hh, if_neg hc0, if_neg hc1, if_pos hc2]
  split_ifs <;> rfl

/-- Everything `blood` returns from its root-finding branch. -/
theorem blood_rootBranch {α : Type} [LinearOrderedField α] (pow : α → α → α)
    (P : BloodParams α) (c h : α) (hh : ¬ h < 1 / 1000000) (hc0 : ¬ c < 0)
    (hc1 : ¬ c < P.clowfac * h + P.alphab * P.plow)
    (hc2 : c < P.chighfac * h + P.alphab * P.phigh) :
    blood pow P c h =
      ⟨(blood pow P c h).p,
        P.cs * h * P.fn / P.p50 * pow ((blood pow P c h).p / P.p50) (P.fn - 1)
          / SQR (1 + pow ((blood pow P c h).p / P.p50) P.fn) + P.alphab,
        (rtflsp (func pow P c h) (bloodBracket pow P c h).1 (bloodBracket pow P c h).2
            (1 / 1000)).msgs
          ++ (if (rtflsp (func pow P c h) (bloodBracket pow P c h).1
                (bloodBracket pow P c h).2 (1 / 1000)).val < 0
              then (rtbis (func pow P c h) (bloodBracket pow P c h).1
                (bloodBracket pow P c h).2 (1 / 1000)).msgs
              else [])⟩ := by
  unfold blood bloodWith
  simp only [if_neg hh, if_neg hc0, if_neg hc1, if_pos hc2]
  split_ifs <;> rfl

/-- Lower bound for the Hill power with exponent `2.7` from a tenth root. -/
theorem rpow_27_10_lower {t x : ℝ} (ht : 0 ≤ t) (h : t ^ 10 ≤ x) :
    t ^ 27 ≤ x ^ (27 / 10 : ℝ) := by
  have e : (t ^ 10) ^ (27 / 10 : ℝ) = t ^ 27 := by
    rw [← Real.rpow_natCast t 10, ← Real.rpow_mul ht, ← Real.rpow_natCast t 27]
    norm_num
  rw [← e]
  exact Real.rpow_le_rpow (pow_nonneg ht 10) h (by norm_num)

/-! ## C1: round trip on the closed-form branches -/

/-- C1. Under well-formed parameters and `h ≥ 1e-6`, for every pressure `p` in a
closed-form branch (`p < 0`, `0 ≤ p < plow`, or `p ≥ phigh`), the pressure that
`blood` returns for the concentration `bloodconc p h` is exactly `p` (real
arithmetic). -/
theorem blood_bloodconc_closed_form (P : BloodParams ℝ) (hP : WellFormed Real.rpow P)
    (h p : ℝ) (hh : 1 / 1000000 ≤ h)
    (hp : p < 0 ∨ (0 ≤ p ∧ p < P.plow) ∨ P.phigh ≤ p) :
    (blood Real.rpow P (bloodconc Real.rpow P p h) h).p = p := by
  have ha := hP.alphab_pos
  have hpl := hP.plow_pos
  have hcl := hP.clowfac_pos
  have hh0 : 0 < h := lt_of_lt_of_le (by norm_num) hh
  have hclow : 0 < P.clowfac * h + P.alphab * P.plow := by positivity
  unfold blood bloodWith
  rw [if_neg (not_lt.mpr hh)]
  rcases hp with hneg | ⟨h0, hlow⟩ | hhigh
  · have hc : bloodconc Real.rpow P p h = P.alphab * p := by
      unfold bloodconc; rw [if_pos hneg]
    rw [hc, if_pos (mul_neg_of_pos_of_neg ha hneg)]
    field_simp
  · have hc : bloodconc Real.rpow P p h
        = p * (P.clowfac * h + P.alphab * P.plow) / P.plow := by
      unfold bloodconc; rw [if_neg (not_lt.mpr h0), if_pos hlow]
      field_simp; ring
    rw [hc]
    have hc0 : ¬ p * (P.clowfac * h + P.alphab * P.plow) / P.plow < 0 :=
      not_lt.mpr (by positivity)
    have hc1 : p * (P.clowfac * h + P.alphab * P.plow) / P.plow
        < P.clowfac * h + P.alphab * P.plow := by
      rw [div_lt_iff₀ hpl, mul_comm (P.clowfac * h + P.alphab * P.plow) P.plow]
      exact mul_lt_mul_of_pos_right hlow hclow
    rw [if_neg hc0]
    simp only [if_pos hc1]
    field_simp
  · have hp0 : 0 < p := lt_of_lt_of_le hP.phigh_pos hhigh
    have hc : bloodconc Real.rpow P p h
        = (P.chighfac * h + P.alphab * P.phigh)
          + (p - P.phigh) * (P.pphighfac * h + P.alphab) := by
      unfold bloodconc
      rw [if_neg (not_lt.mpr hp0.le),
        if_neg (not_lt.mpr (le_trans hP.plow_lt_phigh.le hhigh)),
        if_neg (not_lt.mpr hhigh)]
      ring
    have hpp : 0 < P.pphighfac * h + P.alphab := by
      have := mul_nonneg hP.pphighfac_nonneg hh0.le
      linarith
    have hd : 0 ≤ (p - P.phigh) * (P.pphighfac * h + P.alphab) :=
      mul_nonneg (sub_nonneg.mpr hhigh) hpp.le
    have hlh : P.clowfac * h + P.alphab * P.plow
        ≤ P.chighfac * h + P.alphab * P.phigh := by
      have h1 := mul_le_mul_of_nonneg_right hP.clowfac_le_chighfac hh0.le
      have h2 := mul_le_mul_of_nonneg_left hP.plow_lt_phigh.le ha.le
      linarith
    rw [hc]
    rw [if_neg (not_lt.mpr (by linarith))]
    simp only [if_neg (not_lt.mpr (show P.clowfac * h + P.alphab * P.plow
        ≤ P.chighfac * h + P.alphab * P.phigh
          + (p - P.phigh) * (P.pphighfac * h + P.alphab) by linarith)),
      if_neg (not_lt.mpr (show P.chighfac * h + P.alphab * P.phigh
        ≤ P.chighfac * h + P.alphab * P.phigh
          + (p - P.phigh) * (P.pphighfac * h + P.alphab) by linarith))]
    field_simp

/-- Witness for C1 on the example profile at `h = 0.4` and `p = -5, 0, 0.05, 150`. -/
theorem blood_bloodconc_closed_form_witness :
    WellFormed Real.rpow (exampleParams Real.rpow) ∧ (1 / 1000000 : ℝ) ≤ 4 / 10 ∧
    (blood Real.rpow (exampleParams Real.rpow)
      (bloodconc Real.rpow (exampleParams Real.rpow) (-5) (4 / 10)) (4 / 10)).p = -5 ∧
    (blood Real.rpow (exampleParams Real.rpow)
      (bloodconc Real.rpow (exampleParams Real.rpow) 0 (4 / 10)) (4 / 10)).p = 0 ∧
    (blood Real.rpow (exampleParams Real.rpow)
      (bloodconc Real.rpow (exampleParams Real.rpow) (5 / 100) (4 / 10)) (4 / 10)).p
        = 5 / 100 ∧
    (blood Real.rpow (exampleParams Real.rpow)
      (bloodconc Real.rpow (exampleParams Real.rpow) 150 (4 / 10)) (4 / 10)).p = 150 :=
  ⟨exampleParams_wellFormed, by norm_num,
    blood_bloodconc_closed_form _ exampleParams_wellFormed _ _ (by norm_num)
      (Or.inl (by norm_num)),
    blood_bloodconc_closed_form _ exampleParams_wellFormed _ _ (by norm_num)
      (Or.inr (Or.inl ⟨le_refl _, by norm_num [exampleParams]⟩)),
    blood_bloodconc_closed_form _ exampleParams_wellFormed _ _ (by norm_num)
      (Or.inr (Or.inl ⟨by norm_num, by norm_num [exampleParams]⟩)),
    blood_bloodconc_closed_form _ exampleParams_wellFormed _ _ (by norm_num)
      (Or.inr (Or.inr (by norm_num [exampleParams])))⟩

/-! ## C2: round trip on the saturating branch -/

/-- The first interpolation of `rtflsp` on `[0.1, 100]` when the value at the
upper end is tiny against the value at the lower end: it lands within `0.001`
of the upper end. -/
theorem flsp_first_step_near_end (fl fh : ℝ) (hfh : 0 < fh)
    (hkey : 99899 * fh < -fl) :
    99999 / 1000 < 1 / 10 + (100 - 1 / 10) * fl / (fl - fh) ∧
    |100 - (1 / 10 + (100 - 1 / 10) * fl / (fl - fh))| < 1 / 1000 := by
  have hdel : 100 - (1 / 10 + (100 - 1 / 10) * fl / (fl - fh)) = 999 / 10 * fh / (fh - fl) := by
    have h1 : fl - fh ≠ 0 := by linarith
    have h2 : fh - fl ≠ 0 := by linarith
    field_simp
    ring
  have hdel0 : 0 < 999 / 10 * fh / (fh - fl) := by
    have : 0 < fh - fl := by linarith
    positivity
  have hdel1 : 999 / 10 * fh / (fh - fl) < 1 / 1000 := by
    rw [div_lt_iff₀ (by linarith)]
    linarith
  constructor
  · linarith
  · rw [hdel, abs_of_pos hdel0]
    exact hdel1

/-- C2 (the code at `p = 99.997`, `h = 0.4`, example profile). The pressure
that `blood` returns for the concentration `bloodconc 99.997 0.4` exceeds
`99.997` by more than `0.002`: the bracket is `[plow, phigh] = [0.1, 100]`, the
first interpolation of `rtflsp` lands within `0.001` of the end `100`, and the
small step ends the search there. -/
theorem blood_roundtrip_error_at_99997 :
    (2 / 1000 : ℝ) <
      (blood Real.rpow (exampleParams Real.rpow)
        (bloodconc Real.rpow (exampleParams Real.rpow) (99997 / 1000) (2 / 5)) (2 / 5)).p
      - 99997 / 1000 := by
  have hP := exampleParams_wellFormed
  have hmono := fun (p1 p2 : ℝ) (h12 : p1 < p2) =>
    bloodconc_lt_of_lt (exampleParams Real.rpow) hP (h := 2 / 5) (by norm_num) h12
  have hplow : (exampleParams Real.rpow).plow = (1 / 10 : ℝ) := rfl
  have hphigh : (exampleParams Real.rpow).phigh = (100 : ℝ) := rfl
  have hcs : (exampleParams Real.rpow).cs = (2 / 10 : ℝ) := rfl
  have hal : (exampleParams Real.rpow).alphab = (31 / 1000000 : ℝ) := rfl
  have hp50 : (exampleParams Real.rpow).p50 = (26 : ℝ) := rfl
  have hfn : (exampleParams Real.rpow).fn = (27 / 10 : ℝ) := rfl
  -- the three powers involved
  obtain ⟨a, ha⟩ : ∃ a : ℝ, a = (99997 / 1000 / 26 : ℝ) ^ (27 / 10 : ℝ) := ⟨_, rfl⟩
  obtain ⟨b, hb⟩ : ∃ b : ℝ, b = (100 / 26 : ℝ) ^ (27 / 10 : ℝ) := ⟨_, rfl⟩
  obtain ⟨e, he⟩ : ∃ e : ℝ, e = (1 / 10 / 26 : ℝ) ^ (27 / 10 : ℝ) := ⟨_, rfl⟩
  obtain ⟨r, hr⟩ : ∃ r : ℝ, r = (100000 / 99997 : ℝ) ^ (27 / 10 : ℝ) := ⟨_, rfl⟩
  have ha28 : (28 : ℝ) ≤ a := by
    rw [ha]
    refine le_trans ?_ (rpow_27_10_lower (t := 114 / 100) (by norm_num) (by norm_num))
    norm_num
  have hbr : b = a * r := by
    rw [ha, hb, hr, ← Real.mul_rpow (by norm_num) (by norm_num)]
    norm_num
  have hr1 : 1 ≤ r := by
    rw [hr]
    exact Real.one_le_rpow (by norm_num) (by norm_num)
  have hr2 : r ≤ 10001 / 10000 := by
    rw [hr]
    refine le_trans
      (Real.rpow_le_rpow_of_exponent_le (x := 100000 / 99997) (by norm_num)
        (show (27 / 10 : ℝ) ≤ 3 by norm_num)) ?_
    rw [show (3 : ℝ) = ((3 : ℕ) : ℝ) by norm_num, Real.rpow_natCast]
    norm_num
  have he0 : 0 < e := by
    rw [he]
    exact Real.rpow_pos_of_pos (by norm_num) _
  have he1 : e ≤ 1 / 260 := by
    rw [he]
    refine le_trans
      (Real.rpow_le_rpow_of_exponent_ge (x := 1 / 10 / 26) (by norm_num) (by norm_num)
        (show (1 : ℝ) ≤ 27 / 10 by norm_num)) ?_
    rw [Real.rpow_one]
    norm_num
  -- the reciprocals that occur in the three concentrations
  have hA1 : 1 / (1 + a) ≤ 1 / 29 :=
    one_div_le_one_div_of_le (by norm_num) (by linarith)
  have hA0 : 0 < 1 / (1 + a) := by positivity
  have hB : 1 / (1 + a) * (10000 / 10001) ≤ 1 / (1 + b) := by
    rw [hbr, div_mul_div_comm, one_mul]
    rw [div_le_div_iff₀ (by positivity) (by positivity)]
    nlinarith
  have hE : 260 / 261 ≤ 1 / (1 + e) := by
    rw [div_le_div_iff₀ (by norm_num) (by positivity)]
    linarith
  -- the three concentrations
  have hc : bloodconc Real.rpow (exampleParams Real.rpow) (99997 / 1000) (2 / 5)
      = 2 / 10 * (2 / 5) * (1 - 1 / (1 + a)) + 31 / 1000000 * (99997 / 1000) := by
    rw [bloodconc_of_mid _ _ _ _ (by norm_num) (by rw [hplow]; norm_num)
      (by rw [hphigh]; norm_num), ha, hcs, hal, hp50, hfn]
    rfl
  have hc100 : bloodconc Real.rpow (exampleParams Real.rpow) 100 (2 / 5)
      = 2 / 10 * (2 / 5) * (1 - 1 / (1 + b)) + 31 / 1000000 * 100 := by
    have h1 := hP.bloodconc_phigh (2 / 5)
    rw [hphigh] at h1
    rw [h1, hP.chighfac_eq, hb, hcs, hal, hp50, hfn, hphigh]
    simp only [Real.rpow_eq_pow]
    ring
  have hc01 : bloodconc Real.rpow (exampleParams Real.rpow) (1 / 10) (2 / 5)
      = 2 / 10 * (2 / 5) * (1 - 1 / (1 + e)) + 31 / 1000000 * (1 / 10) := by
    have h1 := hP.bloodconc_plow (2 / 5)
    rw [hplow] at h1
    rw [h1, hP.clowfac_eq, he, hcs, hal, hp50, hfn, hplow]
    simp only [Real.rpow_eq_pow]
    ring
  obtain ⟨c, hcdef⟩ : ∃ c : ℝ,
      c = bloodconc Real.rpow (exampleParams Real.rpow) (99997 / 1000) (2 / 5) := ⟨_, rfl⟩
  rw [← hcdef]
  -- which branch of `blood`
  have hclow : (exampleParams Real.rpow).clowfac * (2 / 5)
      + (exampleParams Real.rpow).alphab * (exampleParams Real.rpow).plow < c := by
    rw [← hP.bloodconc_plow, hcdef]
    exact hmono _ _ (by rw [hplow]; norm_num)
  have hchigh : c < (exampleParams Real.rpow).chighfac * (2 / 5)
      + (exampleParams Real.rpow).alphab * (exampleParams Real.rpow).phigh := by
    rw [← hP.bloodconc_phigh, hcdef]
    exact hmono _ _ (by rw [hphigh]; norm_num)
  have hcval : c = 2 / 10 * (2 / 5) * (1 - 1 / (1 + a)) + 31 / 1000000 * (99997 / 1000) := by
    rw [hcdef, hc]
  have hc0 : 0 < c := by
    rw [hcval]
    linarith only [hA1, hA0]
  have hbr2 : bloodBracket Real.rpow (exampleParams Real.rpow) c (2 / 5) = (1 / 10, 100) := by
    unfold bloodBracket
    rw [if_neg, hplow, hphigh]
    rw [not_lt, hcs, hcval]
    rw [le_div_iff₀ (by norm_num), le_div_iff₀ (by norm_num)]
    linarith only [hA1, hA0]
  -- the values of `func` at the ends of the bracket
  have hfl : func Real.rpow (exampleParams Real.rpow) c (2 / 5) (1 / 10)
      = 2 / 10 * (2 / 5) * (1 / (1 + a) - 1 / (1 + e))
        + 31 / 1000000 * (1 / 10 - 99997 / 1000) := by
    unfold func
    rw [hc01, hcval]
    ring
  have hfh : func Real.rpow (exampleParams Real.rpow) c (2 / 5) 100
      = 2 / 10 * (2 / 5) * (1 / (1 + a) - 1 / (1 + b))
        + 31 / 1000000 * (100 - 99997 / 1000) := by
    unfold func
    rw [hc100, hcval]
    ring
  obtain ⟨fl, hfldef⟩ : ∃ fl : ℝ,
      fl = func Real.rpow (exampleParams Real.rpow) c (2 / 5) (1 / 10) := ⟨_, rfl⟩
  obtain ⟨fh, hfhdef⟩ : ∃ fh : ℝ,
      fh = func Real.rpow (exampleParams Real.rpow) c (2 / 5) 100 := ⟨_, rfl⟩
  have hflneg : fl < 0 := by
    rw [hfldef]
    unfold func
    rw [hcdef]
    exact sub_neg.mpr (hmono _ _ (by norm_num))
  have hfhpos : 0 < fh := by
    rw [hfhdef]
    unfold func
    rw [hcdef]
    exact sub_pos.mpr (hmono _ _ (by norm_num))
  have hkey : 99899 * fh < -fl := by
    rw [hfhdef, hfldef, hfl, hfh]
    linarith only [hA1, hA0, hB, hE]
  -- the first interpolation
  obtain ⟨hrtf, hstop⟩ := flsp_first_step_near_end fl fh hfhpos hkey
  have hfrtf : ¬ func Real.rpow (exampleParams Real.rpow) c (2 / 5)
      (1 / 10 + (100 - 1 / 10) * fl / (fl - fh)) < 0 := by
    unfold func
    rw [hcdef, not_lt, sub_nonneg]
    exact (hmono _ _ (by linarith only [hrtf])).le
  have hrt : rtflsp (func Real.rpow (exampleParams Real.rpow) c (2 / 5)) (1 / 10) 100 (1 / 1000)
      = ⟨1 / 10 + (100 - 1 / 10) * fl / (fl - fh), []⟩ := by
    rw [rtflsp_of_neg _ _ _ _
        (by rw [← hfldef, ← hfhdef]; exact not_lt.mpr (mul_neg_of_neg_of_pos hflneg hfhpos).le)
        (by rw [← hfldef]; exact hflneg),
      ← hfldef, ← hfhdef, rtflspLoop_stop_high _ _ 29 _ _ _ _ _ hfrtf (Or.inl hstop)]
  rw [blood_rootBranch_p _ _ _ _ (by norm_num) (not_lt.mpr hc0.le) (not_lt.mpr hclow.le) hchigh,
    hbr2, hrt]
  simp only []
  rw [if_neg (by linarith only [hrtf])]
  linarith only [hrtf]

/-! ## C3: the forward map against its four-branch reference definition -/

/-- C3. For every pressure `p` and hematocrit `h` (and all parameters),
`bloodconc p h` equals the four-branch reference definition, in which the
first guard that holds decides (one always does): `alphab*p` when
`p < 0`; `clowfac*h*p/plow + alphab*p` when `0 ≤ p < plow`;
`cs*h*(1 - 1/(1 + (p/p50)^fn)) + alphab*p` when `plow ≤ p < phigh`; and
`(chighfac + (p - phigh)*pphighfac)*h + alphab*p` when `p ≥ phigh`. -/
theorem bloodconc_eq_bloodconc_ref {α : Type} [LinearOrderedField α]
    (pow : α → α → α) (P : BloodParams α) (p h : α) :
    bloodconc pow P p h = bloodconc_ref pow P p h := by
  unfold bloodconc bloodconc_ref
  by_cases h0 : p < 0
  · simp only [if_pos h0]
  · have h0' : 0 ≤ p := not_lt.mp h0
    by_cases h1 : p < P.plow
    · simp only [if_neg h0, if_pos h1, h0', h1, and_self, if_true]
    · have h1' : P.plow ≤ p := not_lt.mp h1
      by_cases h2 : p < P.phigh
      · simp only [if_neg h0, if_neg h1, if_pos h2, h1', h1, h2, and_false, and_self,
          if_true, if_false]
      · simp only [if_neg h0, if_neg h1, if_neg h2, h1, h2, and_false, if_false,
          if_pos (not_lt.mp h2)]

/-! ## C7: degenerate hematocrit and negative concentration -/

/-- C7. For every `p`, `bloodconc p 0 = alphab*p`; for every `c`, `h` with
`h < 1e-6` or `c < 0`, `blood` returns pressure `c/alphab` and derivative
`alphab` whatever the two root finders are (neither is called, nothing is
printed); and for `alphab ≠ 0` the pressure returned by
`blood (bloodconc p 0) 0` is `p`. -/
theorem degenerate_hematocrit_linear {α : Type} [LinearOrderedField α]
    (pow : α → α → α) (P : BloodParams α) :
    (∀ p, bloodconc pow P p 0 = P.alphab * p) ∧
    (∀ (rf rb : (α → α) → α → α → α → RootResult α) (c h : α),
      h < 1 / 1000000 ∨ c < 0 →
        bloodWith rf rb pow P c h = ⟨c / P.alphab, P.alphab, []⟩) ∧
    (P.alphab ≠ 0 → ∀ p, (blood pow P (bloodconc pow P p 0) 0).p = p) := by
  have hconc : ∀ p, bloodconc pow P p 0 = P.alphab * p := by
    intro p
    unfold bloodconc
    split_ifs <;> simp
  refine ⟨hconc, ?_, ?_⟩
  · intro rf rb c h hdeg
    unfold bloodWith
    rcases hdeg with hh | hc
    · rw [if_pos hh]
    · by_cases hh : h < 1 / 1000000
      · rw [if_pos hh]
      · rw [if_neg hh, if_pos hc]
  · intro ha p
    unfold blood bloodWith
    rw [if_pos (by norm_num), hconc]
    field_simp

/-- Witness for C7 on the example profile: hematocrit `0` at `p = 26`, and the
negative concentration `c = -1` at `h = 0.4`. -/
theorem degenerate_hematocrit_linear_witness :
    ((0 : ℝ) < 1 / 1000000 ∨ (26 : ℝ) < 0) ∧
    (exampleParams Real.rpow).alphab ≠ 0 ∧
    bloodWith rtflsp rtbis Real.rpow (exampleParams Real.rpow) (-1) (4 / 10)
      = ⟨-1 / (exampleParams Real.rpow).alphab, (exampleParams Real.rpow).alphab, []⟩ ∧
    (blood Real.rpow (exampleParams Real.rpow)
      (bloodconc Real.rpow (exampleParams Real.rpow) 26 0) 0).p = 26 :=
  ⟨Or.inl (by norm_num), by norm_num [exampleParams],
    (degenerate_hematocrit_linear Real.rpow (exampleParams Real.rpow)).2.1
      rtflsp rtbis (-1) (4 / 10) (Or.inr (by norm_num)),
    (degenerate_hematocrit_linear Real.rpow (exampleParams Real.rpow)).2.2
      (by norm_num [exampleParams]) 26⟩

/-! ## C4: continuity of the forward map -/

/-- C4. With positive `p50`, breakpoints `0 < plow ≤ phigh`, and `clowfac`,
`chighfac` derived from the mid-branch formula at `plow` and `phigh`, for
every `h`: the low-linear formula at `plow` equals the mid-Hill formula at
`plow`; the mid-Hill formula at `phigh` equals the high-linear formula at
`phigh`; the negative and low-linear formulas both give `0` at `p = 0`; and
`p ↦ bloodconc p h` is continuous on the whole real line. -/
theorem bloodconc_continuous (P : BloodParams ℝ) (hp50 : 0 < P.p50)
    (hplow : 0 < P.plow) (hlh : P.plow ≤ P.phigh)
    (hcl : P.clowfac = P.cs * (1 - 1 / (1 + Real.rpow (P.plow / P.p50) P.fn)))
    (hch : P.chighfac = P.cs * (1 - 1 / (1 + Real.rpow (P.phigh / P.p50) P.fn)))
    (h : ℝ) :
    (P.clowfac * h * P.plow / P.plow + P.alphab * P.plow
      = P.cs * h * (1 - 1 / (1 + Real.rpow (P.plow / P.p50) P.fn)) + P.alphab * P.plow) ∧
    (P.cs * h * (1 - 1 / (1 + Real.rpow (P.phigh / P.p50) P.fn)) + P.alphab * P.phigh
      = (P.chighfac + (P.phigh - P.phigh) * P.pphighfac) * h + P.alphab * P.phigh) ∧
    (P.alphab * 0 = 0 ∧ P.clowfac * h * 0 / P.plow + P.alphab * 0 = 0) ∧
    Continuous (fun p => bloodconc Real.rpow P p h) := by
  refine ⟨?_, ?_, ⟨by ring, by simp⟩, ?_⟩
  · rw [hcl]
    field_simp
    ring
  · rw [hch]
    ring
  · have hfun : (fun p => bloodconc Real.rpow P p h) = fun p => P.alphab * p
        + h * (P.clowfac * max 0 (min p P.plow) / P.plow
          + (hillSat Real.rpow P (max P.plow (min p P.phigh)) - hillSat Real.rpow P P.plow)
          + P.pphighfac * max (p - P.phigh) 0) :=
      funext fun p => bloodconc_eq_clamp P hplow hlh hcl hch p h
    rw [hfun]
    have hm : Continuous fun p : ℝ => max P.plow (min p P.phigh) :=
      continuous_const.max (continuous_id.min continuous_const)
    have hpos : ∀ p : ℝ, 0 < max P.plow (min p P.phigh) / P.p50 := fun p =>
      div_pos (lt_of_lt_of_le hplow (le_max_left _ _)) hp50
    have hrp : Continuous fun p : ℝ => (max P.plow (min p P.phigh) / P.p50) ^ P.fn :=
      (hm.div_const _).rpow_const fun p => Or.inl (ne_of_gt (hpos p))
    have hden : Continuous fun p : ℝ =>
        1 / (1 + (max P.plow (min p P.phigh) / P.p50) ^ P.fn) :=
      continuous_const.div (continuous_const.add hrp) fun p =>
        ne_of_gt (add_pos zero_lt_one (Real.rpow_pos_of_pos (hpos p) _))
    have hsat : Continuous fun p : ℝ =>
        hillSat Real.rpow P (max P.plow (min p P.phigh)) := by
      unfold hillSat
      simp only [Real.rpow_eq_pow]
      exact continuous_const.mul (continuous_const.sub hden)
    have hA : Continuous fun p : ℝ => P.clowfac * max 0 (min p P.plow) / P.plow :=
      (continuous_const.mul (continuous_const.max (continuous_id.min continuous_const))).div_const _
    have hC : Continuous fun p : ℝ => P.pphighfac * max (p - P.phigh) 0 :=
      continuous_const.mul ((continuous_id.sub continuous_const).max continuous_const)
    exact (continuous_const.mul continuous_id).add
      (continuous_const.mul ((hA.add (hsat.sub continuous_const)).add hC))

/-- Witness for C4: the example profile at `h = 0.4`. -/
theorem bloodconc_continuous_witness :
    (0 : ℝ) < (exampleParams Real.rpow).p50 ∧ (0 : ℝ) < (exampleParams Real.rpow).plow ∧
    (exampleParams Real.rpow).plow ≤ (exampleParams Real.rpow).phigh ∧
    Continuous (fun p => bloodconc Real.rpow (exampleParams Real.rpow) p (4 / 10)) :=
  ⟨exampleParams_wellFormed.p50_pos, exampleParams_wellFormed.plow_pos,
    exampleParams_wellFormed.plow_lt_phigh.le,
    (bloodconc_continuous (exampleParams Real.rpow) exampleParams_wellFormed.p50_pos
      exampleParams_wellFormed.plow_pos exampleParams_wellFormed.plow_lt_phigh.le
      exampleParams_wellFormed.clowfac_eq exampleParams_wellFormed.chighfac_eq
      (4 / 10)).2.2.2⟩

/-! ## C6: the derivative map -/

/-- C6. With `p50 > 0`, `fn > 0` and breakpoints `0 ≤ plow ≤ phigh`, for every
`h` and every `p` in the interior of a branch (`p < 0`, `0 < p < plow`,
`plow < p < phigh`, `p > phigh`), `q ↦ bloodconc q h` is differentiable at `p`
with derivative `bloodconcp p h`; in the mid branch that derivative is
`cs*h*fn/p50*(p/p50)^(fn-1)/(1+(p/p50)^fn)^2 + alphab`. -/
theorem bloodconcp_hasDerivAt (P : BloodParams ℝ) (hp50 : 0 < P.p50) (_hfn : 0 < P.fn)
    (hplow : 0 ≤ P.plow) (hlh : P.plow ≤ P.phigh) (h p : ℝ)
    (hp : p < 0 ∨ (0 < p ∧ p < P.plow) ∨ (P.plow < p ∧ p < P.phigh) ∨ P.phigh < p) :
    HasDerivAt (fun q => bloodconc Real.rpow P q h) (bloodconcp Real.rpow P p h) p ∧
    (P.plow < p ∧ p < P.phigh → bloodconcp Real.rpow P p h
      = P.cs * h * P.fn / P.p50 * (p / P.p50) ^ (P.fn - 1)
          / (1 + (p / P.p50) ^ P.fn) ^ 2 + P.alphab) := by
  constructor
  · rcases hp with hneg | ⟨h0, h1⟩ | ⟨h1, h2⟩ | h2
    · have hev : (fun q => bloodconc Real.rpow P q h) =ᶠ[nhds p] fun q => P.alphab * q := by
        filter_upwards [Iio_mem_nhds hneg] with q hq
        have hq' : q < 0 := hq
        unfold bloodconc
        rw [if_pos hq']
      have hd : HasDerivAt (fun q : ℝ => P.alphab * q) P.alphab p := by
        simpa using (hasDerivAt_id p).const_mul P.alphab
      have hval : bloodconcp Real.rpow P p h = P.alphab := by
        unfold bloodconcp
        rw [if_pos hneg]
      rw [hval]
      exact hd.congr_of_eventuallyEq hev
    · have hev : (fun q => bloodconc Real.rpow P q h) =ᶠ[nhds p]
          fun q => P.clowfac * h * q / P.plow + P.alphab * q := by
        filter_upwards [Ioo_mem_nhds h0 h1] with q hq
        unfold bloodconc
        rw [if_neg (not_lt.mpr hq.1.le), if_pos hq.2]
      have hd : HasDerivAt (fun q : ℝ => P.clowfac * h * q / P.plow + P.alphab * q)
          (P.clowfac * h / P.plow + P.alphab) p := by
        have e1 : HasDerivAt (fun q : ℝ => P.clowfac * h * q / P.plow)
            (P.clowfac * h / P.plow) p := by
          simpa using ((hasDerivAt_id p).const_mul (P.clowfac * h)).div_const P.plow
        have e2 : HasDerivAt (fun q : ℝ => P.alphab * q) P.alphab p := by
          simpa using (hasDerivAt_id p).const_mul P.alphab
        exact e1.add e2
      have hval : bloodconcp Real.rpow P p h = P.clowfac * h / P.plow + P.alphab := by
        unfold bloodconcp
        rw [if_neg (not_lt.mpr h0.le), if_pos h1]
      rw [hval]
      exact hd.congr_of_eventuallyEq hev
    · have hp0 : 0 < p := lt_of_le_of_lt hplow h1
      have hev : (fun q => bloodconc Real.rpow P q h) =ᶠ[nhds p]
          fun q => P.cs * h * (1 - 1 / (1 + (q / P.p50) ^ P.fn)) + P.alphab * q := by
        filter_upwards [Ioo_mem_nhds h1 h2] with q hq
        unfold bloodconc
        rw [if_neg (not_lt.mpr (le_trans hplow hq.1.le)), if_neg (not_lt.mpr hq.1.le),
          if_pos hq.2]
        rfl
      have hx : 0 < p / P.p50 := div_pos hp0 hp50
      have hu : 0 < (p / P.p50) ^ P.fn := Real.rpow_pos_of_pos hx _
      have e0 : HasDerivAt (fun q : ℝ => q / P.p50) (1 / P.p50) p := by
        simpa using (hasDerivAt_id p).div_const P.p50
      have e1 : HasDerivAt (fun q : ℝ => (q / P.p50) ^ P.fn)
          (1 / P.p50 * P.fn * (p / P.p50) ^ (P.fn - 1)) p :=
        e0.rpow_const (Or.inl (ne_of_gt hx))
      have e2 : HasDerivAt (fun q : ℝ => 1 + (q / P.p50) ^ P.fn)
          (1 / P.p50 * P.fn * (p / P.p50) ^ (P.fn - 1)) p := by
        simpa using e1.const_add 1
      have e3 : HasDerivAt (fun q : ℝ => (1 + (q / P.p50) ^ P.fn)⁻¹)
          (-(1 / P.p50 * P.fn * (p / P.p50) ^ (P.fn - 1))
            / (1 + (p / P.p50) ^ P.fn) ^ 2) p :=
        e2.inv (ne_of_gt (by linarith))
      have e4 : HasDerivAt
          (fun q : ℝ => P.cs * h * (1 - 1 / (1 + (q / P.p50) ^ P.fn)) + P.alphab * q)
          (P.cs * h * (0 - -(1 / P.p50 * P.fn * (p / P.p50) ^ (P.fn - 1))
            / (1 + (p / P.p50) ^ P.fn) ^ 2) + P.alphab) p := by
        have e5 : HasDerivAt (fun q : ℝ => P.alphab * q) P.alphab p := by
          simpa using (hasDerivAt_id p).const_mul P.alphab
        have e6 := (((hasDerivAt_const p (1 : ℝ)).sub e3).const_mul (P.cs * h)).add e5
        simpa only [one_div] using e6
      have hval : bloodconcp Real.rpow P p h
          = P.cs * h * (0 - -(1 / P.p50 * P.fn * (p / P.p50) ^ (P.fn - 1))
            / (1 + (p / P.p50) ^ P.fn) ^ 2) + P.alphab := by
        unfold bloodconcp SQR
        rw [if_neg (not_lt.mpr hp0.le), if_neg (not_lt.mpr h1.le), if_pos h2]
        simp only [Real.rpow_eq_pow]
        field_simp
        ring
      rw [hval]
      exact e4.congr_of_eventuallyEq hev
    · have hp1 : P.plow < p := lt_of_le_of_lt hlh h2
      have hev : (fun q => bloodconc Real.rpow P q h) =ᶠ[nhds p]
          fun q => (P.chighfac + (q - P.phigh) * P.pphighfac) * h + P.alphab * q := by
        filter_upwards [Ioi_mem_nhds h2] with q hq
        have hq' : P.phigh < q := hq
        unfold bloodconc
        rw [if_neg (not_lt.mpr (le_trans hplow (le_trans hlh hq'.le))),
          if_neg (not_lt.mpr (le_trans hlh hq'.le)), if_neg (not_lt.mpr hq'.le)]
      have hd : HasDerivAt
          (fun q : ℝ => (P.chighfac + (q - P.phigh) * P.pphighfac) * h + P.alphab * q)
          (P.pphighfac * h + P.alphab) p := by
        have e1 : HasDerivAt (fun q : ℝ => (P.chighfac + (q - P.phigh) * P.pphighfac) * h)
            (P.pphighfac * h) p := by
          simpa using
            (((((hasDerivAt_id p).sub_const P.phigh).mul_const P.pphighfac).const_add
              P.chighfac).mul_const h)
        have e2 : HasDerivAt (fun q : ℝ => P.alphab * q) P.alphab p := by
          simpa using (hasDerivAt_id p).const_mul P.alphab
        exact e1.add e2
      have hval : bloodconcp Real.rpow P p h = P.pphighfac * h + P.alphab := by
        unfold bloodconcp
        rw [if_neg (not_lt.mpr (le_trans hplow hp1.le)), if_neg (not_lt.mpr hp1.le),
          if_neg (not_lt.mpr h2.le)]
      rw [hval]
      exact hd.congr_of_eventuallyEq hev
  · rintro ⟨h1, h2⟩
    have hp0 : 0 < p := lt_of_le_of_lt hplow h1
    unfold bloodconcp SQR
    rw [if_neg (not_lt.mpr hp0.le), if_neg (not_lt.mpr h1.le), if_pos h2]
    simp only [Real.rpow_eq_pow, pow_two]

/-- Witness for C6: the example profile at `h = 0.4`, `p = 26` in the mid branch. -/
theorem bloodconcp_hasDerivAt_witness :
    (0 : ℝ) < (exampleParams Real.rpow).p50 ∧ (0 : ℝ) < (exampleParams Real.rpow).fn ∧
    (exampleParams Real.rpow).plow < 26 ∧ (26 : ℝ) < (exampleParams Real.rpow).phigh ∧
    HasDerivAt (fun q => bloodconc Real.rpow (exampleParams Real.rpow) q (4 / 10))
      (bloodconcp Real.rpow (exampleParams Real.rpow) 26 (4 / 10)) 26 :=
  ⟨exampleParams_wellFormed.p50_pos, exampleParams_wellFormed.fn_pos,
    by norm_num [exampleParams], by norm_num [exampleParams],
    (bloodconcp_hasDerivAt (exampleParams Real.rpow) exampleParams_wellFormed.p50_pos
      exampleParams_wellFormed.fn_pos exampleParams_wellFormed.plow_pos.le
      exampleParams_wellFormed.plow_lt_phigh.le (4 / 10) 26
      (Or.inr (Or.inr (Or.inl ⟨by norm_num [exampleParams],
        by norm_num [exampleParams]⟩)))).1⟩

/-! ## C5: monotonicity of the forward map -/

/-- C5. Under well-formed parameters, for every `h > 0` and all `p1 < p2` (in
the same or in different branches), `bloodconc p1 h < bloodconc p2 h`. -/
theorem bloodconc_strictMono (P : BloodParams ℝ) (hP : WellFormed Real.rpow P)
    (h : ℝ) (hh : 0 < h) (p1 p2 : ℝ) (h12 : p1 < p2) :
    bloodconc Real.rpow P p1 h < bloodconc Real.rpow P p2 h :=
  bloodconc_lt_of_lt P hP hh.le h12

/-- Witness for C5: the example profile, `h = 0.4`, `p1 = 0.05` in the low
branch and `p2 = 150` in the high branch. -/
theorem bloodconc_strictMono_witness :
    WellFormed Real.rpow (exampleParams Real.rpow) ∧ (0 : ℝ) < 4 / 10 ∧
    (5 / 100 : ℝ) < 150 ∧
    bloodconc Real.rpow (exampleParams Real.rpow) (5 / 100) (4 / 10)
      < bloodconc Real.rpow (exampleParams Real.rpow) 150 (4 / 10) :=
  ⟨exampleParams_wellFormed, by norm_num, by norm_num,
    bloodconc_strictMono _ exampleParams_wellFormed _ (by norm_num) _ _ (by norm_num)⟩

/-! ## C8: the root finders on a bracket without a sign change -/

/-- C8 (counterexample). On the bracket `[-2, 2]` the function `x*x + 1` is
positive at both ends; `rtflsp` returns `-1` and `rtbis` returns `0`, both
inside the bracket, and these are exactly the values the same routines return
without any message for `x + 1` and for `x`, whose roots in the bracket they
are: the caller cannot tell the failure from a root by the returned value. -/
theorem rootfinder_sentinel_mistaken_for_root :
    (0 < (fun x : ℝ => x * x + 1) (-2) ∧ 0 < (fun x : ℝ => x * x + 1) 2) ∧
    (rtflsp (fun x : ℝ => x * x + 1) (-2) 2 (1 / 1000)).val = -1 ∧
    (rtflsp (fun x : ℝ => x + 1) (-2) 2 (1 / 1000)).val = -1 ∧
    (rtflsp (fun x : ℝ => x + 1) (-2) 2 (1 / 1000)).msgs = [] ∧
    (rtbis (fun x : ℝ => x * x + 1) (-2) 2 (1 / 1000)).val = 0 ∧
    (rtbis (fun x : ℝ => x) (-2) 2 (1 / 1000)).val = 0 ∧
    (rtbis (fun x : ℝ => x) (-2) 2 (1 / 1000)).msgs = [] ∧
    ((-2 : ℝ) ≤ -1 ∧ (-1 : ℝ) ≤ 2 ∧ (-2 : ℝ) ≤ 0 ∧ (0 : ℝ) ≤ 2) := by
  refine ⟨⟨by norm_num, by norm_num⟩, ?_, ?_, ?_, ?_, ?_, ?_, by norm_num⟩
  · rw [rtflsp_of_pos_prod _ _ _ _ (by norm_num)]
  · rw [rtflsp_of_neg _ _ _ _ (by norm_num) (by norm_num),
      rtflspLoop_stop_high _ _ 29 _ _ _ _ _ (by norm_num) (Or.inr (by norm_num))]
    norm_num
  · rw [rtflsp_of_neg _ _ _ _ (by norm_num) (by norm_num),
      rtflspLoop_stop_high _ _ 29 _ _ _ _ _ (by norm_num) (Or.inr (by norm_num))]
  · rw [rtbis_of_nonneg_prod _ _ _ _ (by norm_num)]
  · rw [rtbis_of_neg _ _ _ _ (by norm_num) (by norm_num),
      rtbisLoop_stop _ _ 29 _ _ (Or.inr (by norm_num))]
    norm_num
  · rw [rtbis_of_neg _ _ _ _ (by norm_num) (by norm_num),
      rtbisLoop_stop _ _ 29 _ _ (Or.inr (by norm_num))]

/-- C8 (amended). For every function `f` and bracket at whose ends `f` has the
same strict sign, `rtflsp` prints its not-bracketed warning and returns `-1`,
and `rtbis` prints its not-bracketed error and returns `0`; the returned value
lies outside the bracket exactly when the bracket does not contain `-1`
(respectively `0`). -/
theorem rootfinders_not_bracketed {α : Type} [LinearOrderedField α]
    (f : α → α) (x1 x2 xacc : α)
    (hsign : (0 < f x1 ∧ 0 < f x2) ∨ (f x1 < 0 ∧ f x2 < 0)) :
    rtflsp f x1 x2 xacc = ⟨-1, [Msg.rtflspNotBracketed]⟩ ∧
    rtbis f x1 x2 xacc = ⟨0, [Msg.rtbisNotBracketed]⟩ ∧
    ((min x1 x2 ≤ (rtflsp f x1 x2 xacc).val ∧ (rtflsp f x1 x2 xacc).val ≤ max x1 x2)
      ↔ (min x1 x2 ≤ -1 ∧ -1 ≤ max x1 x2)) ∧
    ((min x1 x2 ≤ (rtbis f x1 x2 xacc).val ∧ (rtbis f x1 x2 xacc).val ≤ max x1 x2)
      ↔ (min x1 x2 ≤ 0 ∧ 0 ≤ max x1 x2)) := by
  have hprod : 0 < f x1 * f x2 := by
    rcases hsign with ⟨h1, h2⟩ | ⟨h1, h2⟩
    · exact mul_pos h1 h2
    · exact mul_pos_of_neg_of_neg h1 h2
  have hA : rtflsp f x1 x2 xacc = ⟨-1, [Msg.rtflspNotBracketed]⟩ := by
    unfold rtflsp
    simp only [gt_iff_lt, if_pos hprod]
  have hB : rtbis f x1 x2 xacc = ⟨0, [Msg.rtbisNotBracketed]⟩ := by
    unfold rtbis
    simp only [ge_iff_le, if_pos hprod.le]
  refine ⟨hA, hB, ?_, ?_⟩
  · rw [hA]
  · rw [hB]

/-- Witness for C8 (amended): `x + 1` on the bracket `[0, 100]`, positive at
both ends. -/
theorem rootfinders_not_bracketed_witness :
    ((0 < (fun x : ℝ => x + 1) 0 ∧ 0 < (fun x : ℝ => x + 1) 100) ∨
      ((fun x : ℝ => x + 1) 0 < 0 ∧ (fun x : ℝ => x + 1) 100 < 0)) ∧
    rtflsp (fun x : ℝ => x + 1) 0 100 (1 / 1000) = ⟨-1, [Msg.rtflspNotBracketed]⟩ ∧
    rtbis (fun x : ℝ => x + 1) 0 100 (1 / 1000) = ⟨0, [Msg.rtbisNotBracketed]⟩ :=
  ⟨Or.inl ⟨by norm_num, by norm_num⟩,
    (rootfinders_not_bracketed (fun x : ℝ => x + 1) 0 100 (1 / 1000)
      (Or.inl ⟨by norm_num, by norm_num⟩)).1,
    (rootfinders_not_bracketed (fun x : ℝ => x + 1) 0 100 (1 / 1000)
      (Or.inl ⟨by norm_num, by norm_num⟩)).2.1⟩

/-! ## The balance loop: what one pass leaves unchanged -/

section Loop

variable {α : Type} [LinearOrderedField α]

theorem aggregateNode_inConc (flowfac : α) (s : BCState α) (i : Nat) (nd : BNode α) :
    (aggregateNode flowfac s i nd).inVenConc = s.inVenConc ∧
    (aggregateNode flowfac s i nd).inCapConc = s.inCapConc ∧
    (aggregateNode flowfac s i nd).inArtConc = s.inArtConc := by
  unfold aggregateNode
  split_ifs <;> exact ⟨rfl, rfl, rfl⟩

theorem aggregate_inConc (flowfac : α) (nodes : List (BNode α)) (i : Nat) (s : BCState α) :
    (aggregate flowfac nodes i s).inVenConc = s.inVenConc ∧
    (aggregate flowfac nodes i s).inCapConc = s.inCapConc ∧
    (aggregate flowfac nodes i s).inArtConc = s.inArtConc := by
  induction nodes generalizing i s with
  | nil => exact ⟨rfl, rfl, rfl⟩
  | cons nd rest ih =>
    have h1 := ih (i + 1) (aggregateNode flowfac s i nd)
    have h2 := aggregateNode_inConc flowfac s i nd
    unfold aggregate
    exact ⟨h1.1.trans h2.1, h1.2.1.trans h2.2.1, h1.2.2.trans h2.2.2⟩

/-- The convergence metric left by one pass is the larger of the absolute
differences between the inflow concentrations the pass started with and the
outflow concentrations it computed, for the capillary and venule classes. -/
theorem bcStep_outConcErr {σ : Type} (pow : α → α → α) (cfg : BCConfig α)
    (greens : σ → α → α → α → σ × List (BNode α)) (st : σ × BCState α) :
    (bcStep pow cfg greens st).2.outConcErr
      = FMAX |st.2.inCapConc - (bcStep pow cfg greens st).2.outCapConc|
          |st.2.inVenConc - (bcStep pow cfg greens st).2.outVenConc| := by
  have h := aggregate_inConc cfg.flowfac
    (greens st.1 st.2.inArtConc st.2.inVenConc st.2.inCapConc).2 1 (initFlows st.2)
  have hv : (initFlows st.2).inVenConc = st.2.inVenConc := rfl
  have hc : (initFlows st.2).inCapConc = st.2.inCapConc := rfl
  simp only [bcStep, feedback, globalScalars, invertAll, outflowConcs]
  rw [h.1, h.2.1, hv, hc]

end Loop

/-! ## C10: a pass whose outflow equals its inflow -/

/-- C10 (counterexample). With the echo solver on the all-zero state the first
pass computes outflow venule and capillary concentrations equal to the inflow
ones, yet with tolerance `0` and `nmaxbc = 3` the loop does not stop there: it
makes both of its passes and ends `Exhausted`; and with `nmaxbc = 1` (tolerance
`1`) it makes no pass at all. -/
theorem balanceLoop_equal_concs_not_converged :
    ((bcStep Real.rpow (exampleConfig Real.rpow 0 3) echoSolver
        ((), zeroState)).2.outVenConc = (zeroState : BCState ℝ).inVenConc ∧
     (bcStep Real.rpow (exampleConfig Real.rpow 0 3) echoSolver
        ((), zeroState)).2.outCapConc = (zeroState : BCState ℝ).inCapConc) ∧
    (balanceLoop Real.rpow (exampleConfig Real.rpow 0 3) echoSolver
        ((), zeroState)).outcome = Outcome.Exhausted ∧
    (balanceLoop Real.rpow (exampleConfig Real.rpow 0 3) echoSolver
        ((), zeroState)).iters = 2 ∧
    (balanceLoop Real.rpow (exampleConfig Real.rpow 1 1) echoSolver
        ((), zeroState)).outcome = Outcome.Exhausted ∧
    (balanceLoop Real.rpow (exampleConfig Real.rpow 1 1) echoSolver
        ((), zeroState)).iters = 0 := by
  have hstep : ∀ st : Unit × BCState ℝ,
      ¬ |(bcStep Real.rpow (exampleConfig Real.rpow 0 3) echoSolver st).2.outConcErr|
          < (exampleConfig Real.rpow 0 3).outConcErrMax := by
    intro st
    have h0 : (exampleConfig Real.rpow (0 : ℝ) 3).outConcErrMax = 0 := rfl
    rw [h0]
    exact not_lt.mpr (abs_nonneg _)
  have hloop : balanceLoop Real.rpow (exampleConfig Real.rpow 0 3) echoSolver
      ((), (zeroState : BCState ℝ))
      = bcLoop Real.rpow (exampleConfig Real.rpow 0 3) echoSolver (1 + 1) ((), zeroState) := rfl
  refine ⟨⟨?_, ?_⟩, ?_, ?_, rfl, rfl⟩
  · simp [bcStep, feedback, globalScalars, invertAll, outflowConcs, aggregate, aggregateNode,
      initFlows, echoSolver, zeroState, exampleConfig]
  · simp [bcStep, feedback, globalScalars, invertAll, outflowConcs, aggregate, aggregateNode,
      initFlows, echoSolver, zeroState, exampleConfig]
  · rw [hloop, bcLoop]
    simp only [if_neg (hstep _)]
    rw [bcLoop]
    simp only [if_neg (hstep _)]
    rfl
  · rw [hloop, bcLoop]
    simp only [if_neg (hstep _)]
    rw [bcLoop]
    simp only [if_neg (hstep _)]
    rfl

/-- C10 (amended). For every maximum iteration count `nmaxbc ≥ 2` and every
tolerance `outConcErrMax > 0`, whatever the solver: if the first pass computes
outflow venule and capillary concentrations equal to the inflow ones, the
balance loop ends `Converged` after exactly one iteration, i.e. one call of the
transport solver, in the state that pass left. -/
theorem balanceLoop_converged_first {α σ : Type} [LinearOrderedField α]
    (pow : α → α → α) (cfg : BCConfig α)
    (greens : σ → α → α → α → σ × List (BNode α)) (st : σ × BCState α)
    (hmax : 2 ≤ cfg.nmaxbc) (htol : 0 < cfg.outConcErrMax)
    (hven : (bcStep pow cfg greens st).2.outVenConc = st.2.inVenConc)
    (hcap : (bcStep pow cfg greens st).2.outCapConc = st.2.inCapConc) :
    (balanceLoop pow cfg greens st).outcome = Outcome.Converged ∧
    (balanceLoop pow cfg greens st).iters = 1 ∧
    (balanceLoop pow cfg greens st).final = bcStep pow cfg greens st := by
  obtain ⟨n, hn⟩ : ∃ n, (cfg.nmaxbc - 1).toNat = n + 1 := by
    refine ⟨(cfg.nmaxbc - 1).toNat - 1, ?_⟩
    omega
  have herr : |(bcStep pow cfg greens st).2.outConcErr| < cfg.outConcErrMax := by
    rw [bcStep_outConcErr, hven, hcap]
    simpa [FMAX] using htol
  unfold balanceLoop
  rw [hn, bcLoop]
  simp only [if_pos herr, and_self]

/-- Witness for C10 (amended): the echo solver on the all-zero state with
`nmaxbc = 3` and tolerance `1/1000`. -/
theorem balanceLoop_converged_first_witness :
    (2 : Int) ≤ (exampleConfig Real.rpow (1 / 1000) 3).nmaxbc ∧
    (0 : ℝ) < (exampleConfig Real.rpow (1 / 1000) 3).outConcErrMax ∧
    (balanceLoop Real.rpow (exampleConfig Real.rpow (1 / 1000) 3) echoSolver
        ((), zeroState)).outcome = Outcome.Converged ∧
    (balanceLoop Real.rpow (exampleConfig Real.rpow (1 / 1000) 3) echoSolver
        ((), zeroState)).iters = 1 :=
  ⟨by norm_num [exampleConfig], by norm_num [exampleConfig],
    (balanceLoop_converged_first Real.rpow (exampleConfig Real.rpow (1 / 1000) 3) echoSolver
      ((), zeroState) (by norm_num [exampleConfig]) (by norm_num [exampleConfig])
      (by simp [bcStep, feedback, globalScalars, invertAll, outflowConcs, aggregate,
        aggregateNode, initFlows, echoSolver, zeroState, exampleConfig])
      (by simp [bcStep, feedback, globalScalars, invertAll, outflowConcs, aggregate,
        aggregateNode, initFlows, echoSolver, zeroState, exampleConfig])).1,
    (balanceLoop_converged_first Real.rpow (exampleConfig Real.rpow (1 / 1000) 3) echoSolver
      ((), zeroState) (by norm_num [exampleConfig]) (by norm_num [exampleConfig])
      (by simp [bcStep, feedback, globalScalars, invertAll, outflowConcs, aggregate,
        aggregateNode, initFlows, echoSolver, zeroState, exampleConfig])
      (by simp [bcStep, feedback, globalScalars, invertAll, outflowConcs, aggregate,
        aggregateNode, initFlows, echoSolver, zeroState, exampleConfig])).2.1⟩

/-! ## C9: both root finders fail

The one-site profile at `h = 0.4` and `c = 131072/1638425` (saturation
`c/h/cs = 65536/65537`): the bracket is `[0, 1703936]`, false position keeps
its lower end at `0` and creeps towards the root near `246.335` without ever
making a step below `0.001` in 30 iterations, and 30 halvings leave the
bisection interval `13/8192 > 0.001` wide. -/

theorem oneSiteParams_wellFormed : WellFormed Real.rpow (oneSiteParams Real.rpow) where
  alphab_pos := by norm_num [oneSiteParams]
  cs_pos := by norm_num [oneSiteParams]
  p50_pos := by norm_num [oneSiteParams]
  fn_pos := by norm_num [oneSiteParams]
  plow_pos := by norm_num [oneSiteParams]
  plow_lt_phigh := by norm_num [oneSiteParams]
  clowfac_eq := rfl
  chighfac_eq := rfl
  pphighfac_nonneg := by
    simp only [oneSiteParams, SQR, Real.rpow_eq_pow]
    positivity

theorem oneSite_clowfac : (oneSiteParams Real.rpow).clowfac = 1 / 1305 := by
  simp only [oneSiteParams, Real.rpow_eq_pow, Real.rpow_one]
  norm_num

theorem oneSite_chighfac : (oneSiteParams Real.rpow).chighfac = 30 / 163 := by
  simp only [oneSiteParams, Real.rpow_eq_pow, Real.rpow_one]
  norm_num

theorem oneSite_pphighfac : (oneSiteParams Real.rpow).pphighfac = 13 / 265690 := by
  simp only [oneSiteParams, SQR, Real.rpow_eq_pow, Real.rpow_one, sub_self, Real.rpow_zero]
  norm_num

/-- The forward map of the one-site profile at `h = 0.4` in the mid branch. -/
theorem oneSite_conc_mid (x : ℝ) (h1 : 1 / 10 ≤ x) (h2 : x < 300) :
    bloodconc Real.rpow (oneSiteParams Real.rpow) x (2 / 5)
      = 2 / 25 * (x / (26 + x)) + 31 / 1000000 * x := by
  have hx : 0 < x := by linarith
  rw [bloodconc_of_mid _ _ _ _ hx.le h1 h2]
  simp only [oneSiteParams, Real.rpow_eq_pow, Real.rpow_one]
  field_simp
  ring

/-- The forward map of the one-site profile at `h = 0.4` in the high branch. -/
theorem oneSite_conc_high (x : ℝ) (h2 : 300 ≤ x) :
    bloodconc Real.rpow (oneSiteParams Real.rpow) x (2 / 5)
      = (30 / 163 + (x - 300) * (13 / 265690)) * (2 / 5) + 31 / 1000000 * x := by
  rw [bloodconc_of_high _ _ _ _ (by linarith) (by simp only [oneSiteParams]; linarith) h2,
    oneSite_chighfac, oneSite_pphighfac]
  rfl

theorem oneSite_conc_zero :
    bloodconc Real.rpow (oneSiteParams Real.rpow) 0 (2 / 5) = 0 := by
  unfold bloodconc
  rw [if_neg (lt_irrefl 0), if_pos (by norm_num [oneSiteParams])]
  simp

theorem oneSite_conc_lt {x y : ℝ} (hxy : x < y) :
    bloodconc Real.rpow (oneSiteParams Real.rpow) x (2 / 5)
      < bloodconc Real.rpow (oneSiteParams Real.rpow) y (2 / 5) :=
  bloodconc_lt_of_lt _ oneSiteParams_wellFormed (by norm_num) hxy

/-- Above a point `X` of `[246.3, 296.3]` the forward map lies below the line
through the origin with the slope the mid branch has at `X`. -/
theorem oneSite_conc_le_ray (X x : ℝ) (hX0 : 2463 / 10 ≤ X) (hX1 : X ≤ 2963 / 10)
    (hx : X ≤ x) :
    bloodconc Real.rpow (oneSiteParams Real.rpow) x (2 / 5)
      ≤ x * (2 / 25 / (26 + X) + 31 / 1000000) := by
  have hx0 : 0 < x := by linarith
  rcases lt_or_le x 300 with h3 | h3
  · rw [oneSite_conc_mid x (by linarith) h3]
    have h1 : x / (26 + x) ≤ x / (26 + X) :=
      div_le_div_of_nonneg_left hx0.le (by linarith) (by linarith)
    have h2 : x * (2 / 25 / (26 + X) + 31 / 1000000)
        = 2 / 25 * (x / (26 + X)) + 31 / 1000000 * x := by
      ring
    rw [h2]
    linarith
  · rw [oneSite_conc_high x h3]
    have h1 : (1 : ℝ) / (26 + 2963 / 10) ≤ 1 / (26 + X) :=
      one_div_le_one_div_of_le (by linarith) (by linarith)
    have h2 : x * (2 / 25 / (26 + X) + 31 / 1000000)
        = 2 / 25 * x * (1 / (26 + X)) + 31 / 1000000 * x := by
      ring
    have h4 : 2 / 25 * x * (1 / (26 + 2963 / 10)) ≤ 2 / 25 * x * (1 / (26 + X)) :=
      mul_le_mul_of_nonneg_left h1 (by positivity)
    rw [h2]
    norm_num at h4 ⊢
    linarith

theorem oneSite_conc_pos {x : ℝ} (hx : 0 < x) :
    0 < bloodconc Real.rpow (oneSiteParams Real.rpow) x (2 / 5) := by
  have h := oneSite_conc_lt hx
  rwa [oneSite_conc_zero] at h

/-- The interpolated point of `rtflsp` while its lower end stays at `0`. -/
theorem oneSite_interp (x : ℝ) (hx : 0 < x) :
    0 + (x - 0) * oneSiteFunc Real.rpow 0
        / (oneSiteFunc Real.rpow 0 - oneSiteFunc Real.rpow x)
      = x * (131072 / 1638425)
        / bloodconc Real.rpow (oneSiteParams Real.rpow) x (2 / 5) := by
  have hg := oneSite_conc_pos hx
  unfold oneSiteFunc func
  rw [oneSite_conc_zero]
  obtain ⟨g, hgdef⟩ : ∃ g : ℝ,
      g = bloodconc Real.rpow (oneSiteParams Real.rpow) x (2 / 5) := ⟨_, rfl⟩
  rw [← hgdef] at hg ⊢
  have e : (0 - 131072 / 1638425 : ℝ) - (g - 131072 / 1638425) = -g := by ring
  rw [e]
  field_simp

/-- The interpolated point stays away from `246.3`: the distance shrinks at
most by the factor `4/5` per iteration. -/
theorem oneSite_interp_lower (k : ℕ) (x : ℝ)
    (hx : 2463 / 10 + 50 * (4 / 5 : ℝ) ^ k ≤ x) :
    2463 / 10 + 50 * (4 / 5 : ℝ) ^ (k + 1)
      ≤ x * (131072 / 1638425)
        / bloodconc Real.rpow (oneSiteParams Real.rpow) x (2 / 5) := by
  have hpow : 0 < (4 / 5 : ℝ) ^ k := by positivity
  have hpow1 : (4 / 5 : ℝ) ^ k ≤ 1 := pow_le_one₀ (by norm_num) (by norm_num)
  have hx0 : 2463 / 10 < x := by linarith
  have hg := oneSite_conc_pos (x := x) (by linarith)
  rw [le_div_iff₀ hg]
  rcases le_or_lt x (2963 / 10) with hmid | hfar
  · rw [oneSite_conc_mid x (by linarith) (by linarith)]
    have h26 : 0 < 26 + x := by linarith
    have key : (2463 / 10 + 4 / 5 * (x - 2463 / 10)) * (2 / 25 + 31 / 1000000 * (26 + x))
        ≤ 131072 / 1638425 * (26 + x) := by
      nlinarith [mul_nonneg (sub_nonneg.mpr hx0.le) (sub_nonneg.mpr hmid)]
    have hl : 2463 / 10 + 50 * (4 / 5 : ℝ) ^ (k + 1)
        ≤ 2463 / 10 + 4 / 5 * (x - 2463 / 10) := by
      rw [pow_succ]
      linarith
    have e1 : 2 / 25 * (x / (26 + x)) + 31 / 1000000 * x
        = x / (26 + x) * (2 / 25 + 31 / 1000000 * (26 + x)) := by
      field_simp
      ring
    have hq : 0 ≤ x / (26 + x) := by positivity
    calc (2463 / 10 + 50 * (4 / 5 : ℝ) ^ (k + 1))
          * (2 / 25 * (x / (26 + x)) + 31 / 1000000 * x)
        ≤ (2463 / 10 + 4 / 5 * (x - 2463 / 10))
          * (2 / 25 * (x / (26 + x)) + 31 / 1000000 * x) :=
          mul_le_mul_of_nonneg_right hl (by positivity)
      _ = x / (26 + x)
          * ((2463 / 10 + 4 / 5 * (x - 2463 / 10)) * (2 / 25 + 31 / 1000000 * (26 + x))) := by
          rw [e1]
          ring
      _ ≤ x / (26 + x) * (131072 / 1638425 * (26 + x)) :=
          mul_le_mul_of_nonneg_left key hq
      _ = x * (131072 / 1638425) := by
          field_simp
          ring
  · have hray := oneSite_conc_le_ray (2963 / 10) x (by norm_num) (le_refl _) hfar.le
    have hl : 2463 / 10 + 50 * (4 / 5 : ℝ) ^ (k + 1) ≤ 2863 / 10 := by
      rw [pow_succ]
      linarith
    have hl0 : (0 : ℝ) ≤ 2463 / 10 + 50 * (4 / 5 : ℝ) ^ (k + 1) := by positivity
    calc (2463 / 10 + 50 * (4 / 5 : ℝ) ^ (k + 1))
          * bloodconc Real.rpow (oneSiteParams Real.rpow) x (2 / 5)
        ≤ 2863 / 10 * bloodconc Real.rpow (oneSiteParams Real.rpow) x (2 / 5) :=
          mul_le_mul_of_nonneg_right hl hg.le
      _ ≤ 2863 / 10 * (x * (2 / 25 / (26 + 2963 / 10) + 31 / 1000000)) :=
          mul_le_mul_of_nonneg_left hray (by norm_num)
      _ = x * (2863 / 10 * (2 / 25 / (26 + 2963 / 10) + 31 / 1000000)) := by ring
      _ ≤ x * (131072 / 1638425) :=
          mul_le_mul_of_nonneg_left (by norm_num) (by linarith)

theorem oneSite_conc_24636 :
    bloodconc Real.rpow (oneSiteParams Real.rpow) (24636 / 100) (2 / 5)
      = 2 / 25 * (24636 / 100 / (26 + 24636 / 100)) + 31 / 1000000 * (24636 / 100) :=
  oneSite_conc_mid _ (by norm_num) (by norm_num)

/-- From `246.36` upwards the function is positive. -/
theorem oneSiteFunc_pos (x : ℝ) (hx : 24636 / 100 ≤ x) : 0 < oneSiteFunc Real.rpow x := by
  have h1 : bloodconc Real.rpow (oneSiteParams Real.rpow) (24636 / 100) (2 / 5)
      ≤ bloodconc Real.rpow (oneSiteParams Real.rpow) x (2 / 5) := by
    rcases eq_or_lt_of_le hx with h | h
    · rw [h]
    · exact (oneSite_conc_lt h).le
  have h2 : (131072 / 1638425 : ℝ)
      < bloodconc Real.rpow (oneSiteParams Real.rpow) (24636 / 100) (2 / 5) := by
    rw [oneSite_conc_24636]
    norm_num
  unfold oneSiteFunc func
  linarith

/-- From `246.36` upwards a step of `rtflsp` from the upper end is at least
`0.001` long. -/
theorem oneSite_step_ge (x : ℝ) (hx : 24636 / 100 ≤ x) :
    1 / 1000 ≤ x - x * (131072 / 1638425)
      / bloodconc Real.rpow (oneSiteParams Real.rpow) x (2 / 5) := by
  have hx0 : 0 < x := by linarith
  have hg := oneSite_conc_pos hx0
  have h1 : bloodconc Real.rpow (oneSiteParams Real.rpow) (24636 / 100) (2 / 5)
      ≤ bloodconc Real.rpow (oneSiteParams Real.rpow) x (2 / 5) := by
    rcases eq_or_lt_of_le hx with h | h
    · rw [h]
    · exact (oneSite_conc_lt h).le
  have hray := oneSite_conc_le_ray (24636 / 100) x (by norm_num) (by norm_num) hx
  rw [oneSite_conc_24636] at h1
  obtain ⟨g, hgdef⟩ : ∃ g : ℝ,
      g = bloodconc Real.rpow (oneSiteParams Real.rpow) x (2 / 5) := ⟨_, rfl⟩
  rw [← hgdef] at hg h1 hray ⊢
  have h3 : x * (131072 / 1638425) / g ≤ x - 1 / 1000 := by
    rw [div_le_iff₀ hg]
    have h4 : x * (2 / 25 * (24636 / 100 / (26 + 24636 / 100)) + 31 / 1000000 * (24636 / 100))
        ≤ x * g := mul_le_mul_of_nonneg_left h1 hx0.le
    have h5 : x * (131072 / 1638425 + 1 / 1000 * (2 / 25 / (26 + 24636 / 100) + 31 / 1000000))
        ≤ x * (2 / 25 * (24636 / 100 / (26 + 24636 / 100)) + 31 / 1000000 * (24636 / 100)) :=
      mul_le_mul_of_nonneg_left (by norm_num) hx0.le
    nlinarith
  linarith

/-- False position never stops on the one-site example: started with the lower
end `0` and the upper end at least `246.3 + 50*(4/5)^k`, the loop runs out of
its remaining `n ≤ 30 - k` iterations. -/
theorem oneSite_rtflspLoop_none (n k : ℕ) (hk : k + n ≤ 30) (x : ℝ)
    (hx : 2463 / 10 + 50 * (4 / 5 : ℝ) ^ k ≤ x) :
    rtflspLoop (oneSiteFunc Real.rpow) (1 / 1000) n 0 x (oneSiteFunc Real.rpow 0)
      (oneSiteFunc Real.rpow x) (x - 0) = none := by
  induction n generalizing k x with
  | zero => rw [rtflspLoop]
  | succ n ih =>
    have h30 : (6 / 100 : ℝ) ≤ 50 * (4 / 5 : ℝ) ^ 30 := by norm_num
    have hk1 : (4 / 5 : ℝ) ^ 30 ≤ (4 / 5 : ℝ) ^ (k + 1) :=
      pow_le_pow_of_le_one (by norm_num) (by norm_num) (by omega)
    have hk0 : (4 / 5 : ℝ) ^ 30 ≤ (4 / 5 : ℝ) ^ k :=
      pow_le_pow_of_le_one (by norm_num) (by norm_num) (by omega)
    have hx36 : 24636 / 100 ≤ x := by linarith
    have hx0 : 0 < x := by linarith
    have hrtf := oneSite_interp x hx0
    have hlow := oneSite_interp_lower k x hx
    have hstep := oneSite_step_ge x hx36
    obtain ⟨r, hrdef⟩ : ∃ r : ℝ, r = x * (131072 / 1638425)
        / bloodconc Real.rpow (oneSiteParams Real.rpow) x (2 / 5) := ⟨_, rfl⟩
    rw [← hrdef] at hrtf hlow hstep
    have hr36 : 24636 / 100 ≤ r := by linarith
    have hfr := oneSiteFunc_pos r hr36
    rw [rtflspLoop_step_high _ _ n 0 x _ _ _
      (by rw [hrtf]; exact not_lt.mpr hfr.le)
      (by
        rw [hrtf]
        rintro (h | h)
        · have := le_abs_self (x - r)
          linarith
        · linarith),
      hrtf]
    exact ih (k + 1) (by omega) r hlow

/-- The root of the one-site example lies between two neighbouring points of
the bisection grid, `2017977/8192 ≈ 246.33508` and `1008995/4096 ≈ 246.33667`. -/
theorem oneSiteFunc_sign_change :
    oneSiteFunc Real.rpow (2017977 / 8192) < 0 ∧ 0 < oneSiteFunc Real.rpow (1008995 / 4096) := by
  constructor
  · unfold oneSiteFunc func
    rw [oneSite_conc_mid _ (by norm_num) (by norm_num)]
    norm_num
  · unfold oneSiteFunc func
    rw [oneSite_conc_mid _ (by norm_num) (by norm_num)]
    norm_num

/-- Bisection runs out of iterations on the one-site example: after 30
halvings of `[0, 1703936]` the interval is still `13/8192 > 0.001` wide and no
midpoint is an exact zero. -/
theorem oneSite_rtbisLoop_none :
    rtbisLoop (oneSiteFunc Real.rpow) (1 / 1000) 30 0 (1703936 - 0) = none := by
  have hlo := oneSiteFunc_sign_change.1
  have hhi := oneSiteFunc_sign_change.2
  have hneg : ∀ x : ℝ, x ≤ 2017977 / 8192 → oneSiteFunc Real.rpow x < 0 := by
    intro x hx
    rcases eq_or_lt_of_le hx with h | h
    · rw [h]
      exact hlo
    · have := oneSite_conc_lt h
      unfold oneSiteFunc func at hlo ⊢
      linarith
  have hpos : ∀ x : ℝ, 1008995 / 4096 ≤ x → 0 < oneSiteFunc Real.rpow x := by
    intro x hx
    rcases eq_or_lt_of_le hx with h | h
    · rw [← h]
      exact hhi
    · have := oneSite_conc_lt h
      unfold oneSiteFunc func at hhi ⊢
      linarith
  rw [rtbisLoop_step_pos _ _ 29 (0) (1703936 - 0) (851968) (851968)
    (by norm_num) (by norm_num) (hpos _ (by norm_num)) (by norm_num)]
  rw [rtbisLoop_step_pos _ _ 28 (0) (851968) (425984) (425984)
    (by norm_num) (by norm_num) (hpos _ (by norm_num)) (by norm_num)]
  rw [rtbisLoop_step_pos _ _ 27 (0) (425984) (212992) (212992)
    (by norm_num) (by norm_num) (hpos _ (by norm_num)) (by norm_num)]
  rw [rtbisLoop_step_pos _ _ 26 (0) (212992) (106496) (106496)
    (by norm_num) (by norm_num) (hpos _ (by norm_num)) (by norm_num)]
  rw [rtbisLoop_step_pos _ _ 25 (0) (106496) (53248) (53248)
    (by norm_num) (by norm_num) (hpos _ (by norm_num)) (by norm_num)]
  rw [rtbisLoop_step_pos _ _ 24 (0) (53248) (26624) (26624)
    (by norm_num) (by norm_num) (hpos _ (by norm_num)) (by norm_num)]
  rw [rtbisLoop_step_pos _ _ 23 (0) (26624) (13312) (13312)
    (by norm_num) (by norm_num) (hpos _ (by norm_num)) (by norm_num)]
  rw [rtbisLoop_step_pos _ _ 22 (0) (13312) (6656) (6656)
    (by norm_num) (by norm_num) (hpos _ (by norm_num)) (by norm_num)]
  rw [rtbisLoop_step_pos _ _ 21 (0) (6656) (3328) (3328)
    (by norm_num) (by norm_num) (hpos _ (by norm_num)) (by norm_num)]
  rw [rtbisLoop_step_pos _ _ 20 (0) (3328) (1664) (1664)
    (by norm_num) (by norm_num) (hpos _ (by norm_num)) (by norm_num)]
  rw [rtbisLoop_step_pos _ _ 19 (0) (1664) (832) (832)
    (by norm_num) (by norm_num) (hpos _ (by norm_num)) (by norm_num)]
  rw [rtbisLoop_step_pos _ _ 18 (0) (832) (416) (416)
    (by norm_num) (by norm_num) (hpos _ (by norm_num)) (by norm_num)]
  rw [rtbisLoop_step_neg _ _ 17 (0) (416) (208) (208)
    (by norm_num) (by norm_num) (hneg _ (by norm_num)) (by norm_num)]
  rw [rtbisLoop_step_pos _ _ 16 (208) (208) (312) (104)
    (by norm_num) (by norm_num) (hpos _ (by norm_num)) (by norm_num)]
  rw [rtbisLoop_step_pos _ _ 15 (208) (104) (260) (52)
    (by norm_num) (by norm_num) (hpos _ (by norm_num)) (by norm_num)]
  rw [rtbisLoop_step_neg _ _ 14 (208) (52) (234) (26)
    (by norm_num) (by norm_num) (hneg _ (by norm_num)) (by norm_num)]
  rw [rtbisLoop_step_pos _ _ 13 (234) (26) (247) (13)
    (by norm_num) (by norm_num) (hpos _ (by norm_num)) (by norm_num)]
  rw [rtbisLoop_step_neg _ _ 12 (234) (13) (481 / 2) (13 / 2)
    (by norm_num) (by norm_num) (hneg _ (by norm_num)) (by norm_num)]
  rw [rtbisLoop_step_neg _ _ 11 (481 / 2) (13 / 2) (975 / 4) (13 / 4)
    (by norm_num) (by norm_num) (hneg _ (by norm_num)) (by norm_num)]
  rw [rtbisLoop_step_neg _ _ 10 (975 / 4) (13 / 4) (1963 / 8) (13 / 8)
    (by norm_num) (by norm_num) (hneg _ (by norm_num)) (by norm_num)]
  rw [rtbisLoop_step_neg _ _ 9 (1963 / 8) (13 / 8) (3939 / 16) (13 / 16)
    (by norm_num) (by norm_num) (hneg _ (by norm_num)) (by norm_num)]
  rw [rtbisLoop_step_pos _ _ 8 (3939 / 16) (13 / 16) (7891 / 32) (13 / 32)
    (by norm_num) (by norm_num) (hpos _ (by norm_num)) (by norm_num)]
  rw [rtbisLoop_step_pos _ _ 7 (3939 / 16) (13 / 32) (15769 / 64) (13 / 64)
    (by norm_num) (by norm_num) (hpos _ (by norm_num)) (by norm_num)]
  rw [rtbisLoop_step_neg _ _ 6 (3939 / 16) (13 / 64) (31525 / 128) (13 / 128)
    (by norm_num) (by norm_num) (hneg _ (by norm_num)) (by norm_num)]
  rw [rtbisLoop_step_pos _ _ 5 (31525 / 128) (13 / 128) (63063 / 256) (13 / 256)
    (by norm_num) (by norm_num) (hpos _ (by norm_num)) (by norm_num)]
  rw [rtbisLoop_step_neg _ _ 4 (31525 / 128) (13 / 256) (126113 / 512) (13 / 512)
    (by norm_num) (by norm_num) (hneg _ (by norm_num)) (by norm_num)]
  rw [rtbisLoop_step_neg _ _ 3 (126113 / 512) (13 / 512) (252239 / 1024) (13 / 1024)
    (by norm_num) (by norm_num) (hneg _ (by norm_num)) (by norm_num)]
  rw [rtbisLoop_step_neg _ _ 2 (252239 / 1024) (13 / 1024) (504491 / 2048) (13 / 2048)
    (by norm_num) (by norm_num) (hneg _ (by norm_num)) (by norm_num)]
  rw [rtbisLoop_step_pos _ _ 1 (504491 / 2048) (13 / 2048) (1008995 / 4096) (13 / 4096)
    (by norm_num) (by norm_num) (hpos _ (by norm_num)) (by norm_num)]
  rw [rtbisLoop_step_neg _ _ 0 (504491 / 2048) (13 / 4096) (2017977 / 8192) (13 / 8192)
    (by norm_num) (by norm_num) (hneg _ (by norm_num)) (by norm_num)]
  rw [rtbisLoop]

theorem oneSiteFunc_zero : oneSiteFunc Real.rpow 0 = -(131072 / 1638425) := by
  unfold oneSiteFunc func
  rw [oneSite_conc_zero]
  ring

/-- On the one-site example `rtflsp` returns its failure value `-1`. -/
theorem oneSite_rtflsp_fails :
    rtflsp (oneSiteFunc Real.rpow) 0 1703936 (1 / 1000) = ⟨-1, []⟩ := by
  have h0 : oneSiteFunc Real.rpow 0 < 0 := by
    rw [oneSiteFunc_zero]
    norm_num
  have h1 : 0 < oneSiteFunc Real.rpow 1703936 := oneSiteFunc_pos _ (by norm_num)
  rw [rtflsp_of_neg _ _ _ _ (not_lt.mpr (mul_neg_of_neg_of_pos h0 h1).le) h0,
    oneSite_rtflspLoop_none 30 0 (by norm_num) 1703936 (by norm_num)]

/-- On the one-site example `rtbis` gives up after 30 iterations: it prints its
error and returns `0`. -/
theorem oneSite_rtbis_fails :
    rtbis (oneSiteFunc Real.rpow) 0 1703936 (1 / 1000) = ⟨0, [Msg.rtbisMaxIter]⟩ := by
  have h0 : oneSiteFunc Real.rpow 0 < 0 := by
    rw [oneSiteFunc_zero]
    norm_num
  have h1 : 0 < oneSiteFunc Real.rpow 1703936 := oneSiteFunc_pos _ (by norm_num)
  rw [rtbis_of_neg _ _ _ _ (not_le.mpr (mul_neg_of_neg_of_pos h0 h1)) h0,
    oneSite_rtbisLoop_none]

/-- The bracket `blood` chooses on the one-site example. -/
theorem oneSite_bracket :
    bloodBracket Real.rpow (oneSiteParams Real.rpow) (131072 / 1638425) (2 / 5)
      = (0, 1703936) := by
  unfold bloodBracket
  simp only [oneSiteParams, Real.rpow_eq_pow]
  rw [if_pos (by norm_num)]
  norm_num

/-- C9 (counterexample). One-site profile, `h = 0.4`, `c = 131072/1638425`:
`blood` is in its root-finding branch, `rtflsp` returns its failure value `-1`,
the `rtbis` retry over the same bracket runs out of its 30 iterations, and
`blood` writes the pressure `0` and the derivative `40403/13000000` with no
other sign of the failure than the console message of `rtbis`; `0` is also the
pressure it writes for the concentration `0`, while the concentration given
belongs to a pressure between `246.335` and `246.337`. -/
theorem blood_double_failure_writes_zero :
    (¬ (2 / 5 : ℝ) < 1 / 1000000 ∧ ¬ (131072 / 1638425 : ℝ) < 0 ∧
      ¬ (131072 / 1638425 : ℝ) < (oneSiteParams Real.rpow).clowfac * (2 / 5)
        + (oneSiteParams Real.rpow).alphab * (oneSiteParams Real.rpow).plow ∧
      (131072 / 1638425 : ℝ) < (oneSiteParams Real.rpow).chighfac * (2 / 5)
        + (oneSiteParams Real.rpow).alphab * (oneSiteParams Real.rpow).phigh) ∧
    rtflsp (func Real.rpow (oneSiteParams Real.rpow) (131072 / 1638425) (2 / 5))
      (bloodBracket Real.rpow (oneSiteParams Real.rpow) (131072 / 1638425) (2 / 5)).1
      (bloodBracket Real.rpow (oneSiteParams Real.rpow) (131072 / 1638425) (2 / 5)).2
      (1 / 1000) = ⟨-1, []⟩ ∧
    rtbis (func Real.rpow (oneSiteParams Real.rpow) (131072 / 1638425) (2 / 5))
      (bloodBracket Real.rpow (oneSiteParams Real.rpow) (131072 / 1638425) (2 / 5)).1
      (bloodBracket Real.rpow (oneSiteParams Real.rpow) (131072 / 1638425) (2 / 5)).2
      (1 / 1000) = ⟨0, [Msg.rtbisMaxIter]⟩ ∧
    blood Real.rpow (oneSiteParams Real.rpow) (131072 / 1638425) (2 / 5)
      = ⟨0, 40403 / 13000000, [Msg.rtbisMaxIter]⟩ ∧
    (blood Real.rpow (oneSiteParams Real.rpow) 0 (2 / 5)).p = 0 ∧
    (func Real.rpow (oneSiteParams Real.rpow) (131072 / 1638425) (2 / 5) (2017977 / 8192) < 0 ∧
      0 < func Real.rpow (oneSiteParams Real.rpow) (131072 / 1638425) (2 / 5)
        (1008995 / 4096)) := by
  have hbranch : ¬ (2 / 5 : ℝ) < 1 / 1000000 ∧ ¬ (131072 / 1638425 : ℝ) < 0 ∧
      ¬ (131072 / 1638425 : ℝ) < (oneSiteParams Real.rpow).clowfac * (2 / 5)
        + (oneSiteParams Real.rpow).alphab * (oneSiteParams Real.rpow).plow ∧
      (131072 / 1638425 : ℝ) < (oneSiteParams Real.rpow).chighfac * (2 / 5)
        + (oneSiteParams Real.rpow).alphab * (oneSiteParams Real.rpow).phigh := by
    rw [oneSite_clowfac, oneSite_chighfac]
    norm_num [oneSiteParams]
  have hf : func Real.rpow (oneSiteParams Real.rpow) (131072 / 1638425) (2 / 5)
      = oneSiteFunc Real.rpow := rfl
  have h1 : rtflsp (func Real.rpow (oneSiteParams Real.rpow) (131072 / 1638425) (2 / 5))
      (bloodBracket Real.rpow (oneSiteParams Real.rpow) (131072 / 1638425) (2 / 5)).1
      (bloodBracket Real.rpow (oneSiteParams Real.rpow) (131072 / 1638425) (2 / 5)).2
      (1 / 1000) = ⟨-1, []⟩ := by
    rw [oneSite_bracket, hf]
    exact oneSite_rtflsp_fails
  have h2 : rtbis (func Real.rpow (oneSiteParams Real.rpow) (131072 / 1638425) (2 / 5))
      (bloodBracket Real.rpow (oneSiteParams Real.rpow) (131072 / 1638425) (2 / 5)).1
      (bloodBracket Real.rpow (oneSiteParams Real.rpow) (131072 / 1638425) (2 / 5)).2
      (1 / 1000) = ⟨0, [Msg.rtbisMaxIter]⟩ := by
    rw [oneSite_bracket, hf]
    exact oneSite_rtbis_fails
  have hp : (blood Real.rpow (oneSiteParams Real.rpow) (131072 / 1638425) (2 / 5)).p = 0 := by
    rw [blood_rootBranch_p _ _ _ _ hbranch.1 hbranch.2.1 hbranch.2.2.1 hbranch.2.2.2, h1, h2]
    simp only []
    rw [if_pos (by norm_num)]
  refine ⟨hbranch, h1, h2, ?_, ?_, oneSiteFunc_sign_change⟩
  · rw [blood_rootBranch _ _ _ _ hbranch.1 hbranch.2.1 hbranch.2.2.1 hbranch.2.2.2, hp, h1, h2]
    simp only [oneSiteParams, SQR, Real.rpow_eq_pow, zero_div, sub_self, Real.rpow_zero,
      Real.rpow_one]
    norm_num
  · unfold blood bloodWith
    rw [if_neg (by norm_num), if_neg (lt_irrefl 0)]
    simp only []
    rw [if_pos (by rw [oneSite_clowfac]; norm_num [oneSiteParams])]
    simp

/-- C9 (amended). For every `c` and `h` that send `blood` into its root-finding
branch: if `rtflsp` returns a negative value (its failure value `-1`) and the
`rtbis` retry over the same bracket also fails (it prints one of its two error
messages), then `blood` writes the pressure `0`, the value `rtbis` returns on
failure, and the mid-branch derivative formula evaluated at pressure `0`; the
only trace of the failure is what the two root finders printed. -/
theorem blood_double_failure {α : Type} [LinearOrderedField α] (pow : α → α → α)
    (P : BloodParams α) (c h : α) (hh : 1 / 1000000 ≤ h) (hc0 : 0 ≤ c)
    (hc1 : P.clowfac * h + P.alphab * P.plow ≤ c)
    (hc2 : c < P.chighfac * h + P.alphab * P.phigh)
    (hflsp : (rtflsp (func pow P c h) (bloodBracket pow P c h).1 (bloodBracket pow P c h).2
      (1 / 1000)).val < 0)
    (hbis : (rtbis (func pow P c h) (bloodBracket pow P c h).1 (bloodBracket pow P c h).2
      (1 / 1000)).msgs ≠ []) :
    (blood pow P c h).p = 0 ∧
    (blood pow P c h).pp
      = P.cs * h * P.fn / P.p50 * pow (0 / P.p50) (P.fn - 1)
          / SQR (1 + pow (0 / P.p50) P.fn) + P.alphab ∧
    (blood pow P c h).msgs
      = (rtflsp (func pow P c h) (bloodBracket pow P c h).1 (bloodBracket pow P c h).2
          (1 / 1000)).msgs
        ++ (rtbis (func pow P c h) (bloodBracket pow P c h).1 (bloodBracket pow P c h).2
          (1 / 1000)).msgs := by
  have hp : (blood pow P c h).p = 0 := by
    rw [blood_rootBranch_p pow P c h (not_lt.mpr hh) (not_lt.mpr hc0) (not_lt.mpr hc1) hc2,
      if_pos hflsp, rtbis_val_of_msgs _ _ _ _ hbis]
  have hall := blood_rootBranch pow P c h (not_lt.mpr hh) (not_lt.mpr hc0) (not_lt.mpr hc1) hc2
  have hpp := congrArg BloodResult.pp hall
  have hmsgs := congrArg BloodResult.msgs hall
  simp only [] at hpp hmsgs
  rw [hp] at hpp
  rw [if_pos hflsp] at hmsgs
  exact ⟨hp, hpp, hmsgs⟩

/-- Witness for C9 (amended): the one-site profile at `h = 0.4`,
`c = 131072/1638425`, where both root finders fail. -/
theorem blood_double_failure_witness :
    ((1 / 1000000 : ℝ) ≤ 2 / 5 ∧ (0 : ℝ) ≤ 131072 / 1638425) ∧
    ((rtflsp (func Real.rpow (oneSiteParams Real.rpow) (131072 / 1638425) (2 / 5))
      (bloodBracket Real.rpow (oneSiteParams Real.rpow) (131072 / 1638425) (2 / 5)).1
      (bloodBracket Real.rpow (oneSiteParams Real.rpow) (131072 / 1638425) (2 / 5)).2
      (1 / 1000)).val < 0 ∧
     (rtbis (func Real.rpow (oneSiteParams Real.rpow) (131072 / 1638425) (2 / 5))
      (bloodBracket Real.rpow (oneSiteParams Real.rpow) (131072 / 1638425) (2 / 5)).1
      (bloodBracket Real.rpow (oneSiteParams Real.rpow) (131072 / 1638425) (2 / 5)).2
      (1 / 1000)).msgs ≠ []) ∧
    (blood Real.rpow (oneSiteParams Real.rpow) (131072 / 1638425) (2 / 5)).p = 0 := by
  have hf : func Real.rpow (oneSiteParams Real.rpow) (131072 / 1638425) (2 / 5)
      = oneSiteFunc Real.rpow := rfl
  have h1 : (rtflsp (func Real.rpow (oneSiteParams Real.rpow) (131072 / 1638425) (2 / 5))
      (bloodBracket Real.rpow (oneSiteParams Real.rpow) (131072 / 1638425) (2 / 5)).1
      (bloodBracket Real.rpow (oneSiteParams Real.rpow) (131072 / 1638425) (2 / 5)).2
      (1 / 1000)).val < 0 := by
    rw [oneSite_bracket, hf, oneSite_rtflsp_fails]
    norm_num
  have h2 : (rtbis (func Real.rpow (oneSiteParams Real.rpow) (131072 / 1638425) (2 / 5))
      (bloodBracket Real.rpow (oneSiteParams Real.rpow) (131072 / 1638425) (2 / 5)).1
      (bloodBracket Real.rpow (oneSiteParams Real.rpow) (131072 / 1638425) (2 / 5)).2
      (1 / 1000)).msgs ≠ [] := by
    rw [oneSite_bracket, hf, oneSite_rtbis_fails]
    exact List.cons_ne_nil _ _
  exact ⟨⟨by norm_num, by norm_num⟩, ⟨h1, h2⟩,
    (blood_double_failure Real.rpow (oneSiteParams Real.rpow) (131072 / 1638425) (2 / 5)
      (by norm_num) (by norm_num)
      (by rw [oneSite_clowfac]; norm_num [oneSiteParams])
      (by rw [oneSite_chighfac]; norm_num [oneSiteParams]) h1 h2).1⟩

section LoopFacts

variable {α : Type} [LinearOrderedField α]

theorem FMAX_eq_max (a b : α) : FMAX a b = max a b := by
  unfold FMAX
  by_cases h : a > b
  · rw [if_pos h, max_eq_left (le_of_lt h)]
  · rw [if_neg h, max_eq_right (not_lt.mp h)]

/-- After a pass the inflow venule and capillary concentrations are the outflow
ones the pass computed, and the arteriole inflow concentration is the one the
pass started with. -/
theorem bcStep_feedback {σ : Type} (pow : α → α → α) (cfg : BCConfig α)
    (greens : σ → α → α → α → σ × List (BNode α)) (st : σ × BCState α) :
    (bcStep pow cfg greens st).2.inVenConc = (bcStep pow cfg greens st).2.outVenConc ∧
    (bcStep pow cfg greens st).2.inCapConc = (bcStep pow cfg greens st).2.outCapConc ∧
    (bcStep pow cfg greens st).2.inArtConc = st.2.inArtConc := by
  have h := aggregate_inConc cfg.flowfac
    (greens st.1 st.2.inArtConc st.2.inVenConc st.2.inCapConc).2 1 (initFlows st.2)
  have ha : (initFlows st.2).inArtConc = st.2.inArtConc := rfl
  refine ⟨rfl, rfl, ?_⟩
  simp only [bcStep, feedback, globalScalars, invertAll, outflowConcs]
  rw [h.2.2, ha]

theorem bcLoop_iters_pos {σ : Type} (pow : α → α → α) (cfg : BCConfig α)
    (greens : σ → α → α → α → σ × List (BNode α)) (n : Nat) (st : σ × BCState α)
    (h : (bcLoop pow cfg greens n st).outcome = Outcome.Converged) :
    1 ≤ (bcLoop pow cfg greens n st).iters := by
  induction n generalizing st with
  | zero =>
    rw [bcLoop] at h
    cases h
  | succ n ih =>
    rw [bcLoop]
    by_cases hc : |(bcStep pow cfg greens st).2.outConcErr| < cfg.outConcErrMax
    · simp only [if_pos hc, le_refl]
    · simp only [if_neg hc]
      omega

/-- The arteriole inflow concentration at the end of the balance loop is the
one it started with. -/
theorem bcLoop_inArtConc {σ : Type} (pow : α → α → α) (cfg : BCConfig α)
    (greens : σ → α → α → α → σ × List (BNode α)) (n : Nat) (st : σ × BCState α) :
    (bcLoop pow cfg greens n st).final.2.inArtConc = st.2.inArtConc := by
  induction n generalizing st with
  | zero => rw [bcLoop]
  | succ n ih =>
    rw [bcLoop]
    by_cases hc : |(bcStep pow cfg greens st).2.outConcErr| < cfg.outConcErrMax
    · simp only [if_pos hc]
      exact (bcStep_feedback pow cfg greens st).2.2
    · simp only [if_neg hc]
      rw [ih, (bcStep_feedback pow cfg greens st).2.2]

theorem FMAX_abs_nonneg (a b : α) : 0 ≤ FMAX |a| |b| := by
  rw [FMAX_eq_max]
  exact le_max_of_le_left (abs_nonneg a)

end LoopFacts

/-! ## C11: the stopping test -/

/-- C11 (amended). For every iteration, with the metric
`max(|inCapConc - outCapConc|, |inVenConc - outVenConc|)` of that iteration, the
loop exits as `Converged` at this iteration if and only if the metric is
strictly below `outConcErrMax`. -/
theorem bcLoop_exit_iff_lt {α σ : Type} [LinearOrderedField α]
    (pow : α → α → α) (cfg : BCConfig α)
    (greens : σ → α → α → α → σ × List (BNode α)) (n : Nat) (st : σ × BCState α) :
    ((bcLoop pow cfg greens (n + 1) st).outcome = Outcome.Converged ∧
      (bcLoop pow cfg greens (n + 1) st).iters = 1) ↔
    max |st.2.inCapConc - (bcStep pow cfg greens st).2.outCapConc|
        |st.2.inVenConc - (bcStep pow cfg greens st).2.outVenConc|
      < cfg.outConcErrMax := by
  have hm : |(bcStep pow cfg greens st).2.outConcErr|
      = max |st.2.inCapConc - (bcStep pow cfg greens st).2.outCapConc|
        |st.2.inVenConc - (bcStep pow cfg greens st).2.outVenConc| := by
    rw [bcStep_outConcErr, abs_of_nonneg (FMAX_abs_nonneg _ _), FMAX_eq_max]
  rw [← hm, bcLoop]
  by_cases hc : |(bcStep pow cfg greens st).2.outConcErr| < cfg.outConcErrMax
  · simp only [if_pos hc, and_self]
    exact ⟨fun _ => hc, fun _ => trivial⟩
  · simp only [if_neg hc]
    constructor
    · rintro ⟨hconv, h1⟩
      have := bcLoop_iters_pos pow cfg greens n _ hconv
      omega
    · intro h
      exact absurd h hc

/-- C11 (counterexample). Tolerance `1/2`, `nmaxbc = 3`, all-zero state, and a
solver whose outflow nodes always carry concentration `1/2`: in the first
iteration the metric equals the tolerance exactly, yet the loop does not exit
there; it makes a second iteration (metric `0`) and converges only then. -/
theorem balanceLoop_metric_equal_tolerance_goes_on :
    max |(zeroState : BCState ℝ).inCapConc
          - (bcStep Real.rpow (exampleConfig Real.rpow (1 / 2) 3)
              (fixedSolver [⟨7, 1, 1 / 2⟩, ⟨8, 1, 1 / 2⟩, ⟨9, 1, 1 / 2⟩])
              ((), zeroState)).2.outCapConc|
        |(zeroState : BCState ℝ).inVenConc
          - (bcStep Real.rpow (exampleConfig Real.rpow (1 / 2) 3)
              (fixedSolver [⟨7, 1, 1 / 2⟩, ⟨8, 1, 1 / 2⟩, ⟨9, 1, 1 / 2⟩])
              ((), zeroState)).2.outVenConc|
      = (exampleConfig Real.rpow (1 / 2 : ℝ) 3).outConcErrMax ∧
    (balanceLoop Real.rpow (exampleConfig Real.rpow (1 / 2) 3)
        (fixedSolver [⟨7, 1, 1 / 2⟩, ⟨8, 1, 1 / 2⟩, ⟨9, 1, 1 / 2⟩])
        ((), zeroState)).outcome = Outcome.Converged ∧
    (balanceLoop Real.rpow (exampleConfig Real.rpow (1 / 2) 3)
        (fixedSolver [⟨7, 1, 1 / 2⟩, ⟨8, 1, 1 / 2⟩, ⟨9, 1, 1 / 2⟩])
        ((), zeroState)).iters = 2 := by
  have hout : ∀ st : Unit × BCState ℝ,
      (bcStep Real.rpow (exampleConfig Real.rpow (1 / 2) 3)
        (fixedSolver [⟨7, 1, 1 / 2⟩, ⟨8, 1, 1 / 2⟩, ⟨9, 1, 1 / 2⟩]) st).2.outCapConc = 1 / 2 ∧
      (bcStep Real.rpow (exampleConfig Real.rpow (1 / 2) 3)
        (fixedSolver [⟨7, 1, 1 / 2⟩, ⟨8, 1, 1 / 2⟩, ⟨9, 1, 1 / 2⟩]) st).2.outVenConc = 1 / 2 := by
    intro st
    constructor <;>
    simp [bcStep, feedback, globalScalars, invertAll, outflowConcs, aggregate, aggregateNode,
      initFlows, fixedSolver, exampleConfig]
  have htol : (exampleConfig Real.rpow (1 / 2 : ℝ) 3).outConcErrMax = 1 / 2 := rfl
  have h1 : ¬ |(bcStep Real.rpow (exampleConfig Real.rpow (1 / 2) 3)
      (fixedSolver [⟨7, 1, 1 / 2⟩, ⟨8, 1, 1 / 2⟩, ⟨9, 1, 1 / 2⟩])
      ((), zeroState)).2.outConcErr| < (exampleConfig Real.rpow (1 / 2 : ℝ) 3).outConcErrMax := by
    rw [bcStep_outConcErr, (hout _).1, (hout _).2, htol]
    simp only [zeroState, zero_sub, abs_neg]
    rw [FMAX_eq_max, max_self, abs_abs, abs_of_pos (by norm_num : (0 : ℝ) < 1 / 2)]
    exact lt_irrefl _
  have h2 : |(bcStep Real.rpow (exampleConfig Real.rpow (1 / 2) 3)
      (fixedSolver [⟨7, 1, 1 / 2⟩, ⟨8, 1, 1 / 2⟩, ⟨9, 1, 1 / 2⟩])
      (bcStep Real.rpow (exampleConfig Real.rpow (1 / 2) 3)
        (fixedSolver [⟨7, 1, 1 / 2⟩, ⟨8, 1, 1 / 2⟩, ⟨9, 1, 1 / 2⟩])
        ((), zeroState))).2.outConcErr| < (exampleConfig Real.rpow (1 / 2 : ℝ) 3).outConcErrMax := by
    rw [bcStep_outConcErr, (hout _).1, (hout _).2, (bcStep_feedback _ _ _ _).1,
      (bcStep_feedback _ _ _ _).2.1, (hout _).1, (hout _).2, htol]
    rw [FMAX_eq_max, max_self, sub_self, abs_zero, abs_zero]
    norm_num
  have hloop : balanceLoop Real.rpow (exampleConfig Real.rpow (1 / 2) 3)
      (fixedSolver [⟨7, 1, 1 / 2⟩, ⟨8, 1, 1 / 2⟩, ⟨9, 1, 1 / 2⟩]) ((), (zeroState : BCState ℝ))
      = bcLoop Real.rpow (exampleConfig Real.rpow (1 / 2) 3)
        (fixedSolver [⟨7, 1, 1 / 2⟩, ⟨8, 1, 1 / 2⟩, ⟨9, 1, 1 / 2⟩]) (1 + 1) ((), zeroState) := rfl
  refine ⟨?_, ?_, ?_⟩
  · rw [(hout _).1, (hout _).2, htol]
    simp only [zeroState, zero_sub, abs_neg]
    rw [abs_of_pos (by norm_num : (0 : ℝ) < 1 / 2), max_self]
  · rw [hloop, bcLoop]
    simp only [if_neg h1]
    rw [bcLoop]
    simp only [if_pos h2]
  · rw [hloop, bcLoop]
    simp only [if_neg h1]
    rw [bcLoop]
    simp only [if_pos h2]

/-! ## C16: the feedback rule and its frame -/

/-- C16. For every iteration: the convergence metric it leaves is
`max(|inCapConc - outCapConc|, |inVenConc - outVenConc|)` with the inflow
concentrations the iteration started with; afterwards `inVenConc` is this
iteration's `outVenConc` and `inCapConc` is this `outCapConc`, and these are the
values the solver gets in the next iteration; `inArtConc` is unchanged by the
iteration, so it has the same value after any number of iterations of a run. -/
theorem bcStep_metric_feedback_frame {α σ : Type} [LinearOrderedField α]
    (pow : α → α → α) (cfg : BCConfig α)
    (greens : σ → α → α → α → σ × List (BNode α)) (st : σ × BCState α) :
    (bcStep pow cfg greens st).2.outConcErr
      = max |st.2.inCapConc - (bcStep pow cfg greens st).2.outCapConc|
          |st.2.inVenConc - (bcStep pow cfg greens st).2.outVenConc| ∧
    (bcStep pow cfg greens st).2.inVenConc = (bcStep pow cfg greens st).2.outVenConc ∧
    (bcStep pow cfg greens st).2.inCapConc = (bcStep pow cfg greens st).2.outCapConc ∧
    (bcStep pow cfg greens (bcStep pow cfg greens st)).1
      = (greens (bcStep pow cfg greens st).1 st.2.inArtConc
          (bcStep pow cfg greens st).2.outVenConc (bcStep pow cfg greens st).2.outCapConc).1 ∧
    (bcStep pow cfg greens st).2.inArtConc = st.2.inArtConc ∧
    ∀ k : Nat, ((bcStep pow cfg greens)^[k] st).2.inArtConc = st.2.inArtConc := by
  have hf := bcStep_feedback pow cfg greens st
  refine ⟨?_, hf.1, hf.2.1, ?_, hf.2.2, ?_⟩
  · rw [bcStep_outConcErr, FMAX_eq_max]
  · conv_lhs => rw [bcStep]
    simp only []
    rw [hf.1, hf.2.1, hf.2.2]
  · intro k
    induction k with
    | zero => rfl
    | succ k ih =>
      rw [Function.iterate_succ_apply', (bcStep_feedback pow cfg greens _).2.2, ih]

section Agg

variable {α : Type} [LinearOrderedField α]

theorem classFlow_cons (code : Int) (nd : BNode α) (rest : List (BNode α)) :
    classFlow code (nd :: rest)
      = (if nd.bctyp = code then nd.qq else 0) + classFlow code rest := by
  unfold classFlow
  by_cases h : nd.bctyp = code
  · simp [List.filter_cons, h]
  · simp [List.filter_cons, h]

theorem classFlux_cons (flowfac : α) (code : Int) (nd : BNode α) (rest : List (BNode α)) :
    classFlux flowfac code (nd :: rest)
      = (if nd.bctyp = code then nd.segc / flowfac else 0) + classFlux flowfac code rest := by
  unfold classFlux
  by_cases h : nd.bctyp = code
  · simp [List.filter_cons, h]
  · simp [List.filter_cons, h]

/-- What the `switch` does to the twelve accumulators for one node. -/
theorem aggregateNode_buckets (flowfac : α) (s : BCState α) (i : Nat) (nd : BNode α) :
    (aggregateNode flowfac s i nd).inVenFlow
      = s.inVenFlow + (if nd.bctyp = 4 then nd.qq else 0) ∧
    (aggregateNode flowfac s i nd).inVenFlux
      = s.inVenFlux + (if nd.bctyp = 4 then nd.segc / flowfac else 0) ∧
    (aggregateNode flowfac s i nd).inArtFlow
      = s.inArtFlow + (if nd.bctyp = 5 then nd.qq else 0) ∧
    (aggregateNode flowfac s i nd).inArtFlux
      = s.inArtFlux + (if nd.bctyp = 5 then nd.segc / flowfac else 0) ∧
    (aggregateNode flowfac s i nd).inCapFlow
      = s.inCapFlow + (if nd.bctyp = 6 then nd.qq else 0) ∧
    (aggregateNode flowfac s i nd).inCapFlux
      = s.inCapFlux + (if nd.bctyp = 6 then nd.segc / flowfac else 0) ∧
    (aggregateNode flowfac s i nd).outVenFlow
      = s.outVenFlow + (if nd.bctyp = 7 then nd.qq else 0) ∧
    (aggregateNode flowfac s i nd).outVenFlux
      = s.outVenFlux + (if nd.bctyp = 7 then nd.segc / flowfac else 0) ∧
    (aggregateNode flowfac s i nd).outArtFlow
      = s.outArtFlow + (if nd.bctyp = 8 then nd.qq else 0) ∧
    (aggregateNode flowfac s i nd).outArtFlux
      = s.outArtFlux + (if nd.bctyp = 8 then nd.segc / flowfac else 0) ∧
    (aggregateNode flowfac s i nd).outCapFlow
      = s.outCapFlow + (if nd.bctyp = 9 then nd.qq else 0) ∧
    (aggregateNode flowfac s i nd).outCapFlux
      = s.outCapFlux + (if nd.bctyp = 9 then nd.segc / flowfac else 0) := by
  unfold aggregateNode
  by_cases h4 : nd.bctyp = 4
  · simp [h4]
  by_cases h5 : nd.bctyp = 5
  · simp [h5]
  by_cases h6 : nd.bctyp = 6
  · simp [h6]
  by_cases h7 : nd.bctyp = 7
  · simp [h7]
  by_cases h8 : nd.bctyp = 8
  · simp [h8]
  by_cases h9 : nd.bctyp = 9
  · simp [h9]
  · simp [h4, h5, h6, h7, h8, h9]

/-- The twelve accumulators after the loop over the boundary nodes, from any
starting values. -/
theorem aggregate_buckets (flowfac : α) (nodes : List (BNode α)) (i : Nat) (s : BCState α) :
    (aggregate flowfac nodes i s).inVenFlow = s.inVenFlow + classFlow 4 nodes ∧
    (aggregate flowfac nodes i s).inVenFlux = s.inVenFlux + classFlux flowfac 4 nodes ∧
    (aggregate flowfac nodes i s).inArtFlow = s.inArtFlow + classFlow 5 nodes ∧
    (aggregate flowfac nodes i s).inArtFlux = s.inArtFlux + classFlux flowfac 5 nodes ∧
    (aggregate flowfac nodes i s).inCapFlow = s.inCapFlow + classFlow 6 nodes ∧
    (aggregate flowfac nodes i s).inCapFlux = s.inCapFlux + classFlux flowfac 6 nodes ∧
    (aggregate flowfac nodes i s).outVenFlow = s.outVenFlow + classFlow 7 nodes ∧
    (aggregate flowfac nodes i s).outVenFlux = s.outVenFlux + classFlux flowfac 7 nodes ∧
    (aggregate flowfac nodes i s).outArtFlow = s.outArtFlow + classFlow 8 nodes ∧
    (aggregate flowfac nodes i s).outArtFlux = s.outArtFlux + classFlux flowfac 8 nodes ∧
    (aggregate flowfac nodes i s).outCapFlow = s.outCapFlow + classFlow 9 nodes ∧
    (aggregate flowfac nodes i s).outCapFlux = s.outCapFlux + classFlux flowfac 9 nodes := by
  induction nodes generalizing i s with
  | nil => simp [aggregate, classFlow, classFlux]
  | cons nd rest ih =>
    have h1 := ih (i + 1) (aggregateNode flowfac s i nd)
    have h2 := aggregateNode_buckets flowfac s i nd
    obtain ⟨a1, a2, a3, a4, a5, a6, a7, a8, a9, a10, a11, a12⟩ := h1
    obtain ⟨b1, b2, b3, b4, b5, b6, b7, b8, b9, b10, b11, b12⟩ := h2
    simp only [classFlow_cons, classFlux_cons]
    unfold aggregate
    refine ⟨?_, ?_, ?_, ?_, ?_, ?_, ?_, ?_, ?_, ?_, ?_, ?_⟩
    · rw [a1, b1, add_assoc]
    · rw [a2, b2, add_assoc]
    · rw [a3, b3, add_assoc]
    · rw [a4, b4, add_assoc]
    · rw [a5, b5, add_assoc]
    · rw [a6, b6, add_assoc]
    · rw [a7, b7, add_assoc]
    · rw [a8, b8, add_assoc]
    · rw [a9, b9, add_assoc]
    · rw [a10, b10, add_assoc]
    · rw [a11, b11, add_assoc]
    · rw [a12, b12, add_assoc]

theorem aggregateNode_console_of_classified (flowfac : α) (s : BCState α) (i : Nat)
    (nd : BNode α) (h : 4 ≤ nd.bctyp ∧ nd.bctyp ≤ 9) :
    (aggregateNode flowfac s i nd).console = s.console := by
  unfold aggregateNode
  split_ifs
  all_goals first | rfl | (exfalso; omega)

end Agg

section Agg2

variable {α : Type} [LinearOrderedField α]

theorem aggregate_console_of_classified (flowfac : α) (nodes : List (BNode α)) (i : Nat)
    (s : BCState α) (h : ∀ nd ∈ nodes, 4 ≤ nd.bctyp ∧ nd.bctyp ≤ 9) :
    (aggregate flowfac nodes i s).console = s.console := by
  induction nodes generalizing i s with
  | nil => rfl
  | cons nd rest ih =>
    unfold aggregate
    rw [ih (i + 1) _ (fun x hx => h x (List.mem_cons_of_mem _ hx)),
      aggregateNode_console_of_classified flowfac s i nd (h nd (List.mem_cons_self _ _))]

end Agg2

/-! ## C12: boundary aggregation -/

/-- C12 (counterexample). On the test network (two inflow-venule nodes with
flows 10, 20 and fluxes 1, 2, one outflow-venule node with flow 30 and flux
2.5) the aggregation gives inflow-venule flow `30` and flux `3`, but `inVenConc`
is not their quotient `0.1`: after the aggregation and the concentration
computation it still has the value it had before (here `0`), and at the end of
the pass it is the outflow-venule concentration `2.5/30`. -/
theorem aggregation_inVenConc_not_quotient :
    (aggregate (1 : ℝ) testNetwork 1 (initFlows zeroState)).inVenFlux
      / (aggregate (1 : ℝ) testNetwork 1 (initFlows zeroState)).inVenFlow = 1 / 10 ∧
    (outflowConcs (aggregate (1 : ℝ) testNetwork 1 (initFlows zeroState))).inVenConc = 0 ∧
    (bcStep Real.rpow (exampleConfig Real.rpow (1 / 1000) 3) (fixedSolver testNetwork)
      ((), zeroState)).2.inVenConc = 5 / 2 / 30 ∧
    (5 / 2 / 30 : ℝ) ≠ 1 / 10 := by
  have hb := aggregate_buckets (1 : ℝ) testNetwork 1 (initFlows zeroState)
  refine ⟨?_, ?_, ?_, by norm_num⟩
  · rw [hb.1, hb.2.1]
    norm_num [classFlow, classFlux, testNetwork, initFlows, zeroState]
  · have h := aggregate_inConc (1 : ℝ) testNetwork 1 (initFlows zeroState)
    show (aggregate (1 : ℝ) testNetwork 1 (initFlows zeroState)).inVenConc = 0
    rw [h.1]
    rfl
  · rw [(bcStep_feedback _ _ _ _).1]
    simp [bcStep, feedback, globalScalars, invertAll, outflowConcs, aggregate, aggregateNode,
      initFlows, fixedSolver, exampleConfig, testNetwork]

/-- C12 (amended). For every list of boundary nodes with type codes in `4..9`,
after one aggregation pass (from reset accumulators) each of the six flow and
six flux buckets equals the sum of the flows, respectively of the fluxes
`segc/flowfac`, of exactly the nodes of that class, and nothing is printed; the
concentration of each outflow class is its accumulated flux divided by its
accumulated flow; the inflow concentrations are not computed from the buckets
and keep the values they had before the pass. -/
theorem aggregate_class_sums {α : Type} [LinearOrderedField α] (flowfac : α)
    (nodes : List (BNode α)) (s : BCState α)
    (hcodes : ∀ nd ∈ nodes, 4 ≤ nd.bctyp ∧ nd.bctyp ≤ 9) :
    ((aggregate flowfac nodes 1 (initFlows s)).inVenFlow = classFlow 4 nodes ∧
     (aggregate flowfac nodes 1 (initFlows s)).inVenFlux = classFlux flowfac 4 nodes ∧
     (aggregate flowfac nodes 1 (initFlows s)).inArtFlow = classFlow 5 nodes ∧
     (aggregate flowfac nodes 1 (initFlows s)).inArtFlux = classFlux flowfac 5 nodes ∧
     (aggregate flowfac nodes 1 (initFlows s)).inCapFlow = classFlow 6 nodes ∧
     (aggregate flowfac nodes 1 (initFlows s)).inCapFlux = classFlux flowfac 6 nodes ∧
     (aggregate flowfac nodes 1 (initFlows s)).outVenFlow = classFlow 7 nodes ∧
     (aggregate flowfac nodes 1 (initFlows s)).outVenFlux = classFlux flowfac 7 nodes ∧
     (aggregate flowfac nodes 1 (initFlows s)).outArtFlow = classFlow 8 nodes ∧
     (aggregate flowfac nodes 1 (initFlows s)).outArtFlux = classFlux flowfac 8 nodes ∧
     (aggregate flowfac nodes 1 (initFlows s)).outCapFlow = classFlow 9 nodes ∧
     (aggregate flowfac nodes 1 (initFlows s)).outCapFlux = classFlux flowfac 9 nodes) ∧
    (aggregate flowfac nodes 1 (initFlows s)).console = s.console ∧
    ((outflowConcs (aggregate flowfac nodes 1 (initFlows s))).outVenConc
        = classFlux flowfac 7 nodes / classFlow 7 nodes ∧
     (outflowConcs (aggregate flowfac nodes 1 (initFlows s))).outArtConc
        = classFlux flowfac 8 nodes / classFlow 8 nodes ∧
     (outflowConcs (aggregate flowfac nodes 1 (initFlows s))).outCapConc
        = classFlux flowfac 9 nodes / classFlow 9 nodes) ∧
    ((outflowConcs (aggregate flowfac nodes 1 (initFlows s))).inVenConc = s.inVenConc ∧
     (outflowConcs (aggregate flowfac nodes 1 (initFlows s))).inArtConc = s.inArtConc ∧
     (outflowConcs (aggregate flowfac nodes 1 (initFlows s))).inCapConc = s.inCapConc) := by
  have hb := aggregate_buckets flowfac nodes 1 (initFlows s)
  have hc := aggregate_inConc flowfac nodes 1 (initFlows s)
  have hz : (initFlows s).inVenFlow = 0 ∧ (initFlows s).inVenFlux = 0 ∧
      (initFlows s).inArtFlow = 0 ∧ (initFlows s).inArtFlux = 0 ∧
      (initFlows s).inCapFlow = 0 ∧ (initFlows s).inCapFlux = 0 ∧
      (initFlows s).outVenFlow = 0 ∧ (initFlows s).outVenFlux = 0 ∧
      (initFlows s).outArtFlow = 0 ∧ (initFlows s).outArtFlux = 0 ∧
      (initFlows s).outCapFlow = 0 ∧ (initFlows s).outCapFlux = 0 :=
    ⟨rfl, rfl, rfl, rfl, rfl, rfl, rfl, rfl, rfl, rfl, rfl, rfl⟩
  obtain ⟨z1, z2, z3, z4, z5, z6, z7, z8, z9, z10, z11, z12⟩ := hz
  obtain ⟨b1, b2, b3, b4, b5, b6, b7, b8, b9, b10, b11, b12⟩ := hb
  rw [z1, zero_add] at b1
  rw [z2, zero_add] at b2
  rw [z3, zero_add] at b3
  rw [z4, zero_add] at b4
  rw [z5, zero_add] at b5
  rw [z6, zero_add] at b6
  rw [z7, zero_add] at b7
  rw [z8, zero_add] at b8
  rw [z9, zero_add] at b9
  rw [z10, zero_add] at b10
  rw [z11, zero_add] at b11
  rw [z12, zero_add] at b12
  refine ⟨⟨b1, b2, b3, b4, b5, b6, b7, b8, b9, b10, b11, b12⟩, ?_, ⟨?_, ?_, ?_⟩, ⟨?_, ?_, ?_⟩⟩
  · rw [aggregate_console_of_classified flowfac nodes 1 _ hcodes]
    rfl
  · show (aggregate flowfac nodes 1 (initFlows s)).outVenFlux
      / (aggregate flowfac nodes 1 (initFlows s)).outVenFlow = _
    rw [b7, b8]
  · show (aggregate flowfac nodes 1 (initFlows s)).outArtFlux
      / (aggregate flowfac nodes 1 (initFlows s)).outArtFlow = _
    rw [b9, b10]
  · show (aggregate flowfac nodes 1 (initFlows s)).outCapFlux
      / (aggregate flowfac nodes 1 (initFlows s)).outCapFlow = _
    rw [b11, b12]
  · exact hc.1
  · exact hc.2.2
  · exact hc.2.1

/-- Witness for C12 (amended): the test network with `flowfac = 1` from the
all-zero state: inflow-venule flow `30` and flux `3`, outflow-venule
concentration `2.5/30`. -/
theorem aggregate_class_sums_witness :
    (∀ nd ∈ (testNetwork : List (BNode ℝ)), 4 ≤ nd.bctyp ∧ nd.bctyp ≤ 9) ∧
    (aggregate (1 : ℝ) testNetwork 1 (initFlows zeroState)).inVenFlow = 30 ∧
    (aggregate (1 : ℝ) testNetwork 1 (initFlows zeroState)).inVenFlux = 3 ∧
    (outflowConcs (aggregate (1 : ℝ) testNetwork 1 (initFlows zeroState))).outVenConc
      = 5 / 2 / 30 := by
  have hcodes : ∀ nd ∈ (testNetwork : List (BNode ℝ)), 4 ≤ nd.bctyp ∧ nd.bctyp ≤ 9 := by
    intro nd hnd
    simp only [testNetwork, List.mem_cons, List.mem_singleton, List.not_mem_nil, or_false] at hnd
    rcases hnd with h | h | h <;> rw [h] <;> exact ⟨by norm_num, by norm_num⟩
  have h := aggregate_class_sums (1 : ℝ) testNetwork zeroState hcodes
  refine ⟨hcodes, ?_, ?_, ?_⟩
  · rw [h.1.1]
    norm_num [classFlow, testNetwork]
  · rw [h.1.2.1]
    norm_num [classFlux, testNetwork]
  · rw [h.2.2.1.1]
    norm_num [classFlow, classFlux, testNetwork]

/-! ## C13: zero accumulated flow -/

/-- C13 (counterexample). A network without any outflow node (the test network
stripped to its two inflow-venule nodes), example configuration, all-zero
state: the accumulated outflow-venule flow is `0`, and the pass nevertheless
sets `outVenConc` to the quotient flux/flow, inverts that quotient with
`blood`, uses it in the convergence metric, and prints nothing. -/
theorem zero_outflow_quotient_passed_on :
    (aggregate (exampleConfig Real.rpow (1 / 1000 : ℝ) 3).flowfac
      [⟨4, 10, 1⟩, ⟨4, 20, 2⟩] 1 (initFlows zeroState)).outVenFlow = 0 ∧
    (bcStep Real.rpow (exampleConfig Real.rpow (1 / 1000) 3)
        (fixedSolver [⟨4, 10, 1⟩, ⟨4, 20, 2⟩]) ((), zeroState)).2.outVenConc
      = (aggregate (exampleConfig Real.rpow (1 / 1000 : ℝ) 3).flowfac
          [⟨4, 10, 1⟩, ⟨4, 20, 2⟩] 1 (initFlows zeroState)).outVenFlux
        / (aggregate (exampleConfig Real.rpow (1 / 1000 : ℝ) 3).flowfac
          [⟨4, 10, 1⟩, ⟨4, 20, 2⟩] 1 (initFlows zeroState)).outVenFlow ∧
    (bcStep Real.rpow (exampleConfig Real.rpow (1 / 1000) 3)
        (fixedSolver [⟨4, 10, 1⟩, ⟨4, 20, 2⟩]) ((), zeroState)).2.outVenPO2
      = (blood Real.rpow (exampleConfig Real.rpow (1 / 1000 : ℝ) 3).P
          ((aggregate (exampleConfig Real.rpow (1 / 1000 : ℝ) 3).flowfac
              [⟨4, 10, 1⟩, ⟨4, 20, 2⟩] 1 (initFlows zeroState)).outVenFlux
            / (aggregate (exampleConfig Real.rpow (1 / 1000 : ℝ) 3).flowfac
              [⟨4, 10, 1⟩, ⟨4, 20, 2⟩] 1 (initFlows zeroState)).outVenFlow)
          (exampleConfig Real.rpow (1 / 1000 : ℝ) 3).HDin0).p ∧
    (bcStep Real.rpow (exampleConfig Real.rpow (1 / 1000) 3)
        (fixedSolver [⟨4, 10, 1⟩, ⟨4, 20, 2⟩]) ((), zeroState)).2.console = [] := by
  refine ⟨?_, rfl, rfl, ?_⟩
  · rw [(aggregate_buckets _ _ _ _).2.2.2.2.2.2.1]
    norm_num [classFlow, initFlows, zeroState]
  · have hclow : (0 : ℝ) < (exampleParams Real.rpow).clowfac * (4 / 10)
        + (exampleParams Real.rpow).alphab * (exampleParams Real.rpow).plow := by
      have h1 := exampleParams_wellFormed.clowfac_pos
      have h2 := exampleParams_wellFormed.alphab_pos
      have h3 := exampleParams_wellFormed.plow_pos
      positivity
    have hb : (blood Real.rpow (exampleParams Real.rpow) 0 (4 / 10)).msgs = [] := by
      unfold blood bloodWith
      rw [if_neg (by norm_num), if_neg (lt_irrefl 0)]
      simp only []
      rw [if_pos hclow]
    simp [bcStep, feedback, globalScalars, invertAll, outflowConcs, aggregate, aggregateNode,
      initFlows, fixedSolver, exampleConfig, zeroState, hb]

/-- C13 (amended). For every aggregation pass, also one in which an outflow
class has accumulated flow zero, the iteration computes the concentration of
each outflow class as accumulated flux divided by accumulated flow without any
check, prints nothing at that step, and passes the quotient on to the
inversion, to the effective flow and to the convergence metric. -/
theorem outflow_quotients_unguarded {α σ : Type} [LinearOrderedField α]
    (pow : α → α → α) (cfg : BCConfig α)
    (greens : σ → α → α → α → σ × List (BNode α)) (st : σ × BCState α) :
    ((bcStep pow cfg greens st).2.outVenConc
        = (aggregate cfg.flowfac (greens st.1 st.2.inArtConc st.2.inVenConc st.2.inCapConc).2 1
            (initFlows st.2)).outVenFlux
          / (aggregate cfg.flowfac (greens st.1 st.2.inArtConc st.2.inVenConc st.2.inCapConc).2 1
            (initFlows st.2)).outVenFlow ∧
     (bcStep pow cfg greens st).2.outArtConc
        = (aggregate cfg.flowfac (greens st.1 st.2.inArtConc st.2.inVenConc st.2.inCapConc).2 1
            (initFlows st.2)).outArtFlux
          / (aggregate cfg.flowfac (greens st.1 st.2.inArtConc st.2.inVenConc st.2.inCapConc).2 1
            (initFlows st.2)).outArtFlow ∧
     (bcStep pow cfg greens st).2.outCapConc
        = (aggregate cfg.flowfac (greens st.1 st.2.inArtConc st.2.inVenConc st.2.inCapConc).2 1
            (initFlows st.2)).outCapFlux
          / (aggregate cfg.flowfac (greens st.1 st.2.inArtConc st.2.inVenConc st.2.inCapConc).2 1
            (initFlows st.2)).outCapFlow) ∧
    (outflowConcs (aggregate cfg.flowfac
        (greens st.1 st.2.inArtConc st.2.inVenConc st.2.inCapConc).2 1 (initFlows st.2))).console
      = (aggregate cfg.flowfac
        (greens st.1 st.2.inArtConc st.2.inVenConc st.2.inCapConc).2 1 (initFlows st.2)).console ∧
    ((bcStep pow cfg greens st).2.outVenPO2
        = (blood pow cfg.P (bcStep pow cfg greens st).2.outVenConc cfg.HDin0).p ∧
     (bcStep pow cfg greens st).2.outArtPO2
        = (blood pow cfg.P (bcStep pow cfg greens st).2.outArtConc cfg.HDin0).p ∧
     (bcStep pow cfg greens st).2.outCapPO2
        = (blood pow cfg.P (bcStep pow cfg greens st).2.outCapConc cfg.HDin0).p) ∧
    (bcStep pow cfg greens st).2.qeff
      = (bcStep pow cfg greens st).2.diffFlux
        / (st.2.inArtConc - (bcStep pow cfg greens st).2.outVenConc) ∧
    (bcStep pow cfg greens st).2.outConcErr
      = FMAX |st.2.inCapConc - (bcStep pow cfg greens st).2.outCapConc|
          |st.2.inVenConc - (bcStep pow cfg greens st).2.outVenConc| := by
  have h := aggregate_inConc cfg.flowfac
    (greens st.1 st.2.inArtConc st.2.inVenConc st.2.inCapConc).2 1 (initFlows st.2)
  have ha : (initFlows st.2).inArtConc = st.2.inArtConc := rfl
  refine ⟨⟨rfl, rfl, rfl⟩, rfl, ⟨rfl, rfl, rfl⟩, ?_, bcStep_outConcErr pow cfg greens st⟩
  simp only [bcStep, feedback, globalScalars, invertAll, outflowConcs]
  rw [h.2.2, ha]

section PassFacts

variable {α : Type} [LinearOrderedField α]

/-- The pressure `blood` returns from its high closed-form branch. -/
theorem blood_p_of_high (pow : α → α → α) (P : BloodParams α) (c h : α)
    (hh : ¬ h < 1 / 1000000) (hc0 : ¬ c < 0)
    (hc1 : ¬ c < P.clowfac * h + P.alphab * P.plow)
    (hc2 : ¬ c < P.chighfac * h + P.alphab * P.phigh) :
    blood pow P c h
      = ⟨P.phigh + (c - (P.chighfac * h + P.alphab * P.phigh)) / (P.pphighfac * h + P.alphab),
          P.pphighfac * h + P.alphab, []⟩ := by
  unfold blood bloodWith
  simp only [if_neg hh, if_neg hc0, if_neg hc1, if_neg hc2]

/-- The pressure `blood` returns from its low closed-form branch. -/
theorem blood_of_low (pow : α → α → α) (P : BloodParams α) (c h : α)
    (hh : ¬ h < 1 / 1000000) (hc0 : ¬ c < 0)
    (hc1 : c < P.clowfac * h + P.alphab * P.plow) :
    blood pow P c h
      = ⟨c * P.plow / (P.clowfac * h + P.alphab * P.plow),
          (P.clowfac * h + P.alphab * P.plow) / P.plow, []⟩ := by
  unfold blood bloodWith
  simp only [if_neg hh, if_neg hc0, if_pos hc1]

/-- The pressure `blood` returns for a negative concentration. -/
theorem blood_of_neg (pow : α → α → α) (P : BloodParams α) (c h : α)
    (hh : ¬ h < 1 / 1000000) (hc0 : c < 0) :
    blood pow P c h = ⟨c / P.alphab, P.alphab, []⟩ := by
  unfold blood bloodWith
  simp only [if_neg hh, if_pos hc0]

/-- The inflow pressures a pass leaves are the inversions of the inflow
concentrations it started with. -/
theorem bcStep_inPO2 {σ : Type} (pow : α → α → α) (cfg : BCConfig α)
    (greens : σ → α → α → α → σ × List (BNode α)) (st : σ × BCState α) :
    (bcStep pow cfg greens st).2.inVenPO2 = (blood pow cfg.P st.2.inVenConc cfg.HDin0).p ∧
    (bcStep pow cfg greens st).2.inArtPO2 = (blood pow cfg.P st.2.inArtConc cfg.HDin0).p ∧
    (bcStep pow cfg greens st).2.inCapPO2 = (blood pow cfg.P st.2.inCapConc cfg.HDin0).p := by
  have h := aggregate_inConc cfg.flowfac
    (greens st.1 st.2.inArtConc st.2.inVenConc st.2.inCapConc).2 1 (initFlows st.2)
  have hv : (initFlows st.2).inVenConc = st.2.inVenConc := rfl
  have hc : (initFlows st.2).inCapConc = st.2.inCapConc := rfl
  have ha : (initFlows st.2).inArtConc = st.2.inArtConc := rfl
  simp only [bcStep, feedback, globalScalars, invertAll, outflowConcs]
  rw [h.1, h.2.1, h.2.2, hv, hc, ha]
  exact ⟨rfl, rfl, rfl⟩

/-- With the drift solver and `flowfac = 1` a pass computes outflow venule and
capillary concentrations `d` above the inflow ones it started with. -/
theorem bcStep_driftSolver (pow : α → α → α) (cfg : BCConfig α) (hff : cfg.flowfac = 1)
    (d : α) (st : Unit × BCState α) :
    (bcStep pow cfg (driftSolver d) st).2.outVenConc = st.2.inVenConc + d ∧
    (bcStep pow cfg (driftSolver d) st).2.outCapConc = st.2.inCapConc + d := by
  constructor <;>
  simp [bcStep, feedback, globalScalars, invertAll, outflowConcs, aggregate, aggregateNode,
    initFlows, driftSolver, hff]

end PassFacts

/-! ## C14: the initial state of the cases after the first -/

/-- The forward map of the one-site profile at the configured pressure `400`. -/
theorem oneSite_conc_400 :
    bloodconc Real.rpow (oneSiteParams Real.rpow) 400 (2 / 5) = 5843639 / 66422500 := by
  rw [oneSite_conc_high 400 (by norm_num)]
  norm_num

/-- On the one-site profile the inversion of `bloodconc 400 + 1/10000` is the
pressure `540112500/1343639` (about `401.98`), whose concentration is again
`bloodconc 400 + 1/10000`. -/
theorem oneSite_blood_drifted :
    (blood Real.rpow (oneSiteParams Real.rpow) (5843639 / 66422500 + 1 / 10000) (2 / 5)).p
      = 540112500 / 1343639 ∧
    bloodconc Real.rpow (oneSiteParams Real.rpow) (540112500 / 1343639) (2 / 5)
      = 5843639 / 66422500 + 1 / 10000 := by
  constructor
  · rw [blood_p_of_high _ _ _ _ (by norm_num) (by norm_num)
      (by rw [oneSite_clowfac]; norm_num [oneSiteParams])
      (by rw [oneSite_chighfac]; norm_num [oneSiteParams])]
    simp only []
    rw [oneSite_chighfac, oneSite_pphighfac]
    norm_num [oneSiteParams]
  · rw [oneSite_conc_high _ (by norm_num)]
    norm_num

/-- C14 (the code with two cases). One-site profile, `HDin0 = 0.4`, tolerance
`1e-6`, `nmaxbc = 3`, two cases, configured inflow pressures `400`, and a solver
whose outflow concentrations lie `1e-4` above the inflow ones. The first case
starts from `bloodconc 400` and ends `Exhausted` after its two iterations, so
the second case is run; it starts its first iteration with the venule inflow
concentration `bloodconc 400 + 1e-4`, computed from the pressure `inVenPO2` that
the last inversion of the first case left (about `401.98`), not from the
configured `400`. -/
theorem second_case_starts_from_overwritten_pressure :
    (initialConcs Real.rpow (oneSiteConfig Real.rpow (1 / 1000000) 3 2)
        (inputState400 : BCState ℝ)).inVenConc
      = bloodconc Real.rpow (oneSiteParams Real.rpow) 400 (2 / 5) ∧
    (runCase Real.rpow (oneSiteConfig Real.rpow (1 / 1000000) 3 2) (driftSolver (1 / 10000))
        ((), inputState400)).outcome = Outcome.Exhausted ∧
    mainRuns Real.rpow (oneSiteConfig Real.rpow (1 / 1000000) 3 2) (driftSolver (1 / 10000))
        2 ((), inputState400)
      = [runCase Real.rpow (oneSiteConfig Real.rpow (1 / 1000000) 3 2)
            (driftSolver (1 / 10000)) ((), inputState400),
          runCase Real.rpow (oneSiteConfig Real.rpow (1 / 1000000) 3 2)
            (driftSolver (1 / 10000))
            (runCase Real.rpow (oneSiteConfig Real.rpow (1 / 1000000) 3 2)
              (driftSolver (1 / 10000)) ((), inputState400)).final] ∧
    (runCase Real.rpow (oneSiteConfig Real.rpow (1 / 1000000) 3 2) (driftSolver (1 / 10000))
        ((), inputState400)).final.2.inVenPO2 = 540112500 / 1343639 ∧
    (initialConcs Real.rpow (oneSiteConfig Real.rpow (1 / 1000000) 3 2)
        (runCase Real.rpow (oneSiteConfig Real.rpow (1 / 1000000) 3 2)
          (driftSolver (1 / 10000)) ((), inputState400)).final.2).inVenConc
      = bloodconc Real.rpow (oneSiteParams Real.rpow) 400 (2 / 5) + 1 / 10000 := by
  obtain ⟨cfg, hcfg⟩ : ∃ cfg : BCConfig ℝ,
      cfg = oneSiteConfig Real.rpow (1 / 1000000) 3 2 := ⟨_, rfl⟩
  obtain ⟨st0, hst0⟩ : ∃ st0 : Unit × BCState ℝ,
      st0 = ((), initialConcs Real.rpow cfg inputState400) := ⟨_, rfl⟩
  have hP : cfg.P = oneSiteParams Real.rpow := by rw [hcfg]; rfl
  have hH : cfg.HDin0 = 2 / 5 := by rw [hcfg]; rfl
  have hff : cfg.flowfac = 1 := by rw [hcfg]; rfl
  have htol : cfg.outConcErrMax = 1 / 1000000 := by rw [hcfg]; rfl
  have hn : (cfg.nmaxbc - 1).toNat = 1 + 1 := by rw [hcfg]; rfl
  have h0 : st0.2.inVenConc = 5843639 / 66422500 ∧ st0.2.inCapConc = 5843639 / 66422500 := by
    rw [hst0]
    constructor
    · show bloodconc Real.rpow cfg.P 400 cfg.HDin0 = _
      rw [hP, hH, oneSite_conc_400]
    · show bloodconc Real.rpow cfg.P 400 cfg.HDin0 = _
      rw [hP, hH, oneSite_conc_400]
  obtain ⟨st1, hst1⟩ : ∃ st1, st1 = bcStep Real.rpow cfg (driftSolver (1 / 10000)) st0 :=
    ⟨_, rfl⟩
  obtain ⟨st2, hst2⟩ : ∃ st2, st2 = bcStep Real.rpow cfg (driftSolver (1 / 10000)) st1 :=
    ⟨_, rfl⟩
  have hd0 := bcStep_driftSolver Real.rpow cfg hff (1 / 10000) st0
  have hd1 := bcStep_driftSolver Real.rpow cfg hff (1 / 10000) st1
  have hf0 := bcStep_feedback Real.rpow cfg (driftSolver (1 / 10000)) st0
  rw [← hst1] at hd0 hf0
  rw [← hst2] at hd1
  have h1 : st1.2.inVenConc = 5843639 / 66422500 + 1 / 10000
      ∧ st1.2.inCapConc = 5843639 / 66422500 + 1 / 10000 := by
    rw [hf0.1, hf0.2.1, hd0.1, hd0.2, h0.1, h0.2]
    exact ⟨rfl, rfl⟩
  have he1 : ¬ |st1.2.outConcErr| < cfg.outConcErrMax := by
    rw [hst1, bcStep_outConcErr, ← hst1, hd0.1, hd0.2, htol, FMAX_eq_max]
    norm_num [abs_of_pos]
  have he2 : ¬ |st2.2.outConcErr| < cfg.outConcErrMax := by
    rw [hst2, bcStep_outConcErr, ← hst2, hd1.1, hd1.2, htol, FMAX_eq_max]
    norm_num [abs_of_pos]
  have hrun : runCase Real.rpow cfg (driftSolver (1 / 10000)) ((), inputState400)
      = ⟨Outcome.Exhausted, 2, st2⟩ := by
    show balanceLoop Real.rpow cfg (driftSolver (1 / 10000))
      ((), initialConcs Real.rpow cfg inputState400) = _
    rw [← hst0]
    unfold balanceLoop
    rw [hn, bcLoop]
    simp only []
    rw [← hst1, if_neg he1, bcLoop]
    simp only []
    rw [← hst2, if_neg he2, bcLoop]
  have hPO2 : st2.2.inVenPO2 = 540112500 / 1343639 := by
    rw [hst2, (bcStep_inPO2 _ _ _ _).1, h1.1, hP, hH]
    exact oneSite_blood_drifted.1
  rw [← hcfg, hrun]
  refine ⟨?_, rfl, ?_, hPO2, ?_⟩
  · show bloodconc Real.rpow cfg.P 400 cfg.HDin0 = _
    rw [hP, hH]
  · rw [mainRuns]
    simp only [hrun]
    rw [if_neg (by decide), mainRuns]
    split_ifs
    · rfl
    · rw [mainRuns]
  · show bloodconc Real.rpow cfg.P st2.2.inVenPO2 cfg.HDin0 = _
    rw [hPO2, hP, hH, oneSite_blood_drifted.2, oneSite_conc_400]

theorem WellFormed.clow_pos {P : BloodParams ℝ} (hP : WellFormed Real.rpow P) {h : ℝ}
    (hh : 0 ≤ h) : 0 < P.clowfac * h + P.alphab * P.plow := by
  have h1 := mul_nonneg hP.clowfac_pos.le hh
  have h2 := mul_pos hP.alphab_pos hP.plow_pos
  linarith

theorem WellFormed.clow_le_chigh {P : BloodParams ℝ} (hP : WellFormed Real.rpow P) {h : ℝ}
    (hh : 0 ≤ h) :
    P.clowfac * h + P.alphab * P.plow ≤ P.chighfac * h + P.alphab * P.phigh := by
  have h1 := mul_le_mul_of_nonneg_right hP.clowfac_le_chighfac hh
  have h2 := mul_le_mul_of_nonneg_left hP.plow_lt_phigh.le hP.alphab_pos.le
  linarith

theorem WellFormed.pphigh_pos {P : BloodParams ℝ} (hP : WellFormed Real.rpow P) {h : ℝ}
    (hh : 0 ≤ h) : 0 < P.pphighfac * h + P.alphab := by
  have h1 := mul_nonneg hP.pphighfac_nonneg hh
  have h2 := hP.alphab_pos
  linarith

/-! ## C17: the derivative returned by the inversion -/

/-- C17. Under well-formed parameters and `h ≥ 1e-6`, for every `c`: when
`blood c h` returns `(p, pp)` through a closed-form branch (`c < 0`,
`0 ≤ c < clow`, or `c ≥ chigh`) then `pp = bloodconcp p h`; in the root-finding
branch (`clow ≤ c < chigh`) `pp` is the mid-branch value
`cs*h*fn/p50*(p/p50)^(fn-1)/(1+(p/p50)^fn)^2 + alphab` at the returned `p`, which
is `bloodconcp p h` whenever `plow ≤ p < phigh`. -/
theorem blood_derivative_consistent (P : BloodParams ℝ) (hP : WellFormed Real.rpow P)
    (h c : ℝ) (hh : 1 / 1000000 ≤ h) :
    ((c < 0 ∨ (0 ≤ c ∧ c < P.clowfac * h + P.alphab * P.plow)
        ∨ P.chighfac * h + P.alphab * P.phigh ≤ c) →
      (blood Real.rpow P c h).pp = bloodconcp Real.rpow P (blood Real.rpow P c h).p h) ∧
    ((P.clowfac * h + P.alphab * P.plow ≤ c ∧ c < P.chighfac * h + P.alphab * P.phigh) →
      (blood Real.rpow P c h).pp
          = P.cs * h * P.fn / P.p50 * ((blood Real.rpow P c h).p / P.p50) ^ (P.fn - 1)
            / (1 + ((blood Real.rpow P c h).p / P.p50) ^ P.fn) ^ 2 + P.alphab ∧
      ((P.plow ≤ (blood Real.rpow P c h).p ∧ (blood Real.rpow P c h).p < P.phigh) →
        (blood Real.rpow P c h).pp
          = bloodconcp Real.rpow P (blood Real.rpow P c h).p h)) := by
  have hh0 : 0 < h := lt_of_lt_of_le (by norm_num) hh
  have hclow := hP.clow_pos hh0.le
  have hlh := hP.clow_le_chigh hh0.le
  have hpp := hP.pphigh_pos hh0.le
  have hpl := hP.plow_pos
  constructor
  · rintro (hneg | ⟨h0, hlow⟩ | hhigh)
    · rw [blood_of_neg _ _ _ _ (not_lt.mpr hh) hneg]
      simp only []
      unfold bloodconcp
      rw [if_pos (div_neg_of_neg_of_pos hneg hP.alphab_pos)]
    · rw [blood_of_low _ _ _ _ (not_lt.mpr hh) (not_lt.mpr h0) hlow]
      simp only []
      have hp0 : 0 ≤ c * P.plow / (P.clowfac * h + P.alphab * P.plow) := by positivity
      have hp1 : c * P.plow / (P.clowfac * h + P.alphab * P.plow) < P.plow := by
        rw [div_lt_iff₀ hclow, mul_comm P.plow]
        exact mul_lt_mul_of_pos_right hlow hpl
      unfold bloodconcp
      rw [if_neg (not_lt.mpr hp0), if_pos hp1]
      field_simp
    · have hc0 : 0 ≤ c := by linarith
      rw [blood_p_of_high _ _ _ _ (not_lt.mpr hh) (not_lt.mpr hc0)
        (not_lt.mpr (le_trans hlh hhigh)) (not_lt.mpr hhigh)]
      simp only []
      have hd : 0 ≤ (c - (P.chighfac * h + P.alphab * P.phigh))
          / (P.pphighfac * h + P.alphab) :=
        div_nonneg (sub_nonneg.mpr hhigh) hpp.le
      have hp2 : P.phigh ≤ P.phigh + (c - (P.chighfac * h + P.alphab * P.phigh))
          / (P.pphighfac * h + P.alphab) := by linarith
      unfold bloodconcp
      rw [if_neg (not_lt.mpr (le_trans hP.phigh_pos.le hp2)),
        if_neg (not_lt.mpr (le_trans hP.plow_lt_phigh.le hp2)), if_neg (not_lt.mpr hp2)]
  · rintro ⟨hc1, hc2⟩
    have hc0 : 0 ≤ c := le_trans hclow.le hc1
    have hall := blood_rootBranch Real.rpow P c h (not_lt.mpr hh) (not_lt.mpr hc0)
      (not_lt.mpr hc1) hc2
    have hppv := congrArg BloodResult.pp hall
    simp only [] at hppv
    have hform : (blood Real.rpow P c h).pp
        = P.cs * h * P.fn / P.p50 * ((blood Real.rpow P c h).p / P.p50) ^ (P.fn - 1)
          / (1 + ((blood Real.rpow P c h).p / P.p50) ^ P.fn) ^ 2 + P.alphab := by
      rw [hppv]
      simp only [SQR, Real.rpow_eq_pow, pow_two]
    refine ⟨hform, ?_⟩
    rintro ⟨hp1, hp2⟩
    rw [hform]
    unfold bloodconcp
    rw [if_neg (not_lt.mpr (le_trans hpl.le hp1)), if_neg (not_lt.mpr hp1), if_pos hp2]
    simp only [SQR, Real.rpow_eq_pow, pow_two]

/-- Witness for C17: the example profile at `h = 0.4` with the negative
concentration `c = -1` (closed form) and with `c = bloodconc 26 0.4` (root
finding). -/
theorem blood_derivative_consistent_witness :
    WellFormed Real.rpow (exampleParams Real.rpow) ∧ (1 / 1000000 : ℝ) ≤ 2 / 5 ∧
    (blood Real.rpow (exampleParams Real.rpow) (-1) (2 / 5)).pp
      = bloodconcp Real.rpow (exampleParams Real.rpow)
          (blood Real.rpow (exampleParams Real.rpow) (-1) (2 / 5)).p (2 / 5) ∧
    (blood Real.rpow (exampleParams Real.rpow)
        (bloodconc Real.rpow (exampleParams Real.rpow) 26 (2 / 5)) (2 / 5)).pp
      = (exampleParams Real.rpow).cs * (2 / 5) * (exampleParams Real.rpow).fn
          / (exampleParams Real.rpow).p50
          * ((blood Real.rpow (exampleParams Real.rpow)
              (bloodconc Real.rpow (exampleParams Real.rpow) 26 (2 / 5)) (2 / 5)).p
              / (exampleParams Real.rpow).p50) ^ ((exampleParams Real.rpow).fn - 1)
          / (1 + ((blood Real.rpow (exampleParams Real.rpow)
              (bloodconc Real.rpow (exampleParams Real.rpow) 26 (2 / 5)) (2 / 5)).p
              / (exampleParams Real.rpow).p50) ^ (exampleParams Real.rpow).fn) ^ 2
        + (exampleParams Real.rpow).alphab := by
  have hP := exampleParams_wellFormed
  have h1 : (exampleParams Real.rpow).clowfac * (2 / 5)
      + (exampleParams Real.rpow).alphab * (exampleParams Real.rpow).plow
      ≤ bloodconc Real.rpow (exampleParams Real.rpow) 26 (2 / 5) := by
    rw [← hP.bloodconc_plow]
    exact (bloodconc_lt_of_lt _ hP (by norm_num) (by norm_num [exampleParams])).le
  have h2 : bloodconc Real.rpow (exampleParams Real.rpow) 26 (2 / 5)
      < (exampleParams Real.rpow).chighfac * (2 / 5)
        + (exampleParams Real.rpow).alphab * (exampleParams Real.rpow).phigh := by
    rw [← hP.bloodconc_phigh]
    exact bloodconc_lt_of_lt _ hP (by norm_num) (by norm_num [exampleParams])
  exact ⟨hP, by norm_num,
    (blood_derivative_consistent _ hP (2 / 5) (-1) (by norm_num)).1 (Or.inl (by norm_num)),
    ((blood_derivative_consistent _ hP (2 / 5) _ (by norm_num)).2 ⟨h1, h2⟩).1⟩

section Bisection

variable {α : Type} [LinearOrderedField α]

theorem rtbis_of_pos (f : α → α) (x1 x2 xacc : α) (h : ¬ 0 ≤ f x1 * f x2)
    (hneg : ¬ f x1 < 0) :
    rtbis f x1 x2 xacc =
      match rtbisLoop f xacc 30 x2 (x1 - x2) with
      | some rtb => ⟨rtb, []⟩
      | none => ⟨0, [Msg.rtbisMaxIter]⟩ := by
  unfold rtbis
  simp only [ge_iff_le, if_neg h, if_neg hneg]

/-- The bisection loop with `n + 1` iterations left, started at a point `rtb`
with `f rtb < 0` and a signed width `dx` with `0 < f (rtb + dx)` and
`|dx| < xacc * 2^(n+1)`, returns a point `rtb + t*dx` with `0 ≤ t ≤ 1` that is
a zero of `f` or has a negative value and a point of positive value within
`xacc`. -/
theorem rtbisLoop_converges (f : α → α) (xacc : α) (n : Nat) (rtb dx : α)
    (hlo : f rtb < 0) (hhi : 0 < f (rtb + dx)) (hw : |dx| < xacc * 2 ^ (n + 1)) :
    ∃ r, rtbisLoop f xacc (n + 1) rtb dx = some r ∧
      (∃ t, 0 ≤ t ∧ t ≤ 1 ∧ r = rtb + t * dx) ∧
      (f r = 0 ∨ (f r < 0 ∧ ∃ r', |r' - r| < xacc ∧ 0 < f r')) := by
  induction n generalizing rtb dx with
  | zero =>
    have hhalf : |dx * (1 / 2)| < xacc := by
      rw [abs_mul, abs_of_pos (by norm_num : (0 : α) < 1 / 2)]
      norm_num at hw
      linarith
    rw [rtbisLoop_stop f xacc 0 rtb dx (Or.inl hhalf)]
    by_cases hm : f (rtb + dx * (1 / 2)) ≤ 0
    · rw [if_pos hm]
      refine ⟨_, rfl, ⟨1 / 2, by norm_num, by norm_num, by ring⟩, ?_⟩
      rcases eq_or_lt_of_le hm with h0 | hneg
      · exact Or.inl h0
      · refine Or.inr ⟨hneg, rtb + dx, ?_, hhi⟩
        have : rtb + dx - (rtb + dx * (1 / 2)) = dx * (1 / 2) := by ring
        rw [this]
        exact hhalf
    · rw [if_neg hm]
      refine ⟨_, rfl, ⟨0, le_refl 0, zero_le_one, by ring⟩, Or.inr ⟨hlo, rtb + dx * (1 / 2), ?_,
        not_le.mp hm⟩⟩
      have : rtb + dx * (1 / 2) - rtb = dx * (1 / 2) := by ring
      rw [this]
      exact hhalf
  | succ n ih =>
    have hw1 : |dx * (1 / 2)| < xacc * 2 ^ (n + 1) := by
      rw [abs_mul, abs_of_pos (by norm_num : (0 : α) < 1 / 2)]
      rw [pow_succ] at hw
      linarith
    by_cases hstop : |dx * (1 / 2)| < xacc ∨ f (rtb + dx * (1 / 2)) = 0
    · rw [rtbisLoop_stop f xacc (n + 1) rtb dx hstop]
      by_cases hm : f (rtb + dx * (1 / 2)) ≤ 0
      · rw [if_pos hm]
        refine ⟨_, rfl, ⟨1 / 2, by norm_num, by norm_num, by ring⟩, ?_⟩
        rcases eq_or_lt_of_le hm with h0 | hneg
        · exact Or.inl h0
        · rcases hstop with hs | hs
          · refine Or.inr ⟨hneg, rtb + dx, ?_, hhi⟩
            have : rtb + dx - (rtb + dx * (1 / 2)) = dx * (1 / 2) := by ring
            rw [this]
            exact hs
          · exact Or.inl hs
      · rw [if_neg hm]
        rcases hstop with hs | hs
        · refine ⟨_, rfl, ⟨0, le_refl 0, zero_le_one, by ring⟩,
            Or.inr ⟨hlo, rtb + dx * (1 / 2), ?_, not_le.mp hm⟩⟩
          have : rtb + dx * (1 / 2) - rtb = dx * (1 / 2) := by ring
          rw [this]
          exact hs
        · exact absurd (le_of_eq hs) hm
    · rw [rtbisLoop_step f xacc (n + 1) rtb dx hstop]
      have hne : f (rtb + dx * (1 / 2)) ≠ 0 := fun h => hstop (Or.inr h)
      by_cases hm : f (rtb + dx * (1 / 2)) ≤ 0
      · rw [if_pos hm]
        have hhi1 : 0 < f (rtb + dx * (1 / 2) + dx * (1 / 2)) := by
          have : rtb + dx * (1 / 2) + dx * (1 / 2) = rtb + dx := by ring
          rw [this]
          exact hhi
        obtain ⟨r, hr, ⟨t, ht0, ht1, hrt⟩, hroot⟩ :=
          ih (rtb + dx * (1 / 2)) (dx * (1 / 2)) (lt_of_le_of_ne hm hne) hhi1 hw1
        refine ⟨r, hr, ⟨1 / 2 + t / 2, by linarith, by linarith, ?_⟩, hroot⟩
        rw [hrt]
        ring
      · rw [if_neg hm]
        obtain ⟨r, hr, ⟨t, ht0, ht1, hrt⟩, hroot⟩ :=
          ih rtb (dx * (1 / 2)) hlo (not_le.mp hm) hw1
        refine ⟨r, hr, ⟨t / 2, by linarith, by linarith, ?_⟩, hroot⟩
        rw [hrt]
        ring

/-- A point `a + t*(b - a)` with `0 ≤ t ≤ 1` lies between `a` and `b`. -/
theorem between_of_convex (a b t : α) (ht0 : 0 ≤ t) (ht1 : t ≤ 1) :
    min a b ≤ a + t * (b - a) ∧ a + t * (b - a) ≤ max a b := by
  rcases le_total a b with h | h
  · rw [min_eq_left h, max_eq_right h]
    have h1 : 0 ≤ t * (b - a) := mul_nonneg ht0 (sub_nonneg.mpr h)
    have h2 : 0 ≤ (1 - t) * (b - a) := mul_nonneg (sub_nonneg.mpr ht1) (sub_nonneg.mpr h)
    constructor
    · linarith
    · linarith
  · rw [min_eq_right h, max_eq_left h]
    have h1 : 0 ≤ t * (a - b) := mul_nonneg ht0 (sub_nonneg.mpr h)
    have h2 : 0 ≤ (1 - t) * (a - b) := mul_nonneg (sub_nonneg.mpr ht1) (sub_nonneg.mpr h)
    constructor
    · linarith
    · linarith

end Bisection

/-! ## C15: bisection on a valid bracket -/

/-- C15. For every function `f`, tolerance `xacc > 0` and bracket with
`f(x1)*f(x2) < 0` and `|x2 - x1| < xacc * 2^30`, `rtbis` returns a value `r`
without printing either of its errors (so within its 30 iterations), `r` lies
between `x1` and `x2`, and either `f r = 0`, or `f r < 0` and there is a point
`r'` with `|r' - r| < xacc` and `f r' > 0`. -/
theorem rtbis_converges_on_bracket {α : Type} [LinearOrderedField α]
    (f : α → α) (x1 x2 xacc : α) (_hx : 0 < xacc) (hb : f x1 * f x2 < 0)
    (hw : |x2 - x1| < xacc * 2 ^ 30) :
    ∃ r, rtbis f x1 x2 xacc = ⟨r, []⟩ ∧
      rtbisLoop f xacc 30 (if f x1 < 0 then x1 else x2)
        (if f x1 < 0 then x2 - x1 else x1 - x2) = some r ∧
      min x1 x2 ≤ r ∧ r ≤ max x1 x2 ∧
      (f r = 0 ∨ (f r < 0 ∧ ∃ r', |r' - r| < xacc ∧ 0 < f r')) := by
  have hnb : ¬ 0 ≤ f x1 * f x2 := not_le.mpr hb
  by_cases hneg : f x1 < 0
  · have h2 : 0 < f x2 := by
      by_contra hcon
      exact hnb (mul_nonneg_of_nonpos_of_nonpos hneg.le (not_lt.mp hcon))
    have h2' : 0 < f (x1 + (x2 - x1)) := by
      rw [add_sub_cancel]
      exact h2
    obtain ⟨r, hr, ⟨t, ht0, ht1, hrt⟩, hroot⟩ :=
      rtbisLoop_converges f xacc 29 x1 (x2 - x1) hneg h2' hw
    have hbt := between_of_convex x1 x2 t ht0 ht1
    rw [← hrt] at hbt
    refine ⟨r, ?_, ?_, hbt.1, hbt.2, hroot⟩
    · rw [rtbis_of_neg f x1 x2 xacc hnb hneg, hr]
    · rw [if_pos hneg, if_pos hneg]
      exact hr
  · have h1 : 0 < f x1 := by
      rcases lt_or_eq_of_le (not_lt.mp hneg) with h | h
      · exact h
      · rw [← h, zero_mul] at hb
        exact absurd hb (lt_irrefl 0)
    have h2 : f x2 < 0 := by
      by_contra hcon
      exact hnb (mul_nonneg h1.le (not_lt.mp hcon))
    have h1' : 0 < f (x2 + (x1 - x2)) := by
      rw [add_sub_cancel]
      exact h1
    have hw' : |x1 - x2| < xacc * 2 ^ (29 + 1) := by
      rw [abs_sub_comm]
      exact hw
    obtain ⟨r, hr, ⟨t, ht0, ht1, hrt⟩, hroot⟩ :=
      rtbisLoop_converges f xacc 29 x2 (x1 - x2) h2 h1' hw'
    have hbt := between_of_convex x2 x1 t ht0 ht1
    rw [← hrt, min_comm, max_comm] at hbt
    refine ⟨r, ?_, ?_, hbt.1, hbt.2, hroot⟩
    · rw [rtbis_of_pos f x1 x2 xacc hnb hneg, hr]
    · rw [if_neg hneg, if_neg hneg]
      exact hr

/-- Witness for C15: `f x = x - 1` on the bracket `[0, 3]` with `xacc = 0.001`,
over the rationals. -/
theorem rtbis_converges_on_bracket_witness :
    (0 : ℚ) < 1 / 1000 ∧ ((0 : ℚ) - 1) * (3 - 1) < 0 ∧
    |(3 : ℚ) - 0| < 1 / 1000 * 2 ^ 30 ∧
    ∃ r : ℚ, rtbis (fun x => x - 1) 0 3 (1 / 1000) = ⟨r, []⟩ ∧
      rtbisLoop (fun x : ℚ => x - 1) (1 / 1000) 30
        (if (fun x : ℚ => x - 1) 0 < 0 then 0 else 3)
        (if (fun x : ℚ => x - 1) 0 < 0 then 3 - 0 else 0 - 3) = some r ∧
      min 0 3 ≤ r ∧ r ≤ max 0 3 ∧
      ((fun x : ℚ => x - 1) r = 0 ∨
        ((fun x : ℚ => x - 1) r < 0 ∧ ∃ r', |r' - r| < 1 / 1000 ∧
          0 < (fun x : ℚ => x - 1) r')) :=
  ⟨by norm_num, by norm_num, by norm_num,
    rtbis_converges_on_bracket (fun x : ℚ => x - 1) 0 3 (1 / 1000) (by norm_num)
      (by norm_num) (by norm_num)⟩

/-- When the bracket test of `rtflsp` passes, `rtflsp` prints nothing. -/
theorem rtflsp_msgs_of_bracketed {α : Type} [LinearOrderedField α] (f : α → α)
    (x1 x2 xacc : α) (h : ¬ 0 < f x1 * f x2) : (rtflsp f x1 x2 xacc).msgs = [] := by
  by_cases hneg : f x1 < 0
  · rw [rtflsp_of_neg f x1 x2 xacc h hneg]
    cases rtflspLoop f xacc 30 x1 x2 (f x1) (f x2) (x2 - x1) <;> rfl
  · rw [rtflsp_of_nonneg f x1 x2 xacc h hneg]
    cases rtflspLoop f xacc 30 x2 x1 (f x2) (f x1) (x1 - x2) <;> rfl

/-- The Hill saturation at the upper bracket end `(S/(1-S))^(1/fn) * p50` is
`S`. -/
theorem hill_at_bracket_end {S fn p50 : ℝ} (hS0 : 0 < S) (hS1 : S < 1) (hfn : 0 < fn)
    (hp50 : 0 < p50) :
    1 - 1 / (1 + ((S / (1 - S)) ^ (1 / fn) * p50 / p50) ^ fn) = S := by
  have hb : 0 < S / (1 - S) := div_pos hS0 (by linarith)
  rw [mul_div_assoc, div_self hp50.ne', mul_one, ← Real.rpow_mul hb.le,
    one_div_mul_cancel hfn.ne', Real.rpow_one]
  have h1 : (1 - S) ≠ 0 := by linarith
  field_simp

/-- The forward map at pressure `0` is `0`. -/
theorem bloodconc_zero {α : Type} [LinearOrderedField α] (pow : α → α → α)
    (P : BloodParams α) (h : α) (hplow : 0 < P.plow) : bloodconc pow P 0 h = 0 := by
  unfold bloodconc
  rw [if_neg (lt_irrefl 0), if_pos hplow]
  simp

/-- The forward map at the upper end of the bracket of the saturation case
exceeds the concentration that is being inverted. -/
theorem bloodconc_bracket_end_gt (P : BloodParams ℝ) (hP : WellFormed Real.rpow P)
    (h c : ℝ) (hh0 : 0 < h) (hc1 : P.clowfac * h + P.alphab * P.plow ≤ c)
    (hc2 : c < P.chighfac * h + P.alphab * P.phigh) (hS : c / h / P.cs < 1) :
    c < bloodconc Real.rpow P
      (((c / h / P.cs) / (1 - c / h / P.cs)) ^ (1 / P.fn) * P.p50) h := by
  have hcs := hP.cs_pos
  have hp50 := hP.p50_pos
  have hc0 : 0 < c := lt_of_lt_of_le (hP.clow_pos hh0.le) hc1
  have hS0 : 0 < c / h / P.cs := div_pos (div_pos hc0 hh0) hcs
  have hcS : P.cs * h * (c / h / P.cs) = c := by
    field_simp
    ring
  have hb : 0 < (c / h / P.cs) / (1 - c / h / P.cs) := div_pos hS0 (by linarith)
  have hph : 0 < ((c / h / P.cs) / (1 - c / h / P.cs)) ^ (1 / P.fn) * P.p50 :=
    mul_pos (Real.rpow_pos_of_pos hb _) hp50
  have hhill := hill_at_bracket_end hS0 hS hP.fn_pos hp50
  generalize ((c / h / P.cs) / (1 - c / h / P.cs)) ^ (1 / P.fn) * P.p50 = ph at hph hhill
  generalize c / h / P.cs = S at hS hS0 hcS hhill
  rcases lt_or_le ph P.plow with hlow | hge
  · exfalso
    have hm := hill_mono (div_pos hph hp50)
      (div_le_div_of_nonneg_right hlow.le hp50.le) hP.fn_pos.le
    rw [hhill] at hm
    have hcl : P.cs * S ≤ P.clowfac := by
      rw [hP.clowfac_eq]
      exact mul_le_mul_of_nonneg_left hm hcs.le
    have h1 : P.cs * S * h ≤ P.clowfac * h := mul_le_mul_of_nonneg_right hcl hh0.le
    have h2 : 0 < P.alphab * P.plow := mul_pos hP.alphab_pos hP.plow_pos
    have h3 : P.cs * h * S = P.cs * S * h := by ring
    linarith
  · rcases lt_or_le ph P.phigh with hmid | hhigh
    · rw [bloodconc_of_mid _ _ _ _ hph.le hge hmid]
      simp only [Real.rpow_eq_pow]
      rw [hhill, hcS]
      have := mul_pos hP.alphab_pos hph
      linarith
    · rcases eq_or_lt_of_le hhigh with heq | hlt
      · rw [← heq, hP.bloodconc_phigh]
        exact hc2
      · have := bloodconc_lt_of_lt P hP hh0.le hlt
        rw [hP.bloodconc_phigh] at this
        linarith

/-- The values of `func` at the ends of the bracket chosen by `blood` in its
root-finding branch: not positive at the lower end, positive at the upper. -/
theorem bloodBracket_sign (P : BloodParams ℝ) (hP : WellFormed Real.rpow P)
    (h c : ℝ) (hh0 : 0 < h) (hc1 : P.clowfac * h + P.alphab * P.plow ≤ c)
    (hc2 : c < P.chighfac * h + P.alphab * P.phigh) :
    bloodconc Real.rpow P (bloodBracket Real.rpow P c h).1 h - c ≤ 0 ∧
    0 < bloodconc Real.rpow P (bloodBracket Real.rpow P c h).2 h - c := by
  unfold bloodBracket
  by_cases hS : c / h / P.cs < 1
  · rw [if_pos hS]
    simp only [Real.rpow_eq_pow]
    constructor
    · rw [bloodconc_zero _ _ _ hP.plow_pos]
      have hc0 : 0 < c := lt_of_lt_of_le (hP.clow_pos hh0.le) hc1
      linarith
    · exact sub_pos.mpr (bloodconc_bracket_end_gt P hP h c hh0 hc1 hc2 hS)
  · rw [if_neg hS]
    simp only []
    rw [hP.bloodconc_plow, hP.bloodconc_phigh]
    constructor
    · linarith
    · linarith

/-! ## C19: the bracket handed to the root finders -/

/-- C19. Under well-formed parameters, for every `h ≥ 1e-6` and every `c` with
`clow ≤ c < chigh`, the bracket `[pl, ph]` chosen by `blood` (`pl = 0` and
`ph = p50*((c/(h*cs))/(1 - c/(h*cs)))^(1/fn)` when `c/(h*cs) < 1`, otherwise
`pl = plow` and `ph = phigh`) satisfies
`bloodconc(pl, h) - c ≤ 0 < bloodconc(ph, h) - c`; so the bracket test of
`rtflsp` on `func` passes and `rtflsp` does not print its not-bracketed
warning. -/
theorem blood_bracket_sign_change (P : BloodParams ℝ) (hP : WellFormed Real.rpow P)
    (h c : ℝ) (hh : 1 / 1000000 ≤ h) (hc1 : P.clowfac * h + P.alphab * P.plow ≤ c)
    (hc2 : c < P.chighfac * h + P.alphab * P.phigh) :
    bloodBracket Real.rpow P c h
      = (if c / (h * P.cs) < 1
          then (0, P.p50 * ((c / (h * P.cs)) / (1 - c / (h * P.cs))) ^ (1 / P.fn))
          else (P.plow, P.phigh)) ∧
    bloodconc Real.rpow P (bloodBracket Real.rpow P c h).1 h - c ≤ 0 ∧
    0 < bloodconc Real.rpow P (bloodBracket Real.rpow P c h).2 h - c ∧
    ¬ (func Real.rpow P c h (bloodBracket Real.rpow P c h).1
        * func Real.rpow P c h (bloodBracket Real.rpow P c h).2 > 0) ∧
    (rtflsp (func Real.rpow P c h) (bloodBracket Real.rpow P c h).1
        (bloodBracket Real.rpow P c h).2 (1 / 1000)).msgs = [] := by
  have hh0 : 0 < h := lt_of_lt_of_le (by norm_num) hh
  have hc0 : 0 < c := lt_of_lt_of_le (hP.clow_pos hh0.le) hc1
  have hdiv : c / (h * P.cs) = c / h / P.cs := by rw [div_div]
  have hsign := bloodBracket_sign P hP h c hh0 hc1 hc2
  have hprod : ¬ (func Real.rpow P c h (bloodBracket Real.rpow P c h).1
      * func Real.rpow P c h (bloodBracket Real.rpow P c h).2 > 0) := by
    unfold func
    exact not_lt.mpr (mul_nonpos_of_nonpos_of_nonneg hsign.1 hsign.2.le)
  refine ⟨?_, hsign.1, hsign.2, hprod, rtflsp_msgs_of_bracketed _ _ _ _ hprod⟩
  unfold bloodBracket
  rw [hdiv]
  by_cases hS : c / h / P.cs < 1
  · rw [if_pos hS, if_pos hS]
    simp only [Real.rpow_eq_pow, mul_comm]
  · rw [if_neg hS, if_neg hS]

/-- Witness for C19: the example profile at `h = 0.4` with
`c = bloodconc 26 0.4`. -/
theorem blood_bracket_sign_change_witness :
    WellFormed Real.rpow (exampleParams Real.rpow) ∧ (1 / 1000000 : ℝ) ≤ 2 / 5 ∧
    (exampleParams Real.rpow).clowfac * (2 / 5)
        + (exampleParams Real.rpow).alphab * (exampleParams Real.rpow).plow
      ≤ bloodconc Real.rpow (exampleParams Real.rpow) 26 (2 / 5) ∧
    bloodconc Real.rpow (exampleParams Real.rpow) 26 (2 / 5)
      < (exampleParams Real.rpow).chighfac * (2 / 5)
        + (exampleParams Real.rpow).alphab * (exampleParams Real.rpow).phigh ∧
    (rtflsp (func Real.rpow (exampleParams Real.rpow)
          (bloodconc Real.rpow (exampleParams Real.rpow) 26 (2 / 5)) (2 / 5))
        (bloodBracket Real.rpow (exampleParams Real.rpow)
          (bloodconc Real.rpow (exampleParams Real.rpow) 26 (2 / 5)) (2 / 5)).1
        (bloodBracket Real.rpow (exampleParams Real.rpow)
          (bloodconc Real.rpow (exampleParams Real.rpow) 26 (2 / 5)) (2 / 5)).2
        (1 / 1000)).msgs = [] := by
  have hP := exampleParams_wellFormed
  have h1 : (exampleParams Real.rpow).clowfac * (2 / 5)
      + (exampleParams Real.rpow).alphab * (exampleParams Real.rpow).plow
      ≤ bloodconc Real.rpow (exampleParams Real.rpow) 26 (2 / 5) := by
    rw [← hP.bloodconc_plow]
    exact (bloodconc_lt_of_lt _ hP (by norm_num) (by norm_num [exampleParams])).le
  have h2 : bloodconc Real.rpow (exampleParams Real.rpow) 26 (2 / 5)
      < (exampleParams Real.rpow).chighfac * (2 / 5)
        + (exampleParams Real.rpow).alphab * (exampleParams Real.rpow).phigh := by
    rw [← hP.bloodconc_phigh]
    exact bloodconc_lt_of_lt _ hP (by norm_num) (by norm_num [exampleParams])
  exact ⟨hP, by norm_num, h1, h2,
    (blood_bracket_sign_change _ hP (2 / 5) _ (by norm_num) h1 h2).2.2.2.2⟩

section Flsp

variable {α : Type} [LinearOrderedField α]

theorem flspIter_succ (f : α → α) (k : Nat) (s : FlspState α) :
    flspIter f (k + 1) s = flspIter f k (flspNext f s) := by
  unfold flspIter
  rw [Function.iterate_succ_apply]

theorem flspIter_succ_next (f : α → α) (k : Nat) (s : FlspState α) :
    flspIter f (k + 1) s = flspNext f (flspIter f k s) := by
  unfold flspIter
  rw [Function.iterate_succ_apply']

/-- An iteration of `rtflsp` at which the test holds returns the iterate. -/
theorem rtflspLoop_of_stop (f : α → α) (xacc : α) (n : Nat) (s : FlspState α)
    (h : flspStop f xacc s) :
    rtflspLoop f xacc (n + 1) s.xl s.xh s.fl s.fh s.dx = some (flspRtf s) := by
  unfold flspStop flspDel at h
  unfold flspRtf at h ⊢
  by_cases hf : f (s.xl + s.dx * s.fl / (s.fl - s.fh)) < 0
  · rw [if_pos hf] at h
    exact rtflspLoop_stop_low f xacc n _ _ _ _ _ hf h
  · rw [if_neg hf] at h
    exact rtflspLoop_stop_high f xacc n _ _ _ _ _ hf h

/-- An iteration of `rtflsp` at which the test fails goes on with the next loop
variables. -/
theorem rtflspLoop_of_go (f : α → α) (xacc : α) (n : Nat) (s : FlspState α)
    (h : ¬ flspStop f xacc s) :
    rtflspLoop f xacc (n + 1) s.xl s.xh s.fl s.fh s.dx
      = rtflspLoop f xacc n (flspNext f s).xl (flspNext f s).xh (flspNext f s).fl
          (flspNext f s).fh (flspNext f s).dx := by
  unfold flspStop flspDel at h
  unfold flspNext
  unfold flspRtf at h ⊢
  by_cases hf : f (s.xl + s.dx * s.fl / (s.fl - s.fh)) < 0
  · rw [if_pos hf] at h
    rw [if_pos hf]
    exact rtflspLoop_step_low f xacc n _ _ _ _ _ hf h
  · rw [if_neg hf] at h
    rw [if_neg hf]
    exact rtflspLoop_step_high f xacc n _ _ _ _ _ hf h

/-- The loop of `rtflsp` with `n` iterations left either runs out, the test
failing in each of the `n` iterations, or returns the iterate of the first
iteration at which the test holds. -/
theorem rtflspLoop_cases (f : α → α) (xacc : α) (n : Nat) (s : FlspState α) :
    (rtflspLoop f xacc n s.xl s.xh s.fl s.fh s.dx = none ∧
      ∀ k, k < n → ¬ flspStop f xacc (flspIter f k s)) ∨
    ∃ k, k < n ∧ (∀ j, j < k → ¬ flspStop f xacc (flspIter f j s)) ∧
      flspStop f xacc (flspIter f k s) ∧
      rtflspLoop f xacc n s.xl s.xh s.fl s.fh s.dx = some (flspRtf (flspIter f k s)) := by
  induction n generalizing s with
  | zero =>
    left
    refine ⟨by rw [rtflspLoop], ?_⟩
    intro k hk
    exact absurd hk (Nat.not_lt_zero k)
  | succ n ih =>
    by_cases hs : flspStop f xacc s
    · right
      exact ⟨0, Nat.succ_pos n, fun j hj => absurd hj (Nat.not_lt_zero j), hs,
        rtflspLoop_of_stop f xacc n s hs⟩
    · rw [rtflspLoop_of_go f xacc n s hs]
      rcases ih (flspNext f s) with ⟨hnone, hall⟩ | ⟨k, hk, hfirst, hstop, hres⟩
      · left
        refine ⟨hnone, ?_⟩
        intro k hk
        cases k with
        | zero => exact hs
        | succ j =>
          rw [flspIter_succ]
          exact hall j (Nat.lt_of_succ_lt_succ hk)
      · right
        refine ⟨k + 1, Nat.succ_lt_succ hk, ?_, ?_, ?_⟩
        · intro j hj
          cases j with
          | zero => exact hs
          | succ i =>
            rw [flspIter_succ]
            exact hfirst i (Nat.lt_of_succ_lt_succ hj)
        · rw [flspIter_succ]
          exact hstop
        · rw [flspIter_succ]
          exact hres

/-- On a bracket that passes its test `rtflsp` returns what its loop returns
from the entry values, or `-1` when the loop runs out; it prints nothing. -/
theorem rtflsp_eq_loop (f : α → α) (x1 x2 xacc : α) (h : ¬ 0 < f x1 * f x2) :
    (∀ r, rtflspLoop f xacc 30 (flspInit f x1 x2).xl (flspInit f x1 x2).xh
        (flspInit f x1 x2).fl (flspInit f x1 x2).fh (flspInit f x1 x2).dx = some r →
      rtflsp f x1 x2 xacc = ⟨r, []⟩) ∧
    (rtflspLoop f xacc 30 (flspInit f x1 x2).xl (flspInit f x1 x2).xh
        (flspInit f x1 x2).fl (flspInit f x1 x2).fh (flspInit f x1 x2).dx = none →
      rtflsp f x1 x2 xacc = ⟨-1, []⟩) := by
  unfold flspInit
  by_cases hneg : f x1 < 0
  · rw [if_pos hneg, rtflsp_of_neg f x1 x2 xacc h hneg]
    constructor
    · intro r hr
      rw [hr]
    · intro hr
      rw [hr]
  · rw [if_neg hneg, rtflsp_of_nonneg f x1 x2 xacc h hneg]
    constructor
    · intro r hr
      rw [hr]
    · intro hr
      rw [hr]

/-- The two outcomes of `rtflsp` on a bracket that passes its test. -/
theorem rtflsp_cases (f : α → α) (x1 x2 xacc : α) (h : ¬ 0 < f x1 * f x2) :
    (rtflsp f x1 x2 xacc = ⟨-1, []⟩ ∧
      ∀ k, k < 30 → ¬ flspStop f xacc (flspIter f k (flspInit f x1 x2))) ∨
    ∃ k, k < 30 ∧ (∀ j, j < k → ¬ flspStop f xacc (flspIter f j (flspInit f x1 x2))) ∧
      flspStop f xacc (flspIter f k (flspInit f x1 x2)) ∧
      rtflsp f x1 x2 xacc = ⟨flspRtf (flspIter f k (flspInit f x1 x2)), []⟩ := by
  have he := rtflsp_eq_loop f x1 x2 xacc h
  rcases rtflspLoop_cases f xacc 30 (flspInit f x1 x2) with
    ⟨hnone, hall⟩ | ⟨k, hk, hfirst, hstop, hres⟩
  · exact Or.inl ⟨he.2 hnone, hall⟩
  · exact Or.inr ⟨k, hk, hfirst, hstop, he.1 _ hres⟩

/-- The first iteration at which the test holds is unique. -/
theorem flsp_first_stop_unique (f : α → α) (xacc : α) (s : FlspState α) (k m : Nat)
    (hk : ∀ j, j < k → ¬ flspStop f xacc (flspIter f j s))
    (hks : flspStop f xacc (flspIter f k s))
    (hm : ∀ j, j < m → ¬ flspStop f xacc (flspIter f j s))
    (hms : flspStop f xacc (flspIter f m s)) : k = m := by
  rcases Nat.lt_trichotomy k m with h | h | h
  · exact absurd hks (hm k h)
  · exact h
  · exact absurd hms (hk m h)

end Flsp

/-- On a bracket that passes its test, `rtflsp` returns the iterate of the first
iteration at which its test holds, if that is one of the first 30. -/
theorem rtflsp_of_first_stop {α : Type} [LinearOrderedField α] (f : α → α)
    (x1 x2 xacc : α) (h : ¬ 0 < f x1 * f x2) (k : Nat) (hk : k < 30)
    (hfirst : ∀ j, j < k → ¬ flspStop f xacc (flspIter f j (flspInit f x1 x2)))
    (hstop : flspStop f xacc (flspIter f k (flspInit f x1 x2))) :
    rtflsp f x1 x2 xacc = ⟨flspRtf (flspIter f k (flspInit f x1 x2)), []⟩ := by
  rcases rtflsp_cases f x1 x2 xacc h with ⟨_, hall⟩ | ⟨m, _, hmf, hms, hres⟩
  · exact absurd hstop (hall k hk)
  · rw [flsp_first_stop_unique f xacc _ k m hfirst hstop hmf hms]
    exact hres

/-! ## C18: the stopping test of false position -/

/-- C18 (counterexample). On `f x = (x*x - 2)/10000`, bracket `[0, 2]`,
`xacc = 1/2`, the first iteration computes `rtf = 1` with `|f 1| < xacc`, and
its step has size `1`; `rtflsp` does not return `1` but goes on and returns the
iterate `4/3` of the second iteration. -/
theorem rtflsp_small_value_goes_on :
    ¬ ((flatParabola (0 : ℚ)) * flatParabola 2 > 0) ∧
    flspRtf (flspIter flatParabola 0 (flspInit flatParabola (0 : ℚ) 2)) = 1 ∧
    |flatParabola (1 : ℚ)| < 1 / 2 ∧
    |flspDel flatParabola (flspIter flatParabola 0 (flspInit flatParabola (0 : ℚ) 2))| = 1 ∧
    rtflsp flatParabola (0 : ℚ) 2 (1 / 2) = ⟨4 / 3, []⟩ := by
  have hinit : flspInit flatParabola (0 : ℚ) 2 = ⟨0, 2, -2 / 10000, 2 / 10000, 2⟩ := by
    norm_num [flspInit, flatParabola]
  have hrtf0 : flspRtf (⟨0, 2, -2 / 10000, 2 / 10000, 2⟩ : FlspState ℚ) = 1 := by
    norm_num [flspRtf]
  have hdel0 : flspDel flatParabola (⟨0, 2, -2 / 10000, 2 / 10000, 2⟩ : FlspState ℚ) = -1 := by
    unfold flspDel
    rw [hrtf0]
    norm_num [flatParabola]
  have hnext : flspNext flatParabola (⟨0, 2, -2 / 10000, 2 / 10000, 2⟩ : FlspState ℚ)
      = ⟨1, 2, -1 / 10000, 2 / 10000, 1⟩ := by
    unfold flspNext
    rw [hrtf0]
    norm_num [flatParabola]
  have hrtf1 : flspRtf (⟨1, 2, -1 / 10000, 2 / 10000, 1⟩ : FlspState ℚ) = 4 / 3 := by
    norm_num [flspRtf]
  have hdel1 : flspDel flatParabola (⟨1, 2, -1 / 10000, 2 / 10000, 1⟩ : FlspState ℚ)
      = -(1 / 3) := by
    unfold flspDel
    rw [hrtf1]
    norm_num [flatParabola]
  have hit0 : flspIter flatParabola 0 (flspInit flatParabola (0 : ℚ) 2)
      = ⟨0, 2, -2 / 10000, 2 / 10000, 2⟩ := hinit
  have hit1 : flspIter flatParabola 1 (flspInit flatParabola (0 : ℚ) 2)
      = ⟨1, 2, -1 / 10000, 2 / 10000, 1⟩ := by
    rw [flspIter_succ_next, hit0, hnext]
  have hb : ¬ (0 < (flatParabola (0 : ℚ)) * flatParabola 2) := by
    norm_num [flatParabola]
  have hgo : ¬ flspStop flatParabola (1 / 2)
      (flspIter flatParabola 0 (flspInit flatParabola (0 : ℚ) 2)) := by
    unfold flspStop
    rw [hit0, hdel0, hrtf0]
    norm_num [flatParabola]
  have hstop : flspStop flatParabola (1 / 2)
      (flspIter flatParabola 1 (flspInit flatParabola (0 : ℚ) 2)) := by
    unfold flspStop
    rw [hit1, hdel1]
    left
    norm_num [abs_of_pos]
  refine ⟨hb, ?_, ?_, ?_, ?_⟩
  · rw [hit0, hrtf0]
  · norm_num [flatParabola, abs_of_neg]
  · rw [hit0, hdel0]
    norm_num
  · rw [rtflsp_of_first_stop flatParabola 0 2 (1 / 2) hb 1 (by norm_num) ?_ hstop,
      hit1, hrtf1]
    intro j hj
    have hj0 : j = 0 := by omega
    rw [hj0]
    exact hgo

/-- C18 (amended). For every function `f`, bracket that passes the test of
`rtflsp` and tolerance `xacc`, with the test of an iteration being
`|del| < xacc` or `f(rtf) = 0` exactly: `rtflsp` returns the iterate `rtf` of
the first of its 30 iterations at which the test holds; it returns `-1` when the
test fails in all 30 iterations; and when it returns `-1`, either the test
failed in all 30 iterations or the iterate at which the test first held is
itself `-1`. -/
theorem rtflsp_stops_on_step_or_zero {α : Type} [LinearOrderedField α] (f : α → α)
    (x1 x2 xacc : α) (hb : ¬ (f x1 * f x2 > 0)) :
    (∀ s, flspStop f xacc s ↔ (|flspDel f s| < xacc ∨ f (flspRtf s) = 0)) ∧
    (∀ k, k < 30 →
      (∀ j, j < k → ¬ flspStop f xacc (flspIter f j (flspInit f x1 x2))) →
      flspStop f xacc (flspIter f k (flspInit f x1 x2)) →
      rtflsp f x1 x2 xacc = ⟨flspRtf (flspIter f k (flspInit f x1 x2)), []⟩) ∧
    ((∀ k, k < 30 → ¬ flspStop f xacc (flspIter f k (flspInit f x1 x2))) →
      rtflsp f x1 x2 xacc = ⟨-1, []⟩) ∧
    ((rtflsp f x1 x2 xacc).val = -1 →
      (∀ k, k < 30 → ¬ flspStop f xacc (flspIter f k (flspInit f x1 x2))) ∨
      ∃ k, k < 30 ∧
        (∀ j, j < k → ¬ flspStop f xacc (flspIter f j (flspInit f x1 x2))) ∧
        flspStop f xacc (flspIter f k (flspInit f x1 x2)) ∧
        flspRtf (flspIter f k (flspInit f x1 x2)) = -1) := by
  have hb' : ¬ 0 < f x1 * f x2 := hb
  refine ⟨fun s => Iff.rfl, ?_, ?_, ?_⟩
  · intro k hk hfirst hstop
    exact rtflsp_of_first_stop f x1 x2 xacc hb' k hk hfirst hstop
  · intro hall
    rcases rtflsp_cases f x1 x2 xacc hb' with ⟨hres, _⟩ | ⟨m, hm, _, hms, _⟩
    · exact hres
    · exact absurd hms (hall m hm)
  · intro hval
    rcases rtflsp_cases f x1 x2 xacc hb' with ⟨_, hall⟩ | ⟨m, hm, hmf, hms, hres⟩
    · exact Or.inl hall
    · right
      refine ⟨m, hm, hmf, hms, ?_⟩
      rw [hres] at hval
      exact hval

/-- Witness for C18 (amended): `f x = x - 1` on `[0, 3]` with `xacc = 0.001`,
over the rationals; the first iterate is the root `1`. -/
theorem rtflsp_stops_on_step_or_zero_witness :
    ¬ (((fun x : ℚ => x - 1) 0) * ((fun x : ℚ => x - 1) 3) > 0) ∧
    rtflsp (fun x : ℚ => x - 1) 0 3 (1 / 1000)
      = ⟨flspRtf (flspIter (fun x : ℚ => x - 1) 0 (flspInit (fun x : ℚ => x - 1) 0 3)), []⟩ ∧
    flspRtf (flspIter (fun x : ℚ => x - 1) 0 (flspInit (fun x : ℚ => x - 1) 0 3)) = 1 := by
  have hr : flspRtf (flspIter (fun x : ℚ => x - 1) 0 (flspInit (fun x : ℚ => x - 1) 0 3))
      = 1 := by
    norm_num [flspIter, flspInit, flspRtf]
  refine ⟨by norm_num, ?_, hr⟩
  refine (rtflsp_stops_on_step_or_zero (fun x : ℚ => x - 1) 0 3 (1 / 1000)
    (by norm_num)).2.1 0 (by norm_num) (fun j hj => absurd hj (Nat.not_lt_zero j)) ?_
  unfold flspStop
  right
  rw [hr]
  norm_num

section FlspBracket

variable {α : Type} [LinearOrderedField α]

/-- The interpolation of `rtflsp` lands between `lo` and `hi` when the kept ends
do and their values satisfy `fl ≤ 0 ≤ fh`, `fl < fh`. -/
theorem flspRtf_mem (lo hi : α) (s : FlspState α) (hdx : s.dx = s.xh - s.xl)
    (hl1 : lo ≤ s.xl) (hl2 : s.xl ≤ hi) (hh1 : lo ≤ s.xh) (hh2 : s.xh ≤ hi)
    (hfl : s.fl ≤ 0) (hfh : 0 ≤ s.fh) (hne : s.fl < s.fh) :
    lo ≤ flspRtf s ∧ flspRtf s ≤ hi := by
  have hd : s.fl - s.fh < 0 := by linarith
  have ht0 : 0 ≤ s.fl / (s.fl - s.fh) := div_nonneg_of_nonpos hfl hd.le
  have ht1 : s.fl / (s.fl - s.fh) ≤ 1 := by
    rw [div_le_one_of_neg hd]
    linarith
  have hb := between_of_convex s.xl s.xh (s.fl / (s.fl - s.fh)) ht0 ht1
  have he : flspRtf s = s.xl + s.fl / (s.fl - s.fh) * (s.xh - s.xl) := by
    unfold flspRtf
    rw [hdx]
    ring
  rw [he]
  exact ⟨le_trans (le_min hl1 hh1) hb.1, le_trans hb.2 (max_le hl2 hh2)⟩

/-- The invariant of the loop of `rtflsp` is kept by an iteration at which the
test fails. -/
theorem flspNext_inv (f : α → α) (xacc lo hi : α) (s : FlspState α)
    (hgo : ¬ flspStop f xacc s) (hdx : s.dx = s.xh - s.xl)
    (hl1 : lo ≤ s.xl) (hl2 : s.xl ≤ hi) (hh1 : lo ≤ s.xh) (hh2 : s.xh ≤ hi)
    (hfl : s.fl ≤ 0) (hfh : 0 ≤ s.fh) (hne : s.fl < s.fh) :
    (flspNext f s).dx = (flspNext f s).xh - (flspNext f s).xl ∧
    lo ≤ (flspNext f s).xl ∧ (flspNext f s).xl ≤ hi ∧
    lo ≤ (flspNext f s).xh ∧ (flspNext f s).xh ≤ hi ∧
    (flspNext f s).fl ≤ 0 ∧ 0 ≤ (flspNext f s).fh ∧
    (flspNext f s).fl < (flspNext f s).fh := by
  have hm := flspRtf_mem lo hi s hdx hl1 hl2 hh1 hh2 hfl hfh hne
  have hnz : f (flspRtf s) ≠ 0 := fun h0 => hgo (Or.inr h0)
  unfold flspNext
  by_cases hf : f (flspRtf s) < 0
  · rw [if_pos hf]
    exact ⟨rfl, hm.1, hm.2, hh1, hh2, hf.le, hfh, lt_of_lt_of_le hf hfh⟩
  · rw [if_neg hf]
    have hpos : 0 < f (flspRtf s) := lt_of_le_of_ne (not_lt.mp hf) (Ne.symm hnz)
    exact ⟨rfl, hl1, hl2, hm.1, hm.2, hfl, hpos.le, lt_of_le_of_lt hfl hpos⟩

/-- The invariant of the loop of `rtflsp` holds as long as the test has failed. -/
theorem flspIter_inv (f : α → α) (xacc lo hi : α) (s : FlspState α)
    (hdx : s.dx = s.xh - s.xl)
    (hl1 : lo ≤ s.xl) (hl2 : s.xl ≤ hi) (hh1 : lo ≤ s.xh) (hh2 : s.xh ≤ hi)
    (hfl : s.fl ≤ 0) (hfh : 0 ≤ s.fh) (hne : s.fl < s.fh) (k : Nat)
    (hfirst : ∀ j, j < k → ¬ flspStop f xacc (flspIter f j s)) :
    (flspIter f k s).dx = (flspIter f k s).xh - (flspIter f k s).xl ∧
    lo ≤ (flspIter f k s).xl ∧ (flspIter f k s).xl ≤ hi ∧
    lo ≤ (flspIter f k s).xh ∧ (flspIter f k s).xh ≤ hi ∧
    (flspIter f k s).fl ≤ 0 ∧ 0 ≤ (flspIter f k s).fh ∧
    (flspIter f k s).fl < (flspIter f k s).fh := by
  induction k with
  | zero => exact ⟨hdx, hl1, hl2, hh1, hh2, hfl, hfh, hne⟩
  | succ k ih =>
    obtain ⟨a1, a2, a3, a4, a5, a6, a7, a8⟩ :=
      ih (fun j hj => hfirst j (Nat.lt_succ_of_lt hj))
    rw [flspIter_succ_next]
    exact flspNext_inv f xacc lo hi _ (hfirst k (Nat.lt_succ_self k)) a1 a2 a3 a4 a5 a6 a7 a8

/-- On entry to the loop of `rtflsp` the invariant holds, unless `f x1 = 0` and
`0 < f x2`. -/
theorem flspInit_inv (f : α → α) (x1 x2 : α) (hb : f x1 * f x2 ≤ 0)
    (hnz : ¬ (f x1 = 0 ∧ f x2 = 0)) (hex : ¬ (f x1 = 0 ∧ 0 < f x2)) :
    (flspInit f x1 x2).dx = (flspInit f x1 x2).xh - (flspInit f x1 x2).xl ∧
    min x1 x2 ≤ (flspInit f x1 x2).xl ∧ (flspInit f x1 x2).xl ≤ max x1 x2 ∧
    min x1 x2 ≤ (flspInit f x1 x2).xh ∧ (flspInit f x1 x2).xh ≤ max x1 x2 ∧
    (flspInit f x1 x2).fl ≤ 0 ∧ 0 ≤ (flspInit f x1 x2).fh ∧
    (flspInit f x1 x2).fl < (flspInit f x1 x2).fh := by
  unfold flspInit
  by_cases hneg : f x1 < 0
  · rw [if_pos hneg]
    have h2 : 0 ≤ f x2 := by
      by_contra hcon
      exact absurd (mul_pos_of_neg_of_neg hneg (not_le.mp hcon)) (not_lt.mpr hb)
    exact ⟨rfl, min_le_left _ _, le_max_left _ _, min_le_right _ _, le_max_right _ _,
      hneg.le, h2, lt_of_lt_of_le hneg h2⟩
  · rw [if_neg hneg]
    have h1 : 0 ≤ f x1 := not_lt.mp hneg
    have h2 : f x2 ≤ 0 ∧ f x2 < f x1 := by
      rcases eq_or_lt_of_le h1 with h0 | hpos
      · have hn2 : f x2 ≠ 0 := fun h => hnz ⟨h0.symm, h⟩
        have hle : f x2 ≤ 0 := by
          by_contra hcon
          exact hex ⟨h0.symm, not_le.mp hcon⟩
        have hlt : f x2 < 0 := lt_of_le_of_ne hle hn2
        exact ⟨hle, by rw [← h0]; exact hlt⟩
      · have hle : f x2 ≤ 0 := by
          by_contra hcon
          exact absurd (mul_pos hpos (not_le.mp hcon)) (not_lt.mpr hb)
        exact ⟨hle, lt_of_le_of_lt hle hpos⟩
    exact ⟨rfl, min_le_right _ _, le_max_right _ _, min_le_left _ _, le_max_left _ _,
      h2.1, h1, h2.2⟩

/-- When `f x1 = 0 < f x2` the ends are swapped on entry, the kept lower value
is the positive `f x2`, and the first interpolation gives `x1`, where the test
holds. -/
theorem flspInit_swapped_zero (f : α → α) (x1 x2 xacc : α) (h0 : f x1 = 0)
    (hpos : 0 < f x2) :
    (flspInit f x1 x2).fl = f x2 ∧ (flspInit f x1 x2).fh = 0 ∧
    flspRtf (flspInit f x1 x2) = x1 ∧ flspStop f xacc (flspInit f x1 x2) := by
  have hneg : ¬ f x1 < 0 := by
    rw [h0]
    exact lt_irrefl 0
  have hi : flspInit f x1 x2 = ⟨x2, x1, f x2, 0, x1 - x2⟩ := by
    unfold flspInit
    rw [if_neg hneg, h0]
  have hr : flspRtf (flspInit f x1 x2) = x1 := by
    rw [hi]
    unfold flspRtf
    simp only [sub_zero]
    rw [mul_div_assoc, div_self hpos.ne']
    ring
  refine ⟨by rw [hi], by rw [hi], hr, Or.inr ?_⟩
  rw [hr]
  exact h0

/-- Every iterate that `rtflsp` computes on a bracket with `f x1 * f x2 ≤ 0`,
not both values zero, lies between `x1` and `x2`. -/
theorem flspRtf_iter_mem (f : α → α) (x1 x2 xacc : α) (hb : f x1 * f x2 ≤ 0)
    (hnz : ¬ (f x1 = 0 ∧ f x2 = 0)) (k : Nat)
    (hfirst : ∀ j, j < k → ¬ flspStop f xacc (flspIter f j (flspInit f x1 x2))) :
    min x1 x2 ≤ flspRtf (flspIter f k (flspInit f x1 x2)) ∧
    flspRtf (flspIter f k (flspInit f x1 x2)) ≤ max x1 x2 ∧
    (flspIter f k (flspInit f x1 x2)).fl - (flspIter f k (flspInit f x1 x2)).fh ≠ 0 := by
  by_cases hex : f x1 = 0 ∧ 0 < f x2
  · have hs := flspInit_swapped_zero f x1 x2 xacc hex.1 hex.2
    cases k with
    | zero =>
      have hz : flspIter f 0 (flspInit f x1 x2) = flspInit f x1 x2 := rfl
      rw [hz, hs.2.2.1, hs.1, hs.2.1, sub_zero]
      exact ⟨min_le_left _ _, le_max_left _ _, hex.2.ne'⟩
    | succ j => exact absurd hs.2.2.2 (hfirst 0 (Nat.succ_pos j))
  · obtain ⟨a1, a2, a3, a4, a5, a6, a7, a8⟩ := flspInit_inv f x1 x2 hb hnz hex
    obtain ⟨b1, b2, b3, b4, b5, b6, b7, b8⟩ :=
      flspIter_inv f xacc (min x1 x2) (max x1 x2) _ a1 a2 a3 a4 a5 a6 a7 a8 k hfirst
    have hm := flspRtf_mem (min x1 x2) (max x1 x2) _ b1 b2 b3 b4 b5 b6 b7 b8
    exact ⟨hm.1, hm.2, (sub_neg.mpr b8).ne⟩

/-- On a bracket with `0 ≤ x1 ≤ x2`, `f x1 * f x2 ≤ 0` and not both values zero,
`rtflsp` returns a negative value exactly when its test failed in all 30
iterations. -/
theorem rtflsp_neg_iff_failed (f : α → α) (x1 x2 xacc : α) (hb : f x1 * f x2 ≤ 0)
    (hnz : ¬ (f x1 = 0 ∧ f x2 = 0)) (h0 : 0 ≤ x1) (h12 : x1 ≤ x2) :
    (rtflsp f x1 x2 xacc).val < 0 ↔
      ∀ k, k < 30 → ¬ flspStop f xacc (flspIter f k (flspInit f x1 x2)) := by
  rcases rtflsp_cases f x1 x2 xacc (not_lt.mpr hb) with
    ⟨hres, hall⟩ | ⟨m, hm, hmf, hms, hres⟩
  · rw [hres]
    exact ⟨fun _ => hall, fun _ => by norm_num⟩
  · rw [hres]
    have hmem := (flspRtf_iter_mem f x1 x2 xacc hb hnz m hmf).1
    rw [min_eq_left h12] at hmem
    constructor
    · intro hlt
      exact absurd (le_trans h0 hmem) (not_le.mpr hlt)
    · intro hall
      exact absurd hms (hall m hm)

end FlspBracket

/-- The bracket chosen by `blood` in its root-finding branch has
`0 ≤ pl ≤ ph`. -/
theorem bloodBracket_ordered (P : BloodParams ℝ) (hP : WellFormed Real.rpow P)
    (h c : ℝ) (hh0 : 0 < h) (hc1 : P.clowfac * h + P.alphab * P.plow ≤ c) :
    0 ≤ (bloodBracket Real.rpow P c h).1 ∧
    (bloodBracket Real.rpow P c h).1 ≤ (bloodBracket Real.rpow P c h).2 := by
  have hc0 : 0 < c := lt_of_lt_of_le (hP.clow_pos hh0.le) hc1
  unfold bloodBracket
  by_cases hS : c / h / P.cs < 1
  · rw [if_pos hS]
    simp only [Real.rpow_eq_pow]
    have hS0 : 0 < c / h / P.cs := div_pos (div_pos hc0 hh0) hP.cs_pos
    have hb : 0 < (c / h / P.cs) / (1 - c / h / P.cs) := div_pos hS0 (by linarith)
    exact ⟨le_refl 0, (mul_pos (Real.rpow_pos_of_pos hb _) hP.p50_pos).le⟩
  · rw [if_neg hS]
    exact ⟨hP.plow_pos.le, hP.plow_lt_phigh.le⟩

/-! ## C20: false position stays in its bracket -/

/-- C20 (counterexample). On `f x = x`, bracket `[0, 1]` (so `f x1 * f x2 = 0`
and `f x2 ≠ 0`), `rtflsp` swaps the ends on entry and the kept lower value at
the first interpolation is `fl = f 1 = 1 > 0`. -/
theorem rtflsp_swapped_fl_positive :
    ((fun x : ℚ => x) 0) * ((fun x : ℚ => x) 1) ≤ 0 ∧
    ¬ ((fun x : ℚ => x) 0 = 0 ∧ (fun x : ℚ => x) 1 = 0) ∧
    (flspIter (fun x : ℚ => x) 0 (flspInit (fun x : ℚ => x) 0 1)).fl = 1 ∧
    ¬ ((flspIter (fun x : ℚ => x) 0 (flspInit (fun x : ℚ => x) 0 1)).fl ≤ 0) ∧
    rtflsp (fun x : ℚ => x) 0 1 (1 / 1000) = ⟨0, []⟩ := by
  have hs := flspInit_swapped_zero (fun x : ℚ => x) 0 1 (1 / 1000) rfl (by norm_num)
  have hz : flspIter (fun x : ℚ => x) 0 (flspInit (fun x : ℚ => x) 0 1)
      = flspInit (fun x : ℚ => x) 0 1 := rfl
  have hfl : (flspIter (fun x : ℚ => x) 0 (flspInit (fun x : ℚ => x) 0 1)).fl = 1 := by
    rw [hz, hs.1]
  refine ⟨by norm_num, by norm_num, hfl, ?_, ?_⟩
  · rw [hfl]
    norm_num
  · have hstop : flspStop (fun x : ℚ => x) (1 / 1000)
        (flspIter (fun x : ℚ => x) 0 (flspInit (fun x : ℚ => x) 0 1)) := by
      rw [hz]
      exact hs.2.2.2
    rw [rtflsp_of_first_stop (fun x : ℚ => x) 0 1 (1 / 1000) (by norm_num) 0 (by norm_num)
      (fun j hj => absurd hj (Nat.not_lt_zero j)) hstop, hz, hs.2.2.1]

/-- C20 (amended). For every function `f` and bracket with `f x1 * f x2 ≤ 0`
and `f x1`, `f x2` not both zero: every iterate `rtf` that `rtflsp` computes
lies in the closed interval between `x1` and `x2`, with `fl - fh ≠ 0` at each
interpolation and `fl ≤ 0 ≤ fh` there unless `f x1 = 0 < f x2`; in that case the
ends are swapped on entry, the only interpolation has `fl = f x2 > 0 = fh` and
`rtflsp` returns `x1`.  Hence `rtflsp` either runs out of its 30 iterations and
returns `-1`, or returns a value in that interval; with `0 ≤ x1 ≤ x2` its result
is negative exactly when it ran out.  The brackets of `blood` (well-formed
parameters, `h ≥ 1e-6`, `clow ≤ c < chigh`) have `0 ≤ pl ≤ ph`, and `blood`
returns the value of `rtbis` when `rtflsp` ran out and the value of `rtflsp`
otherwise. -/
theorem rtflsp_stays_in_bracket :
    (∀ (α : Type) [LinearOrderedField α] (f : α → α) (x1 x2 xacc : α),
      f x1 * f x2 ≤ 0 → ¬ (f x1 = 0 ∧ f x2 = 0) →
      (∀ k, (∀ j, j < k → ¬ flspStop f xacc (flspIter f j (flspInit f x1 x2))) →
        min x1 x2 ≤ flspRtf (flspIter f k (flspInit f x1 x2)) ∧
        flspRtf (flspIter f k (flspInit f x1 x2)) ≤ max x1 x2 ∧
        (flspIter f k (flspInit f x1 x2)).fl - (flspIter f k (flspInit f x1 x2)).fh ≠ 0 ∧
        (¬ (f x1 = 0 ∧ 0 < f x2) →
          (flspIter f k (flspInit f x1 x2)).fl ≤ 0 ∧
          0 ≤ (flspIter f k (flspInit f x1 x2)).fh)) ∧
      ((f x1 = 0 ∧ 0 < f x2) →
        (flspInit f x1 x2).fl = f x2 ∧ (flspInit f x1 x2).fh = 0 ∧
        rtflsp f x1 x2 xacc = ⟨x1, []⟩) ∧
      ((rtflsp f x1 x2 xacc = ⟨-1, []⟩ ∧
          ∀ k, k < 30 → ¬ flspStop f xacc (flspIter f k (flspInit f x1 x2))) ∨
        (min x1 x2 ≤ (rtflsp f x1 x2 xacc).val ∧ (rtflsp f x1 x2 xacc).val ≤ max x1 x2 ∧
          ∃ k, k < 30 ∧ flspStop f xacc (flspIter f k (flspInit f x1 x2)) ∧
            rtflsp f x1 x2 xacc = ⟨flspRtf (flspIter f k (flspInit f x1 x2)), []⟩)) ∧
      (0 ≤ x1 → x1 ≤ x2 →
        ((rtflsp f x1 x2 xacc).val < 0 ↔
          ∀ k, k < 30 → ¬ flspStop f xacc (flspIter f k (flspInit f x1 x2))))) ∧
    (∀ (P : BloodParams ℝ), WellFormed Real.rpow P → ∀ h c : ℝ, 1 / 1000000 ≤ h →
      P.clowfac * h + P.alphab * P.plow ≤ c → c < P.chighfac * h + P.alphab * P.phigh →
      0 ≤ (bloodBracket Real.rpow P c h).1 ∧
      (bloodBracket Real.rpow P c h).1 ≤ (bloodBracket Real.rpow P c h).2 ∧
      ((∀ k, k < 30 → ¬ flspStop (func Real.rpow P c h) (1 / 1000)
            (flspIter (func Real.rpow P c h) k
              (flspInit (func Real.rpow P c h) (bloodBracket Real.rpow P c h).1
                (bloodBracket Real.rpow P c h).2))) →
        (blood Real.rpow P c h).p
          = (rtbis (func Real.rpow P c h) (bloodBracket Real.rpow P c h).1
              (bloodBracket Real.rpow P c h).2 (1 / 1000)).val) ∧
      (¬ (∀ k, k < 30 → ¬ flspStop (func Real.rpow P c h) (1 / 1000)
            (flspIter (func Real.rpow P c h) k
              (flspInit (func Real.rpow P c h) (bloodBracket Real.rpow P c h).1
                (bloodBracket Real.rpow P c h).2))) →
        (blood Real.rpow P c h).p
          = (rtflsp (func Real.rpow P c h) (bloodBracket Real.rpow P c h).1
              (bloodBracket Real.rpow P c h).2 (1 / 1000)).val ∧
        0 ≤ (blood Real.rpow P c h).p)) := by
  constructor
  · intro α _ f x1 x2 xacc hb hnz
    refine ⟨?_, ?_, ?_, ?_⟩
    · intro k hfirst
      have hm := flspRtf_iter_mem f x1 x2 xacc hb hnz k hfirst
      refine ⟨hm.1, hm.2.1, hm.2.2, ?_⟩
      intro hex
      obtain ⟨a1, a2, a3, a4, a5, a6, a7, a8⟩ := flspInit_inv f x1 x2 hb hnz hex
      obtain ⟨_, _, _, _, _, b6, b7, _⟩ :=
        flspIter_inv f xacc (min x1 x2) (max x1 x2) _ a1 a2 a3 a4 a5 a6 a7 a8 k hfirst
      exact ⟨b6, b7⟩
    · rintro ⟨h0, hpos⟩
      have hs := flspInit_swapped_zero f x1 x2 xacc h0 hpos
      refine ⟨hs.1, hs.2.1, ?_⟩
      have hz : flspIter f 0 (flspInit f x1 x2) = flspInit f x1 x2 := rfl
      have hstop : flspStop f xacc (flspIter f 0 (flspInit f x1 x2)) := by
        rw [hz]
        exact hs.2.2.2
      rw [rtflsp_of_first_stop f x1 x2 xacc (not_lt.mpr hb) 0 (by norm_num)
        (fun j hj => absurd hj (Nat.not_lt_zero j)) hstop, hz, hs.2.2.1]
    · rcases rtflsp_cases f x1 x2 xacc (not_lt.mpr hb) with
        ⟨hres, hall⟩ | ⟨m, hm, hmf, hms, hres⟩
      · exact Or.inl ⟨hres, hall⟩
      · right
        have hmem := flspRtf_iter_mem f x1 x2 xacc hb hnz m hmf
        rw [hres]
        exact ⟨hmem.1, hmem.2.1, m, hm, hms, rfl⟩
    · intro h0 h12
      exact rtflsp_neg_iff_failed f x1 x2 xacc hb hnz h0 h12
  · intro P hP h c hh hc1 hc2
    have hh0 : 0 < h := lt_of_lt_of_le (by norm_num) hh
    have hc0 : 0 ≤ c := le_trans (hP.clow_pos hh0.le).le hc1
    have hord := bloodBracket_ordered P hP h c hh0 hc1
    have hsign := bloodBracket_sign P hP h c hh0 hc1 hc2
    have hb : func Real.rpow P c h (bloodBracket Real.rpow P c h).1
        * func Real.rpow P c h (bloodBracket Real.rpow P c h).2 ≤ 0 := by
      unfold func
      exact mul_nonpos_of_nonpos_of_nonneg hsign.1 hsign.2.le
    have hnz : ¬ (func Real.rpow P c h (bloodBracket Real.rpow P c h).1 = 0 ∧
        func Real.rpow P c h (bloodBracket Real.rpow P c h).2 = 0) := by
      rintro ⟨_, h2⟩
      unfold func at h2
      exact absurd h2 hsign.2.ne'
    have hiff := rtflsp_neg_iff_failed (func Real.rpow P c h) _ _ (1 / 1000) hb hnz
      hord.1 hord.2
    have hp := blood_rootBranch_p Real.rpow P c h (not_lt.mpr hh) (not_lt.mpr hc0)
      (not_lt.mpr hc1) hc2
    refine ⟨hord.1, hord.2, ?_, ?_⟩
    · intro hall
      rw [hp, if_pos (hiff.mpr hall)]
    · intro hnot
      have hge : ¬ (rtflsp (func Real.rpow P c h) (bloodBracket Real.rpow P c h).1
          (bloodBracket Real.rpow P c h).2 (1 / 1000)).val < 0 :=
        fun hlt => hnot (hiff.mp hlt)
      rw [hp, if_neg hge]
      exact ⟨rfl, not_lt.mp hge⟩

/-- Witness for C20 (amended): the first iterate on `f x = x - 1`, `[0, 3]` over
the rationals, and the bracket of `blood` on the example profile at `h = 0.4`,
`c = bloodconc 26 0.4`. -/
theorem rtflsp_stays_in_bracket_witness :
    ((fun x : ℚ => x - 1) 0) * ((fun x : ℚ => x - 1) 3) ≤ 0 ∧
    ¬ ((fun x : ℚ => x - 1) 0 = 0 ∧ (fun x : ℚ => x - 1) 3 = 0) ∧
    (min 0 3 ≤ flspRtf (flspIter (fun x : ℚ => x - 1) 0 (flspInit (fun x : ℚ => x - 1) 0 3)) ∧
      flspRtf (flspIter (fun x : ℚ => x - 1) 0 (flspInit (fun x : ℚ => x - 1) 0 3))
        ≤ max 0 3) ∧
    WellFormed Real.rpow (exampleParams Real.rpow) ∧
    0 ≤ (bloodBracket Real.rpow (exampleParams Real.rpow)
      (bloodconc Real.rpow (exampleParams Real.rpow) 26 (2 / 5)) (2 / 5)).1 ∧
    (bloodBracket Real.rpow (exampleParams Real.rpow)
      (bloodconc Real.rpow (exampleParams Real.rpow) 26 (2 / 5)) (2 / 5)).1
      ≤ (bloodBracket Real.rpow (exampleParams Real.rpow)
      (bloodconc Real.rpow (exampleParams Real.rpow) 26 (2 / 5)) (2 / 5)).2 := by
  have hP := exampleParams_wellFormed
  have h1 : (exampleParams Real.rpow).clowfac * (2 / 5)
      + (exampleParams Real.rpow).alphab * (exampleParams Real.rpow).plow
      ≤ bloodconc Real.rpow (exampleParams Real.rpow) 26 (2 / 5) := by
    rw [← hP.bloodconc_plow]
    exact (bloodconc_lt_of_lt _ hP (by norm_num) (by norm_num [exampleParams])).le
  have h2 : bloodconc Real.rpow (exampleParams Real.rpow) 26 (2 / 5)
      < (exampleParams Real.rpow).chighfac * (2 / 5)
        + (exampleParams Real.rpow).alphab * (exampleParams Real.rpow).phigh := by
    rw [← hP.bloodconc_phigh]
    exact bloodconc_lt_of_lt _ hP (by norm_num) (by norm_num [exampleParams])
  have ha := ((rtflsp_stays_in_bracket.1 ℚ (fun x : ℚ => x - 1) 0 3 (1 / 1000)
    (by norm_num) (by norm_num)).1 0 (fun j hj => absurd hj (Nat.not_lt_zero j)))
  have hbld := rtflsp_stays_in_bracket.2 (exampleParams Real.rpow) hP (2 / 5) _
    (by norm_num) h1 h2
  exact ⟨by norm_num, by norm_num, ⟨ha.1, ha.2.1⟩, hP, hbld.1, hbld.2.1⟩

end GreensV4BC
